import Mathlib

/-!
# Failover core of the relay: error classification and windowed error counters

A shallow embedding of `src/utils/retryHelper.js` (class `RetryHelper`) and
`src/utils/consoleErrorHandler.js` (class `ConsoleErrorHandler`).

* JavaScript values are the inductive type `JSValue`; numbers are restricted to
  integers (HTTP status codes, counters, thresholds and windows in seconds).
* Asynchronous methods that talk to the counter store become functions that take
  the store and return the result together with the store afterwards.
* Logging has no effect on control flow and is left out.
-/

namespace RelayFailover

/-! ## JavaScript values -/

/-- A JavaScript value: the primitives that can occur as a status code or an error
body, and arrays and plain objects (an object is its list of own enumerable
properties, in insertion order). -/
inductive JSValue where
  | undefined : JSValue
  | null : JSValue
  | bool (b : Bool) : JSValue
  | num (n : Int) : JSValue
  | str (s : String) : JSValue
  | arr (items : List JSValue) : JSValue
  | obj (props : List (String × JSValue)) : JSValue

/-- Strict equality `v === n` of a value with a number literal. -/
def JSValue.strictEqNum : JSValue → Int → Bool
  | .num m, n => decide (m = n)
  | _, _ => false

/-- The method `Array.prototype.includes` of an array of number literals: some
element is the same value as `v`. -/
def arrayIncludes (xs : List Int) (v : JSValue) : Bool :=
  xs.any (fun x => v.strictEqNum x)

/-! ## `RetryHelper.shouldRetryError` -/

/-- Status codes of permanent errors (`permanentErrors` in the source). -/
def permanentErrors : List Int := [400, 403, 404, 422]

/-- Status codes of temporary errors (`retryableStatusCodes` in the source). -/
def retryableStatusCodes : List Int := [429, 500, 502, 503, 504, 529]

/-- `RetryHelper.shouldRetryError(_error, statusCode)`. -/
def shouldRetryError {ε : Type} (_error : ε) (statusCode : JSValue) : Bool :=
  if arrayIncludes permanentErrors statusCode then false
  else if arrayIncludes retryableStatusCodes statusCode then true
  else if statusCode.strictEqNum 401 then true
  else false

/-! ## Strings: `JSON.stringify` and `String.prototype.includes` -/

/-- Lower-case hexadecimal digit of a number below 16. -/
def hexDigit (n : Nat) : Char :=
  if n < 10 then Char.ofNat (48 + n) else Char.ofNat (87 + n)

/-- The escape of one character inside a JSON string literal: the quotation mark,
the reverse solidus and the control characters below U+0020 are escaped. -/
def quoteJSONChar (c : Char) : List Char :=
  let bs := Char.ofNat 92
  if c.toNat = 34 then [bs, Char.ofNat 34]
  else if c.toNat = 92 then [bs, bs]
  else if c.toNat = 8 then [bs, 'b']
  else if c.toNat = 12 then [bs, 'f']
  else if c.toNat = 10 then [bs, 'n']
  else if c.toNat = 13 then [bs, 'r']
  else if c.toNat = 9 then [bs, 't']
  else if c.toNat < 32 then [bs, 'u', '0', '0', hexDigit (c.toNat / 16), hexDigit (c.toNat % 16)]
  else [c]

/-- A string as a JSON string literal, between quotation marks. -/
def quoteJSONString (s : String) : String :=
  String.mk (Char.ofNat 34 :: (s.data.flatMap quoteJSONChar ++ [Char.ofNat 34]))

mutual
/-- The built-in `JSON.stringify(value)`: `none` stands for the result `undefined`,
which the built-in gives for the value `undefined`. -/
def JSON.stringify : JSValue → Option String
  | .undefined => none
  | .null => some "null"
  | .bool b => some (if b then "true" else "false")
  | .num n => some (toString n)
  | .str s => some (quoteJSONString s)
  | .arr items => some ("[" ++ ",".intercalate (JSON.stringifyItems items) ++ "]")
  | .obj props => some ("\x7b" ++ ",".intercalate (JSON.stringifyProps props) ++ "\x7d")
/-- The elements of an array: an element without a serialization is written `null`. -/
def JSON.stringifyItems : List JSValue → List String
  | [] => []
  | v :: rest =>
    (match JSON.stringify v with
      | some t => t
      | none => "null") :: JSON.stringifyItems rest
/-- The properties of an object: a property without a serialization is left out. -/
def JSON.stringifyProps : List (String × JSValue) → List String
  | [] => []
  | (k, v) :: rest =>
    match JSON.stringify v with
    | some t => (quoteJSONString k ++ ":" ++ t) :: JSON.stringifyProps rest
    | none => JSON.stringifyProps rest
end

/-- Search of `keyword` in `text`, one start position after the other. -/
def includesFrom : List Char → List Char → Bool
  | [], keyword => keyword.isPrefixOf []
  | c :: text, keyword => keyword.isPrefixOf (c :: text) || includesFrom text keyword

/-- The method `text.includes(keyword)` of `String.prototype`. -/
def includes (text keyword : String) : Bool :=
  includesFrom text.data keyword.data

/-- The string `keyword` occurs in `text` as a substring. -/
def IsSubstring (keyword text : String) : Prop :=
  ∃ before after : String, text = before ++ keyword ++ after

/-- A lower-casing that maps `A`..`Z` to `a`..`z` and keeps every other character,
as the built-in `toLowerCase` does on ASCII text. -/
def asciiLowerCase (s : String) : String :=
  String.mk (s.data.map Char.toLower)

/-! ## `ConsoleErrorHandler.isConsoleAuthError` -/

/-- An exception raised by the language itself. -/
inductive JSException where
  | typeError : JSException
  deriving DecidableEq, Repr

/-- The keywords that identify a failure of the Console account's own API key
(`consoleAuthKeywords` in the source). -/
def consoleAuthKeywords : List String :=
  [ "invalid api key",
    "invalid x-api-key",
    "authentication failed",
    "api key not found",
    "invalid authentication",
    "unauthorized api key",
    "api key is invalid",
    "missing api key" ]

/-- The text `typeof errorData === 'string' ? errorData : JSON.stringify(errorData)`;
`none` stands for `undefined`. -/
def errorTextOf (errorData : JSValue) : Option String :=
  match errorData with
  | .str s => some s
  | v => JSON.stringify v

/-- `ConsoleErrorHandler.isConsoleAuthError(statusCode, errorData)`. The built-in
`String.prototype.toLowerCase` is the parameter `toLowerCase`. Calling `toLowerCase`
on `undefined` raises a `TypeError`. -/
def isConsoleAuthError (toLowerCase : String → String) (statusCode : Int)
    (errorData : JSValue) : Except JSException Bool :=
  if statusCode ≠ 401 then .ok false
  else
    match errorTextOf errorData with
    | none => .error .typeError
    | some errorText =>
      let lowerError := toLowerCase errorText
      let isAuthError := consoleAuthKeywords.any (fun keyword => includes lowerError keyword)
      .ok isAuthError

/-! ## The counter store -/

/-- A failure of a round trip to the counter store. -/
inductive StoreError where
  | unavailable : StoreError
  deriving DecidableEq, Repr

/-- A stored counter: its integer value and, when it has a time-to-live, the time
at which it expires. -/
structure Entry where
  value : Int
  expiresAt : Option Int
  deriving DecidableEq, Repr

/-- Modelled from the spec: the shared counter store behind `redis.client`
(`src/models/redis` is not part of the sources at hand). It is a TTL-capable
key/value store of integer counters. `now` is the store's clock in seconds,
`data` the stored entries, and `faults` holds, for each failure to come, the number
of round trips that succeed before it; with `faults = []` every round trip
succeeds (a working connection). -/
structure Store where
  now : Int
  data : String → Option Entry
  faults : List Nat

/-- Modelled from the spec: the live entry under `key`; an entry whose expiry time
has been reached is absent. -/
def Store.lookup (s : Store) (key : String) : Option Entry :=
  match s.data key with
  | some e =>
    match e.expiresAt with
    | some t => if s.now < t then some e else none
    | none => some e
  | none => none

/-- Modelled from the spec: the start of a round trip; the flag tells whether this
round trip fails. -/
def Store.roundTrip (s : Store) : Bool × Store :=
  match s.faults with
  | [] => (false, s)
  | 0 :: rest => (true, { s with faults := rest })
  | (n + 1) :: rest => (false, { s with faults := n :: rest })

/-- Modelled from the spec: `increment(key) -> int`. An absent counter starts at 1
without a time-to-live; a live counter grows by one and keeps its expiry time. -/
def Store.incr (s : Store) (key : String) : Except StoreError Int × Store :=
  let (failed, s1) := s.roundTrip
  if failed then (.error .unavailable, s1)
  else
    let entry : Entry :=
      match s1.lookup key with
      | some e => { e with value := e.value + 1 }
      | none => { value := 1, expiresAt := none }
    (.ok entry.value, { s1 with data := Function.update s1.data key (some entry) })

/-- Modelled from the spec: `expire(key, seconds)`. A live counter expires `seconds`
from now; an absent one is left alone. -/
def Store.expire (s : Store) (key : String) (seconds : Int) : Except StoreError Unit × Store :=
  let (failed, s1) := s.roundTrip
  if failed then (.error .unavailable, s1)
  else
    match s1.lookup key with
    | some e =>
      (.ok (), { s1 with
        data := Function.update s1.data key (some { e with expiresAt := some (s1.now + seconds) }) })
    | none => (.ok (), s1)

/-- Modelled from the spec: `get(key) -> int|null`; `none` stands for `null`. -/
def Store.get (s : Store) (key : String) : Except StoreError (Option Int) × Store :=
  let (failed, s1) := s.roundTrip
  if failed then (.error .unavailable, s1)
  else (.ok ((s1.lookup key).map (fun e => e.value)), s1)

/-- Modelled from the spec: `delete(key)`. -/
def Store.del (s : Store) (key : String) : Except StoreError Unit × Store :=
  let (failed, s1) := s.roundTrip
  if failed then (.error .unavailable, s1)
  else (.ok (), { s1 with data := Function.update s1.data key none })

/-- Modelled from the spec: `seconds` of time pass at the store. -/
def Store.advance (s : Store) (seconds : Int) : Store :=
  { s with now := s.now + seconds }

/-- A store without counters whose round trips all succeed. -/
def Store.empty : Store :=
  { now := 0, data := fun _ => none, faults := [] }

/-! ## `ConsoleErrorHandler`: counters -/

/-- The expression `x || fallback` for `x` an integer or absent (`undefined`, `null`
or `NaN`): zero and an absent `x` are falsy. -/
def orElse (x : Option Int) (fallback : Int) : Int :=
  match x with
  | some v => if v = 0 then fallback else v
  | none => fallback

/-- The built-in `parseInt` on what the store's `get` returns: an integer is parsed
back to itself, `null` gives `NaN` (`none`). -/
def parseInt (count : Option Int) : Option Int :=
  count

/-- The template string of the store key, as written in `incrementErrorCounter`,
`clearErrorCounters` and `getErrorCount`. -/
def counterKey (accountId errorType : String) : String :=
  "console_account:" ++ accountId ++ ":error:" ++ errorType

/-- `ConsoleErrorHandler.incrementErrorCounter(accountId, errorType, windowSeconds)`. -/
def incrementErrorCounter (s : Store) (accountId errorType : String) (windowSeconds : Int) :
    Int × Store :=
  let key := counterKey accountId errorType
  match s.incr key with
  | (.ok count, s1) =>
    match s1.expire key windowSeconds with
    | (.ok _, s2) => (count, s2)
    | (.error _, s2) => (0, s2)
  | (.error _, s1) => (0, s1)

/-- The loop `for (const type of errorTypes)` of `clearErrorCounters`; a failure of
`del` leaves the loop. -/
def clearErrorCountersLoop (s : Store) (accountId : String) :
    List String → Except StoreError Unit × Store
  | [] => (.ok (), s)
  | type :: rest =>
    match s.del (counterKey accountId type) with
    | (.ok _, s1) => clearErrorCountersLoop s1 accountId rest
    | (.error e, s1) => (.error e, s1)

/-- `ConsoleErrorHandler.clearErrorCounters(accountId)`. -/
def clearErrorCounters (s : Store) (accountId : String) : Store :=
  let errorTypes := ["401", "429", "529"]
  match clearErrorCountersLoop s accountId errorTypes with
  | (.ok _, s1) => s1
  | (.error _, s1) => s1

/-- `ConsoleErrorHandler.getErrorCount(accountId, errorType)`. -/
def getErrorCount (s : Store) (accountId errorType : String) : Int × Store :=
  let key := counterKey accountId errorType
  match s.get key with
  | (.ok count, s1) => (orElse (parseInt count) 0, s1)
  | (.error _, s1) => (0, s1)

/-! ## `ConsoleErrorHandler.shouldMarkAccountUnavailable` -/

/-- The options under `config.retry.console`; `none` is an option that is not set. -/
structure ConsoleConfig where
  intelligentErrorHandling : Option Bool
  max401Errors : Option Int
  error401Window : Option Int
  max429Errors : Option Int
  error429Window : Option Int
  max529Errors : Option Int
  error529Window : Option Int

/-- The object `config.retry`. -/
structure RetryConfig where
  console : Option ConsoleConfig

/-- The configuration object `config` (`config/config` is not part of the sources
at hand, so it is an argument). -/
structure Config where
  retry : Option RetryConfig

/-- The optional chain `config.retry?.console?.option`. -/
def Config.consoleOption {α : Type} (config : Config) (option : ConsoleConfig → Option α) :
    Option α :=
  match config.retry with
  | some retry =>
    match retry.console with
    | some console => option console
    | none => none
  | none => none

/-- The object returned by `shouldMarkAccountUnavailable`. -/
structure Decision where
  shouldMarkUnavailable : Bool
  errorType : String
  errorCount : Int
  threshold : Int
  deriving DecidableEq, Repr

/-- `ConsoleErrorHandler.shouldMarkAccountUnavailable(accountId, statusCode, errorData)`,
with the configuration and the counter store as arguments. `statusCode` is a
number, as the source documents it, and `statusCode.toString()` is its decimal
form. -/
def shouldMarkAccountUnavailable (toLowerCase : String → String) (config : Config) (s : Store)
    (accountId : String) (statusCode : Int) (errorData : JSValue) :
    Except JSException Decision × Store :=
  if (config.consoleOption (fun c => c.intelligentErrorHandling)) ≠ some true then
    (.ok { shouldMarkUnavailable := true, errorType := toString statusCode,
           errorCount := 1, threshold := 1 }, s)
  else if statusCode = 401 then
    match isConsoleAuthError toLowerCase statusCode errorData with
    | .error e => (.error e, s)
    | .ok isConsoleAuth =>
      if isConsoleAuth then
        (.ok { shouldMarkUnavailable := true, errorType := "401_console_auth",
               errorCount := 1, threshold := 1 }, s)
      else
        let max401 := orElse (config.consoleOption (fun c => c.max401Errors)) 3
        let window := orElse (config.consoleOption (fun c => c.error401Window)) 300
        let (errorCount, s1) := incrementErrorCounter s accountId "401" window
        let shouldMark := decide (errorCount ≥ max401)
        (.ok { shouldMarkUnavailable := shouldMark, errorType := "401_upstream",
               errorCount := errorCount, threshold := max401 }, s1)
  else if statusCode = 429 then
    let max429 := orElse (config.consoleOption (fun c => c.max429Errors)) 5
    let window := orElse (config.consoleOption (fun c => c.error429Window)) 300
    let (errorCount, s1) := incrementErrorCounter s accountId "429" window
    let shouldMark := decide (errorCount ≥ max429)
    (.ok { shouldMarkUnavailable := shouldMark, errorType := "429",
           errorCount := errorCount, threshold := max429 }, s1)
  else if statusCode = 529 then
    let max529 := orElse (config.consoleOption (fun c => c.max529Errors)) 3
    let window := orElse (config.consoleOption (fun c => c.error529Window)) 180
    let (errorCount, s1) := incrementErrorCounter s accountId "529" window
    let shouldMark := decide (errorCount ≥ max529)
    (.ok { shouldMarkUnavailable := shouldMark, errorType := "529",
           errorCount := errorCount, threshold := max529 }, s1)
  else
    (.ok { shouldMarkUnavailable := true, errorType := toString statusCode,
           errorCount := 1, threshold := 1 }, s)

/-- A sequence of `incrementErrorCounter` calls on one counter: a first call, and
after each gap of the list (seconds since the call before) one more call. The
results of the calls are returned in order. -/
def incrementSequence (s : Store) (accountId errorType : String) (windowSeconds : Int) :
    List Int → List Int × Store
  | [] =>
    let (count, s1) := incrementErrorCounter s accountId errorType windowSeconds
    ([count], s1)
  | gap :: gaps =>
    let (count, s1) := incrementErrorCounter s accountId errorType windowSeconds
    let (counts, s2) := incrementSequence (s1.advance gap) accountId errorType windowSeconds gaps
    (count :: counts, s2)

/-- A configuration with intelligent error handling enabled and the six options as
given. -/
def Config.enabled (max401 window401 max429 window429 max529 window529 : Option Int) : Config :=
  let console : ConsoleConfig :=
    { intelligentErrorHandling := some true,
      max401Errors := max401, error401Window := window401,
      max429Errors := max429, error429Window := window429,
      max529Errors := max529, error529Window := window529 }
  { retry := some { console := some console } }

/-- The count held by the live counter under `key`; an absent or expired counter
counts as 0. -/
def Store.count (s : Store) (key : String) : Int :=
  match s.lookup key with
  | some e => e.value
  | none => 0

/-- One increment of the counter under `key` between the stores `before` and `after`:
the counter holds `count`, one more than before, it expires `window` seconds after
the time of the call, and no other key and not the clock has changed. -/
def CountsOnce (before after : Store) (key : String) (window count : Int) : Prop :=
  count = before.count key + 1 ∧
  after.data key = some { value := count, expiresAt := some (before.now + window) } ∧
  (∀ other : String, other ≠ key → after.data other = before.data other) ∧
  after.now = before.now

/-- The way a numeric option enters a decision: a value other than zero is used
itself, a zero and an option that is not set give the fallback. -/
def OptionUsed (option : Option Int) (fallback used : Int) : Prop :=
  (∀ v : Int, option = some v → v ≠ 0 → used = v) ∧
  (option = some 0 → used = fallback) ∧
  (option = none → used = fallback)

/-- The configuration `config.retry.console = console`. -/
def Config.ofConsole (console : ConsoleConfig) : Config :=
  { retry := some { console := some console } }

/-- A console configuration with intelligent handling enabled, a threshold of 2 and a
window of 60 seconds for 401, and `error429Window` set to 0. -/
def ConsoleConfig.example : ConsoleConfig :=
  { intelligentErrorHandling := some true,
    max401Errors := some 2, error401Window := some 60,
    max429Errors := none, error429Window := some 0,
    max529Errors := none, error529Window := none }

/-! ## `RetryHelper.executeWithRetry` -/

/-- Truthiness of a value. -/
def JSValue.truthy : JSValue → Bool
  | .undefined => false
  | .null => false
  | .bool b => b
  | .num n => decide (n ≠ 0)
  | .str s => decide (s ≠ "")
  | .arr _ => true
  | .obj _ => true

/-- The expression `a || b`. -/
def JSValue.logicalOr (a b : JSValue) : JSValue :=
  if a.truthy then a else b

/-- An error object as the retry helpers read it: `message`, `statusCode`,
`status`, and `responseStatus` for the optional chain `error.response?.status`. -/
structure JSError where
  message : String
  statusCode : JSValue
  status : JSValue
  responseStatus : JSValue

/-- The object `new Error(message)`: it has no status fields. -/
def JSError.new (message : String) : JSError :=
  { message := message, statusCode := .undefined, status := .undefined,
    responseStatus := .undefined }

/-- What `selectAccountFunc` resolves to. -/
structure AccountSelection where
  accountId : String
  accountType : String

/-- The object `requestBody`, of which only `model` is read. -/
structure RequestBody (μ : Type) where
  model : μ

/-- One observable step of a retry run: a call of `selectAccountFunc` with the
session hash it was given, a call of `requestFunc` with its account, each with what
the call returned or raised, and a sleep of `delayMs` milliseconds. -/
inductive Event (ρ : Type) where
  | select (sessionHash : Option String) (outcome : Except JSError AccountSelection) : Event ρ
  | request (accountId accountType : String) (outcome : Except JSError ρ) : Event ρ
  | sleep (delayMs : Nat) : Event ρ

/-- The options object of `executeWithRetry`, with the defaults of the source. The
two callbacks act on a world `σ` (whatever state they have) and return or raise. -/
structure RetryOptions (σ ρ κ μ : Type) where
  requestFunc : σ → String → String → Except JSError ρ × σ
  selectAccountFunc : σ → κ → Option String → μ → Except JSError AccountSelection × σ
  apiKeyData : κ
  requestBody : RequestBody μ
  sessionHash : Option String := none
  maxRetries : Int := 2
  clearSessionOnRetry : Bool := true

/-- A finished call: the value returned (`ok`) or the error raised, the events in
order, and the world afterwards. -/
structure RetryRun (σ ρ : Type) where
  result : Except JSError ρ
  log : List (Event ρ)
  world : σ

/-- The run that first goes through `events` and then continues as `run`. -/
def RetryRun.after {σ ρ : Type} (events : List (Event ρ)) (run : RetryRun σ ρ) : RetryRun σ ρ :=
  { run with log := events ++ run.log }

/-- The status `error.statusCode || error.status || null` that `executeWithRetry`
derives from a caught error. -/
def lastStatusCodeOf (error : JSError) : JSValue :=
  (error.statusCode.logicalOr error.status).logicalOr .null

/-- The delay `Math.min(100 * Math.pow(2, attempt), 1000)`. -/
def backoffDelay (attempt : Nat) : Nat :=
  min (100 * 2 ^ attempt) 1000

/-- The `catch` block of `executeWithRetry`: `none` when the error is thrown again
(not retryable, or `attempt >= maxRetries`), else the delay to sleep before the
loop goes on. -/
def catchBlock (maxRetries : Int) (attempt : Nat) (error : JSError) : Option Nat :=
  let lastStatusCode := lastStatusCodeOf error
  if ¬ shouldRetryError error lastStatusCode = true then none
  else if (attempt : Int) ≥ maxRetries then none
  else some (backoffDelay attempt)

/-- The session hash given to the selector:
`attempt === 0 || !clearSessionOnRetry ? sessionHash : null`. -/
def effectiveSessionHash (sessionHash : Option String) (clearSessionOnRetry : Bool)
    (attempt : Nat) : Option String :=
  if attempt = 0 ∨ clearSessionOnRetry = false then sessionHash else none

/-- The loop `for (let attempt = 0; attempt <= maxRetries; attempt++)` of
`executeWithRetry`, from iteration `attempt` on, with `remaining` iterations to go
(`attempt <= maxRetries` holds as long as `remaining` is not 0), and the statement
after the loop, `throw lastError || new Error('Retry failed with unknown error')`. -/
def executeWithRetryLoop {σ ρ κ μ : Type} (options : RetryOptions σ ρ κ μ) :
    Nat → Nat → Option JSError → List String → σ → RetryRun σ ρ
  | 0, _, lastError, _, world =>
    { result := .error (lastError.getD (JSError.new "Retry failed with unknown error")),
      log := [], world := world }
  | remaining + 1, attempt, lastError, attemptedAccounts, world =>
    let effective :=
      effectiveSessionHash options.sessionHash options.clearSessionOnRetry attempt
    match options.selectAccountFunc world options.apiKeyData effective
        options.requestBody.model with
    | (.error error, world1) =>
      match catchBlock options.maxRetries attempt error with
      | none =>
        { result := .error error, log := [.select effective (.error error)], world := world1 }
      | some delayMs =>
        (executeWithRetryLoop options remaining (attempt + 1) (some error) attemptedAccounts
          world1).after [.select effective (.error error), .sleep delayMs]
    | (.ok accountSelection, world1) =>
      if accountSelection.accountId ∈ attemptedAccounts then
        (executeWithRetryLoop options remaining (attempt + 1) lastError attemptedAccounts
          world1).after [.select effective (.ok accountSelection)]
      else
        match options.requestFunc world1 accountSelection.accountId
            accountSelection.accountType with
        | (.ok result, world2) =>
          { result := .ok result,
            log := [.select effective (.ok accountSelection),
              .request accountSelection.accountId accountSelection.accountType (.ok result)],
            world := world2 }
        | (.error error, world2) =>
          match catchBlock options.maxRetries attempt error with
          | none =>
            { result := .error error,
              log := [.select effective (.ok accountSelection),
                .request accountSelection.accountId accountSelection.accountType (.error error)],
              world := world2 }
          | some delayMs =>
            (executeWithRetryLoop options remaining (attempt + 1) (some error)
              (attemptedAccounts ++ [accountSelection.accountId]) world2).after
              [.select effective (.ok accountSelection),
                .request accountSelection.accountId accountSelection.accountType (.error error),
                .sleep delayMs]

/-- `RetryHelper.executeWithRetry(options)`, started in `world`. -/
def executeWithRetry {σ ρ κ μ : Type} (options : RetryOptions σ ρ κ μ) (world : σ) :
    RetryRun σ ρ :=
  executeWithRetryLoop options (options.maxRetries + 1).toNat 0 none [] world

/-- The session hashes of the `selectAccountFunc` calls of a log, in order. -/
def selectTokens {ρ : Type} : List (Event ρ) → List (Option String)
  | [] => []
  | .select sessionHash _ :: rest => sessionHash :: selectTokens rest
  | _ :: rest => selectTokens rest

/-- The account ids of the `requestFunc` calls of a log, in order. -/
def requestedAccounts {ρ : Type} : List (Event ρ) → List String
  | [] => []
  | .request accountId _ _ :: rest => accountId :: requestedAccounts rest
  | _ :: rest => requestedAccounts rest

/-- The delays of the sleeps of a log, in order. -/
def sleepDelays {ρ : Type} : List (Event ρ) → List Nat
  | [] => []
  | .sleep delayMs :: rest => delayMs :: sleepDelays rest
  | _ :: rest => sleepDelays rest

/-- The errors caught in a log (raised by the selector or by the request), in
order. -/
def caughtErrors {ρ : Type} : List (Event ρ) → List JSError
  | [] => []
  | .select _ (.error error) :: rest => error :: caughtErrors rest
  | .request _ _ (.error error) :: rest => error :: caughtErrors rest
  | _ :: rest => caughtErrors rest

/-- A world of scripted callbacks: the number of `selectAccountFunc` calls and of
`requestFunc` calls made so far. -/
structure ScriptWorld where
  selects : Nat
  requests : Nat
  deriving DecidableEq, Repr

/-- Options whose callbacks follow scripts: the call number `i` (from 0) of the
selector returns or raises `selectScript i`, the call number `j` of the request
function `requestScript j`, whatever the arguments. -/
def scriptedOptions {ρ : Type} (selectScript : Nat → Except JSError AccountSelection)
    (requestScript : Nat → Except JSError ρ) (sessionHash : Option String) (maxRetries : Int)
    (clearSessionOnRetry : Bool) : RetryOptions ScriptWorld ρ Unit Unit :=
  { requestFunc := fun world _ _ =>
      (requestScript world.requests, { world with requests := world.requests + 1 }),
    selectAccountFunc := fun world _ _ _ =>
      (selectScript world.selects, { world with selects := world.selects + 1 }),
    apiKeyData := (),
    requestBody := { model := () },
    sessionHash := sessionHash,
    maxRetries := maxRetries,
    clearSessionOnRetry := clearSessionOnRetry }

/-- An error that carries the status code `status` in `statusCode`. -/
def JSError.withStatus (message : String) (status : Int) : JSError :=
  { message := message, statusCode := .num status, status := .undefined,
    responseStatus := .undefined }

/-- The accounts `acct-0`, `acct-1`, `acct-2`, ... of type `claude`, one for each
call number. -/
def distinctAccounts (i : Nat) : Except JSError AccountSelection :=
  .ok { accountId := "acct-" ++ toString i, accountType := "claude" }

/-- The same account `acct-0` on every call. -/
def sameAccount (_ : Nat) : Except JSError AccountSelection :=
  .ok { accountId := "acct-0", accountType := "claude" }

/-! ## Reachable store states -/

/-- The store states reachable from a store without counters through
`incrementErrorCounter`, `clearErrorCounters`, `getErrorCount`, the passing of time
(which lets counters expire) and any change of the connection's fault plan. -/
inductive Reachable : Store → Prop where
  | initial (now : Int) (faults : List Nat) :
      Reachable { now := now, data := fun _ => none, faults := faults }
  | increment {s : Store} (accountId errorType : String) (windowSeconds : Int) :
      Reachable s → Reachable (incrementErrorCounter s accountId errorType windowSeconds).2
  | clear {s : Store} (accountId : String) :
      Reachable s → Reachable (clearErrorCounters s accountId)
  | read {s : Store} (accountId errorType : String) :
      Reachable s → Reachable (getErrorCount s accountId errorType).2
  | elapse {s : Store} (seconds : Int) :
      0 ≤ seconds → Reachable s → Reachable (s.advance seconds)
  | connection {s : Store} (faults : List Nat) :
      Reachable s → Reachable { s with faults := faults }

/-- Every stored counter is at least 1. -/
def Store.Positive (s : Store) : Prop :=
  ∀ (key : String) (e : Entry), s.data key = some e → 0 < e.value

/-- Scripted options whose request function fails with status 429 on every call,
with session hash `session-1` and `clearSessionOnRetry = true`. -/
def optionsAlways429 (selectScript : Nat → Except JSError AccountSelection) (maxRetries : Int) :
    RetryOptions ScriptWorld String Unit Unit :=
  scriptedOptions selectScript (fun _ => .error (JSError.withStatus "rate limited" 429))
    (some "session-1") maxRetries true

/-- Scripted options with a fresh account on every call whose request function
follows `requestScript`. -/
def optionsDistinct (requestScript : Nat → Except JSError String) (maxRetries : Int) :
    RetryOptions ScriptWorld String Unit Unit :=
  scriptedOptions distinctAccounts requestScript (some "session-1") maxRetries true

/-- The start of a scripted world: no call made yet. -/
def ScriptWorld.start : ScriptWorld :=
  { selects := 0, requests := 0 }

/-- The account ids that the selector returned in a log, in order. -/
def selectedAccounts {ρ : Type} : List (Event ρ) → List String
  | [] => []
  | .select _ (.ok selection) :: rest => selection.accountId :: selectedAccounts rest
  | _ :: rest => selectedAccounts rest

/-- A selector that raises an error with status 503 on its first call and returns
the account `acct-1` from then on. -/
def selectorFailsOnce : Nat → Except JSError AccountSelection
  | 0 => .error (JSError.withStatus "selector unavailable" 503)
  | _ + 1 => .ok { accountId := "acct-1", accountType := "claude" }

/-- A request function that fails with `status` on its first `failures` calls and
then returns `done`. -/
def failsThenSucceeds (failures : Nat) (status : Int) (call : Nat) : Except JSError String :=
  if call < failures then .error (JSError.withStatus "unavailable" status) else .ok "done"

/-- The last event of the log, if there is one, is a selection that returned an
account: the attempt ended with the skip of an account attempted before. -/
def EndsWithSkip {ρ : Type} (log : List (Event ρ)) : Prop :=
  ∀ last : Event ρ, log.getLast? = some last →
    ∃ (sessionHash : Option String) (selection : AccountSelection),
      last = Event.select sessionHash (Except.ok selection)

/-! ## `RetryHelper.executeConsoleRequestWithRetry` -/

/-- The options object of `executeConsoleRequestWithRetry`, with the default of the
source; `_apiKeyData` and `_requestBody` are not read. The callback acts on a
world `σ` and returns or raises. -/
structure ConsoleRetryOptions (σ ρ : Type) where
  requestFunc : σ → Except JSError ρ × σ
  accountId : String
  maxRetries : Int := 1

/-- One observable step of a console retry run: a call of `requestFunc` with what it
returned or raised, and a sleep of `delayMs` milliseconds. -/
inductive ConsoleEvent (ρ : Type) where
  | request (outcome : Except JSError ρ) : ConsoleEvent ρ
  | sleep (delayMs : Nat) : ConsoleEvent ρ

/-- A finished console call: the value returned (`ok`) or the value raised (`none`
stands for the value `null`), the events in order, and the world afterwards. -/
structure ConsoleRun (σ ρ : Type) where
  result : Except (Option JSError) ρ
  log : List (ConsoleEvent ρ)
  world : σ

/-- The console run that first goes through `events` and then continues as `run`. -/
def ConsoleRun.after {σ ρ : Type} (events : List (ConsoleEvent ρ)) (run : ConsoleRun σ ρ) :
    ConsoleRun σ ρ :=
  { run with log := events ++ run.log }

/-- The status `error.statusCode || error.status || error.response?.status` that
`executeConsoleRequestWithRetry` derives from a caught error. -/
def consoleStatusCodeOf (error : JSError) : JSValue :=
  (error.statusCode.logicalOr error.status).logicalOr error.responseStatus

/-- The `catch` block of `executeConsoleRequestWithRetry`: `none` when the error is
thrown again (not retryable, or `attempt >= maxRetries`), else the fixed delay of
200 ms to sleep before the loop goes on. -/
def consoleCatchBlock (maxRetries : Int) (attempt : Nat) (error : JSError) : Option Nat :=
  let statusCode := consoleStatusCodeOf error
  if ¬ shouldRetryError error statusCode = true then none
  else if (attempt : Int) ≥ maxRetries then none
  else some 200

/-- The loop `for (let attempt = 0; attempt <= maxRetries; attempt++)` of
`executeConsoleRequestWithRetry`, from iteration `attempt` on, with `remaining`
iterations to go, and the statement after the loop, `throw lastError`. -/
def executeConsoleRequestWithRetryLoop {σ ρ : Type} (options : ConsoleRetryOptions σ ρ) :
    Nat → Nat → Option JSError → σ → ConsoleRun σ ρ
  | 0, _, lastError, world =>
    { result := .error lastError, log := [], world := world }
  | remaining + 1, attempt, _, world =>
    match options.requestFunc world with
    | (.ok result, world1) =>
      { result := .ok result, log := [.request (.ok result)], world := world1 }
    | (.error error, world1) =>
      match consoleCatchBlock options.maxRetries attempt error with
      | none =>
        { result := .error (some error), log := [.request (.error error)], world := world1 }
      | some delayMs =>
        (executeConsoleRequestWithRetryLoop options remaining (attempt + 1) (some error)
          world1).after [.request (.error error), .sleep delayMs]

/-- `RetryHelper.executeConsoleRequestWithRetry(options)`, started in `world`. -/
def executeConsoleRequestWithRetry {σ ρ : Type} (options : ConsoleRetryOptions σ ρ)
    (world : σ) : ConsoleRun σ ρ :=
  executeConsoleRequestWithRetryLoop options (options.maxRetries + 1).toNat 0 none world

/-- The outcomes of the `requestFunc` calls of a console log, in order. -/
def consoleRequests {ρ : Type} : List (ConsoleEvent ρ) → List (Except JSError ρ)
  | [] => []
  | .request outcome :: rest => outcome :: consoleRequests rest
  | .sleep _ :: rest => consoleRequests rest

/-- The delays of the sleeps of a console log, in order. -/
def consoleSleeps {ρ : Type} : List (ConsoleEvent ρ) → List Nat
  | [] => []
  | .request _ :: rest => consoleSleeps rest
  | .sleep delayMs :: rest => delayMs :: consoleSleeps rest

/-- Console options whose request function follows a script: the call number `j`
(from 0) returns or raises `requestScript j`; the world is the number of calls made
so far. -/
def scriptedConsoleOptions {ρ : Type} (requestScript : Nat → Except JSError ρ)
    (maxRetries : Int) : ConsoleRetryOptions Nat ρ :=
  { requestFunc := fun calls => (requestScript calls, calls + 1),
    accountId := "console-1",
    maxRetries := maxRetries }

/-- An error that carries its status only at `error.response.status`. -/
def JSError.withResponseStatus (message : String) (status : Int) : JSError :=
  { message := message, statusCode := .undefined, status := .undefined,
    responseStatus := .num status }

/-- The events of `count` attempts in a row, from attempt `attempt` on, that each
select `selection` and skip it. -/
def skippedAttempts {ρ : Type} (sessionHash : Option String) (clearSessionOnRetry : Bool)
    (selection : AccountSelection) (attempt : Nat) : Nat → List (Event ρ)
  | 0 => []
  | count + 1 =>
    Event.select (effectiveSessionHash sessionHash clearSessionOnRetry attempt)
        (Except.ok selection) ::
      skippedAttempts sessionHash clearSessionOnRetry selection (attempt + 1) count

/-! ## Theorems -/

/-- C1: `shouldRetryError(e, s)` is true exactly when `s` is one of the numbers
401, 429, 500, 502, 503, 504, 529; it is false for 400, 403, 404, 422, for `null`
and `undefined`, and the result is the same for any two error values. -/
theorem shouldRetryError_iff {ε : Type} (e : ε) (s : JSValue) :
    (shouldRetryError e s = true ↔
      ∃ n : Int, s = JSValue.num n ∧ n ∈ [401, 429, 500, 502, 503, 504, 529]) ∧
    shouldRetryError e (JSValue.num 400) = false ∧
    shouldRetryError e (JSValue.num 403) = false ∧
    shouldRetryError e (JSValue.num 404) = false ∧
    shouldRetryError e (JSValue.num 422) = false ∧
    shouldRetryError e JSValue.null = false ∧
    shouldRetryError e JSValue.undefined = false ∧
    (∀ (δ : Type) (e2 : δ), shouldRetryError e2 s = shouldRetryError e s) := by
  refine ⟨?_, rfl, rfl, rfl, rfl, rfl, rfl, fun _ _ => rfl⟩
  cases s with
  | num n =>
    simp only [shouldRetryError, arrayIncludes, permanentErrors, retryableStatusCodes,
      JSValue.strictEqNum, List.any_cons, List.any_nil, Bool.or_false, Bool.or_eq_true,
      decide_eq_true_eq, JSValue.num.injEq, exists_eq_left', List.mem_cons, List.mem_singleton,
      List.not_mem_nil, or_false]
    constructor
    · intro h
      split_ifs at h <;> omega
    · intro h
      split_ifs <;> first | rfl | omega
  | _ => simp [shouldRetryError, arrayIncludes, JSValue.strictEqNum]


/-! ### Substring search -/

theorem includesFrom_iff_infix (text keyword : List Char) :
    includesFrom text keyword = true ↔ keyword <:+: text := by
  induction text with
  | nil =>
    cases keyword <;> simp [includesFrom, List.isPrefixOf]
  | cons c text ih =>
    rw [includesFrom, Bool.or_eq_true, ih, List.isPrefixOf_iff_prefix, List.infix_cons_iff]

theorem includes_iff_isSubstring (text keyword : String) :
    includes text keyword = true ↔ IsSubstring keyword text := by
  rw [includes, includesFrom_iff_infix]
  constructor
  · rintro ⟨before, after, h⟩
    refine ⟨⟨before⟩, ⟨after⟩, ?_⟩
    apply String.ext
    simp [String.data_append, h]
  · rintro ⟨before, after, h⟩
    refine ⟨before.data, after.data, ?_⟩
    rw [h]
    simp [String.data_append]

theorem isConsoleAuthError_undefined (toLowerCase : String → String) :
    isConsoleAuthError toLowerCase 401 JSValue.undefined = Except.error JSException.typeError :=
  rfl

/-- C2: for a body that is a string, or a value that `JSON.stringify` serializes,
with text `text`, `isConsoleAuthError(s, b)` returns a boolean that is true exactly
when `s` is 401 and the lower-cased text contains one of the eight keywords as a
substring; for a status other than 401 it returns false for every body. -/
theorem isConsoleAuthError_iff (toLowerCase : String → String) (s : Int) (b : JSValue)
    (text : String)
    (hb : b = JSValue.str text ∨ ((∀ t, b ≠ JSValue.str t) ∧ JSON.stringify b = some text)) :
    (∃ r : Bool, isConsoleAuthError toLowerCase s b = Except.ok r ∧
      (r = true ↔ s = 401 ∧
        ∃ keyword ∈ ["invalid api key", "invalid x-api-key", "authentication failed",
            "api key not found", "invalid authentication", "unauthorized api key",
            "api key is invalid", "missing api key"],
          IsSubstring keyword (toLowerCase text))) ∧
    (∀ (s2 : Int) (b2 : JSValue), s2 ≠ 401 →
      isConsoleAuthError toLowerCase s2 b2 = Except.ok false) := by
  have htext : errorTextOf b = some text := by
    rcases hb with h | ⟨h1, h2⟩
    · rw [h, errorTextOf]
    · cases b with
      | str t => exact absurd rfl (h1 t)
      | _ => simpa [errorTextOf] using h2
  refine ⟨?_, fun s2 b2 h2 => by simp [isConsoleAuthError, h2]⟩
  by_cases hs : s = 401
  · have hrun : isConsoleAuthError toLowerCase s b = Except.ok
        (consoleAuthKeywords.any fun keyword => includes (toLowerCase text) keyword) := by
      simp only [isConsoleAuthError, hs, ne_eq, not_true_eq_false, if_false, htext]
    refine ⟨_, hrun, ?_⟩
    simp only [List.any_eq_true, includes_iff_isSubstring, consoleAuthKeywords, hs, true_and]
  · exact ⟨false, by simp [isConsoleAuthError, hs], by simp [hs]⟩

/-- Witness of C2: the body `{"error":"Invalid API Key"}` given as an object. -/
theorem isConsoleAuthError_iff_witness :
    (∃ r : Bool, isConsoleAuthError asciiLowerCase 401
        (JSValue.obj [("error", JSValue.str "Invalid API Key")]) = Except.ok r ∧
      (r = true ↔ (401 : Int) = 401 ∧
        ∃ keyword ∈ ["invalid api key", "invalid x-api-key", "authentication failed",
            "api key not found", "invalid authentication", "unauthorized api key",
            "api key is invalid", "missing api key"],
          IsSubstring keyword (asciiLowerCase "\x7b\"error\":\"Invalid API Key\"\x7d"))) ∧
    (∀ (s2 : Int) (b2 : JSValue), s2 ≠ 401 →
      isConsoleAuthError asciiLowerCase s2 b2 = Except.ok false) :=
  isConsoleAuthError_iff asciiLowerCase 401
    (JSValue.obj [("error", JSValue.str "Invalid API Key")])
    "\x7b\"error\":\"Invalid API Key\"\x7d"
    (Or.inr ⟨fun _ h => JSValue.noConfusion h, rfl⟩)

/-! ### The counter store with working round trips -/

theorem incrementErrorCounter_working (s : Store) (accountId errorType : String)
    (windowSeconds : Int) (hs : s.faults = []) :
    incrementErrorCounter s accountId errorType windowSeconds =
      (s.count (counterKey accountId errorType) + 1,
        { now := s.now,
          data := Function.update s.data (counterKey accountId errorType)
            (some { value := s.count (counterKey accountId errorType) + 1,
                    expiresAt := some (s.now + windowSeconds) }),
          faults := [] }) := by
  obtain ⟨now, data, faults⟩ := s
  simp only at hs
  subst hs
  simp only [incrementErrorCounter, Store.incr, Store.roundTrip, Store.count, Store.lookup]
  cases hd : data (counterKey accountId errorType) with
  | none => simp [Store.expire, Store.roundTrip, Store.lookup]
  | some e =>
    obtain ⟨v, ex⟩ := e
    cases ex with
    | none => simp [Store.expire, Store.roundTrip, Store.lookup]
    | some t =>
      by_cases hlt : now < t <;>
        simp [Store.expire, Store.roundTrip, Store.lookup, hlt]

theorem countsOnce_incrementErrorCounter (s : Store) (accountId errorType : String)
    (windowSeconds : Int) (hs : s.faults = []) :
    CountsOnce s (incrementErrorCounter s accountId errorType windowSeconds).2
      (counterKey accountId errorType) windowSeconds
      (incrementErrorCounter s accountId errorType windowSeconds).1 := by
  rw [incrementErrorCounter_working s accountId errorType windowSeconds hs]
  refine ⟨rfl, by simp, fun other h => by simp [Function.update_noteq h], rfl⟩

/-- C3: when `intelligentErrorHandling` is absent or false, the decision is
`{shouldMarkUnavailable: true, errorType: String(statusCode), errorCount: 1,
threshold: 1}` for every account, status code and body, and the store is returned
as it was (no round trip is made). -/
theorem shouldMarkAccountUnavailable_disabled (toLowerCase : String → String) (config : Config)
    (s : Store) (accountId : String) (statusCode : Int) (errorData : JSValue)
    (hoff : config.consoleOption (fun c => c.intelligentErrorHandling) = none ∨
      config.consoleOption (fun c => c.intelligentErrorHandling) = some false) :
    shouldMarkAccountUnavailable toLowerCase config s accountId statusCode errorData =
      (Except.ok { shouldMarkUnavailable := true, errorType := toString statusCode,
                   errorCount := 1, threshold := 1 }, s) := by
  have hne : config.consoleOption (fun c => c.intelligentErrorHandling) ≠ some true := by
    rcases hoff with h | h <;> simp [h]
  simp only [shouldMarkAccountUnavailable, hne, ne_eq, not_false_eq_true, if_true]

/-- Witness of C3: a configuration without a `retry` section, status 503. -/
theorem shouldMarkAccountUnavailable_disabled_witness :
    shouldMarkAccountUnavailable asciiLowerCase { retry := none } Store.empty "acct-1" 503
        (JSValue.str "overloaded") =
      (Except.ok { shouldMarkUnavailable := true, errorType := "503",
                   errorCount := 1, threshold := 1 }, Store.empty) :=
  shouldMarkAccountUnavailable_disabled asciiLowerCase { retry := none } Store.empty "acct-1" 503
    (JSValue.str "overloaded") (Or.inl rfl)

/-- C5: with intelligent handling enabled, a 401 whose body is an own-credential
error gives `{shouldMarkUnavailable: true, errorType: '401_console_auth',
errorCount: 1, threshold: 1}` for every store, and the store is returned as it was. -/
theorem shouldMarkAccountUnavailable_console_auth (toLowerCase : String → String)
    (config : Config) (s : Store) (accountId : String) (errorData : JSValue)
    (hon : config.consoleOption (fun c => c.intelligentErrorHandling) = some true)
    (hauth : isConsoleAuthError toLowerCase 401 errorData = Except.ok true) :
    shouldMarkAccountUnavailable toLowerCase config s accountId 401 errorData =
      (Except.ok { shouldMarkUnavailable := true, errorType := "401_console_auth",
                   errorCount := 1, threshold := 1 }, s) := by
  simp [shouldMarkAccountUnavailable, hon, hauth]

/-- Witness of C5: the body `Invalid API key` against a store that already counts
two upstream 401s. -/
theorem shouldMarkAccountUnavailable_console_auth_witness :
    shouldMarkAccountUnavailable asciiLowerCase
        (Config.enabled none none none none none none)
        (incrementSequence Store.empty "acct-1" "401" 300 [1]).2 "acct-1" 401
        (JSValue.str "Invalid API key") =
      (Except.ok { shouldMarkUnavailable := true, errorType := "401_console_auth",
                   errorCount := 1, threshold := 1 },
        (incrementSequence Store.empty "acct-1" "401" 300 [1]).2) :=
  shouldMarkAccountUnavailable_console_auth asciiLowerCase
    (Config.enabled none none none none none none)
    (incrementSequence Store.empty "acct-1" "401" 300 [1]).2 "acct-1"
    (JSValue.str "Invalid API key") rfl rfl

/-- C6: with intelligent handling enabled, every status code other than 401, 429
and 529 gives `{shouldMarkUnavailable: true, errorType: String(statusCode),
errorCount: 1, threshold: 1}`, and the store is returned as it was. -/
theorem shouldMarkAccountUnavailable_other_status (toLowerCase : String → String)
    (config : Config) (s : Store) (accountId : String) (statusCode : Int) (errorData : JSValue)
    (hon : config.consoleOption (fun c => c.intelligentErrorHandling) = some true)
    (h401 : statusCode ≠ 401) (h429 : statusCode ≠ 429) (h529 : statusCode ≠ 529) :
    shouldMarkAccountUnavailable toLowerCase config s accountId statusCode errorData =
      (Except.ok { shouldMarkUnavailable := true, errorType := toString statusCode,
                   errorCount := 1, threshold := 1 }, s) := by
  simp [shouldMarkAccountUnavailable, hon, h401, h429, h529]

/-- Witness of C6: the retryable status 503. -/
theorem shouldMarkAccountUnavailable_other_status_witness :
    shouldMarkAccountUnavailable asciiLowerCase
        (Config.enabled none none none none none none) Store.empty "acct-1" 503
        (JSValue.str "overloaded") =
      (Except.ok { shouldMarkUnavailable := true, errorType := "503",
                   errorCount := 1, threshold := 1 }, Store.empty) :=
  shouldMarkAccountUnavailable_other_status asciiLowerCase
    (Config.enabled none none none none none none) Store.empty "acct-1" 503
    (JSValue.str "overloaded") rfl (by decide) (by decide) (by decide)

/-- C4: with intelligent handling enabled and a working store, a 429, a 529 or a
401 whose body is not an own-credential error increments the one counter of the
account for that status by one and lets it expire one window after the call; the
decision carries the count after the increment, the maximum for the status as
threshold, the error type `429`, `529` or `401_upstream`, and marks the account
exactly when the count has reached the threshold. -/
theorem shouldMarkAccountUnavailable_counting (toLowerCase : String → String) (config : Config)
    (s : Store) (accountId : String) (statusCode : Int) (errorData : JSValue)
    (hon : config.consoleOption (fun c => c.intelligentErrorHandling) = some true)
    (hs : s.faults = [])
    (hstatus : statusCode = 429 ∨ statusCode = 529 ∨
      (statusCode = 401 ∧ isConsoleAuthError toLowerCase 401 errorData = Except.ok false)) :
    ∃ (d : Decision) (after : Store),
      shouldMarkAccountUnavailable toLowerCase config s accountId statusCode errorData =
        (Except.ok d, after) ∧
      (d.shouldMarkUnavailable = true ↔ d.errorCount ≥ d.threshold) ∧
      (statusCode = 401 →
        d.errorType = "401_upstream" ∧
        d.threshold = orElse (config.consoleOption (fun c => c.max401Errors)) 3 ∧
        CountsOnce s after (counterKey accountId "401")
          (orElse (config.consoleOption (fun c => c.error401Window)) 300) d.errorCount) ∧
      (statusCode = 429 →
        d.errorType = "429" ∧
        d.threshold = orElse (config.consoleOption (fun c => c.max429Errors)) 5 ∧
        CountsOnce s after (counterKey accountId "429")
          (orElse (config.consoleOption (fun c => c.error429Window)) 300) d.errorCount) ∧
      (statusCode = 529 →
        d.errorType = "529" ∧
        d.threshold = orElse (config.consoleOption (fun c => c.max529Errors)) 3 ∧
        CountsOnce s after (counterKey accountId "529")
          (orElse (config.consoleOption (fun c => c.error529Window)) 180) d.errorCount) := by
  rcases hstatus with h | h | ⟨h, hbody⟩
  · subst h
    refine ⟨_, _, by simp only [shouldMarkAccountUnavailable, hon]; rfl, by simp,
      fun h => absurd h (by decide), fun _ => ⟨rfl, rfl, ?_⟩, fun h => absurd h (by decide)⟩
    exact countsOnce_incrementErrorCounter s accountId "429" _ hs
  · subst h
    refine ⟨_, _, by simp only [shouldMarkAccountUnavailable, hon]; rfl, by simp,
      fun h => absurd h (by decide), fun h => absurd h (by decide), fun _ => ⟨rfl, rfl, ?_⟩⟩
    exact countsOnce_incrementErrorCounter s accountId "529" _ hs
  · subst h
    refine ⟨_, _, by simp only [shouldMarkAccountUnavailable, hon, hbody]; rfl, by simp,
      fun _ => ⟨rfl, rfl, ?_⟩, fun h => absurd h (by decide), fun h => absurd h (by decide)⟩
    exact countsOnce_incrementErrorCounter s accountId "401" _ hs

/-- Witness of C4: the second 429 of an account, with the default threshold 5 and
the default window of 300 seconds. -/
theorem shouldMarkAccountUnavailable_counting_witness :
    ∃ (d : Decision) (after : Store),
      shouldMarkAccountUnavailable asciiLowerCase (Config.enabled none none none none none none)
          (incrementSequence Store.empty "acct-1" "429" 300 []).2 "acct-1" 429
          (JSValue.str "rate limited") = (Except.ok d, after) ∧
      (d.shouldMarkUnavailable = true ↔ d.errorCount ≥ d.threshold) ∧
      ((429 : Int) = 401 → d.errorType = "401_upstream" ∧ d.threshold = 3 ∧
        CountsOnce (incrementSequence Store.empty "acct-1" "429" 300 []).2 after
          (counterKey "acct-1" "401") 300 d.errorCount) ∧
      ((429 : Int) = 429 → d.errorType = "429" ∧ d.threshold = 5 ∧
        CountsOnce (incrementSequence Store.empty "acct-1" "429" 300 []).2 after
          (counterKey "acct-1" "429") 300 d.errorCount) ∧
      ((429 : Int) = 529 → d.errorType = "529" ∧ d.threshold = 3 ∧
        CountsOnce (incrementSequence Store.empty "acct-1" "429" 300 []).2 after
          (counterKey "acct-1" "529") 180 d.errorCount) :=
  shouldMarkAccountUnavailable_counting asciiLowerCase
    (Config.enabled none none none none none none)
    (incrementSequence Store.empty "acct-1" "429" 300 []).2 "acct-1" 429
    (JSValue.str "rate limited") rfl rfl (Or.inl rfl)

/-! ### Options and their defaults -/

theorem optionUsed_orElse (option : Option Int) (fallback : Int) :
    OptionUsed option fallback (orElse option fallback) := by
  refine ⟨fun v h hv => ?_, fun h => ?_, fun h => ?_⟩ <;> simp [orElse, h, *]

/-- Counterexample to C7 as stated: with `max401Errors` set to 0 the decision for an
upstream 401 carries the threshold 3, so no decision with threshold 0 is returned. -/
theorem zero_max401Errors_not_used :
    (shouldMarkAccountUnavailable asciiLowerCase
        (Config.enabled (some 0) none none none none none) Store.empty "acct-1" 401
        (JSValue.str "token expired")).1 =
      Except.ok { shouldMarkUnavailable := false, errorType := "401_upstream",
                  errorCount := 1, threshold := 3 } ∧
    ¬ ∃ d : Decision,
      (shouldMarkAccountUnavailable asciiLowerCase
        (Config.enabled (some 0) none none none none none) Store.empty "acct-1" 401
        (JSValue.str "token expired")).1 = Except.ok d ∧ d.threshold = 0 := by
  have hrun : (shouldMarkAccountUnavailable asciiLowerCase
        (Config.enabled (some 0) none none none none none) Store.empty "acct-1" 401
        (JSValue.str "token expired")).1 =
      Except.ok { shouldMarkUnavailable := false, errorType := "401_upstream",
                  errorCount := 1, threshold := 3 } := rfl
  refine ⟨hrun, ?_⟩
  rintro ⟨d, hd, hzero⟩
  rw [hrun] at hd
  have hdec := Except.ok.inj hd
  rw [← hdec] at hzero
  exact absurd hzero (by decide)

/-- C7, amended: with intelligent handling enabled, a working store and a body that
is not an own-credential error, each of the six options is used as the threshold or
the window of its status when it is set to an integer other than zero; when it is
not set, or set to 0, the default (3, 300, 5, 300, 3, 180) is used. The window is
read off the expiry time of the counter after the decision. -/
theorem shouldMarkAccountUnavailable_options (toLowerCase : String → String)
    (console : ConsoleConfig) (s : Store) (accountId : String) (errorData : JSValue)
    (hon : console.intelligentErrorHandling = some true) (hs : s.faults = [])
    (hbody : isConsoleAuthError toLowerCase 401 errorData = Except.ok false) :
    ∃ (d401 d429 d529 : Decision) (s401 s429 s529 : Store) (w401 w429 w529 : Int),
      shouldMarkAccountUnavailable toLowerCase (Config.ofConsole console) s accountId 401
        errorData = (Except.ok d401, s401) ∧
      shouldMarkAccountUnavailable toLowerCase (Config.ofConsole console) s accountId 429
        errorData = (Except.ok d429, s429) ∧
      shouldMarkAccountUnavailable toLowerCase (Config.ofConsole console) s accountId 529
        errorData = (Except.ok d529, s529) ∧
      OptionUsed console.max401Errors 3 d401.threshold ∧
      OptionUsed console.max429Errors 5 d429.threshold ∧
      OptionUsed console.max529Errors 3 d529.threshold ∧
      OptionUsed console.error401Window 300 w401 ∧
      OptionUsed console.error429Window 300 w429 ∧
      OptionUsed console.error529Window 180 w529 ∧
      (s401.data (counterKey accountId "401")).bind Entry.expiresAt = some (s.now + w401) ∧
      (s429.data (counterKey accountId "429")).bind Entry.expiresAt = some (s.now + w429) ∧
      (s529.data (counterKey accountId "529")).bind Entry.expiresAt = some (s.now + w529) := by
  have hon2 : (Config.ofConsole console).consoleOption (fun c => c.intelligentErrorHandling) =
      some true := hon
  refine ⟨_, _, _, _, _, _, orElse console.error401Window 300, orElse console.error429Window 300,
    orElse console.error529Window 180,
    by simp only [shouldMarkAccountUnavailable, hon2, hbody]; rfl,
    by simp only [shouldMarkAccountUnavailable, hon2]; rfl,
    by simp only [shouldMarkAccountUnavailable, hon2]; rfl,
    optionUsed_orElse _ _, optionUsed_orElse _ _, optionUsed_orElse _ _,
    optionUsed_orElse _ _, optionUsed_orElse _ _, optionUsed_orElse _ _, ?_, ?_, ?_⟩
  · have h := (countsOnce_incrementErrorCounter s accountId "401"
      (orElse console.error401Window 300) hs).2.1
    simp only [Config.consoleOption, Config.ofConsole]
    rw [h]; rfl
  · have h := (countsOnce_incrementErrorCounter s accountId "429"
      (orElse console.error429Window 300) hs).2.1
    simp only [Config.consoleOption, Config.ofConsole]
    rw [h]; rfl
  · have h := (countsOnce_incrementErrorCounter s accountId "529"
      (orElse console.error529Window 180) hs).2.1
    simp only [Config.consoleOption, Config.ofConsole]
    rw [h]; rfl

/-- Witness of C7, amended: thresholds 2, 5, 3 and windows 60, 300 (for the option
set to 0) and 180 on the example configuration. -/
theorem shouldMarkAccountUnavailable_options_witness :
    ∃ (d401 d429 d529 : Decision) (s401 s429 s529 : Store) (w401 w429 w529 : Int),
      shouldMarkAccountUnavailable asciiLowerCase (Config.ofConsole ConsoleConfig.example)
        Store.empty "acct-1" 401 (JSValue.str "token expired") = (Except.ok d401, s401) ∧
      shouldMarkAccountUnavailable asciiLowerCase (Config.ofConsole ConsoleConfig.example)
        Store.empty "acct-1" 429 (JSValue.str "token expired") = (Except.ok d429, s429) ∧
      shouldMarkAccountUnavailable asciiLowerCase (Config.ofConsole ConsoleConfig.example)
        Store.empty "acct-1" 529 (JSValue.str "token expired") = (Except.ok d529, s529) ∧
      OptionUsed (some 2) 3 d401.threshold ∧
      OptionUsed none 5 d429.threshold ∧
      OptionUsed none 3 d529.threshold ∧
      OptionUsed (some 60) 300 w401 ∧
      OptionUsed (some 0) 300 w429 ∧
      OptionUsed none 180 w529 ∧
      (s401.data (counterKey "acct-1" "401")).bind Entry.expiresAt = some (0 + w401) ∧
      (s429.data (counterKey "acct-1" "429")).bind Entry.expiresAt = some (0 + w429) ∧
      (s529.data (counterKey "acct-1" "529")).bind Entry.expiresAt = some (0 + w529) :=
  shouldMarkAccountUnavailable_options asciiLowerCase ConsoleConfig.example Store.empty
    "acct-1" (JSValue.str "token expired") rfl rfl rfl

/-! ### Reading and clearing counters -/

theorem getErrorCount_working (s : Store) (accountId errorType : String) (hs : s.faults = []) :
    getErrorCount s accountId errorType = (s.count (counterKey accountId errorType), s) := by
  obtain ⟨now, data, faults⟩ := s
  simp only at hs
  subst hs
  simp only [getErrorCount, Store.get, Store.roundTrip, Store.count, parseInt]
  cases h : Store.lookup { now := now, data := data, faults := [] }
      (counterKey accountId errorType) with
  | none => simp [orElse]
  | some e =>
    by_cases hv : e.value = 0 <;> simp [orElse, hv]

theorem count_of_data_none (s : Store) (key : String) (h : s.data key = none) :
    s.count key = 0 := by
  simp [Store.count, Store.lookup, h]

theorem count_of_data_live (s : Store) (key : String) (value expiry : Int)
    (h : s.data key = some { value := value, expiresAt := some expiry }) (hlive : s.now < expiry) :
    s.count key = value := by
  simp [Store.count, Store.lookup, h, hlive]

theorem count_of_data_expired (s : Store) (key : String) (value expiry : Int)
    (h : s.data key = some { value := value, expiresAt := some expiry }) (hdead : expiry ≤ s.now) :
    s.count key = 0 := by
  simp [Store.count, Store.lookup, h, not_lt.mpr hdead]

theorem clearErrorCountersLoop_working (accountId : String) :
    ∀ (types : List String) (s : Store), s.faults = [] →
      ∃ after : Store, clearErrorCountersLoop s accountId types = (Except.ok (), after) ∧
        after.faults = [] ∧ after.now = s.now ∧
        (∀ type ∈ types, after.data (counterKey accountId type) = none) ∧
        (∀ key : String, s.data key = none → after.data key = none) := by
  intro types
  induction types with
  | nil =>
    intro s hs
    exact ⟨s, rfl, hs, rfl, fun _ h => absurd h (List.not_mem_nil _), fun _ h => h⟩
  | cons type rest ih =>
    intro s hs
    obtain ⟨now, data, faults⟩ := s
    simp only at hs
    subst hs
    obtain ⟨after, hrun, hf, hnow, hrest, hkeep⟩ := ih
      { now := now, data := Function.update data (counterKey accountId type) none, faults := [] }
      rfl
    refine ⟨after, ?_, hf, hnow, ?_, ?_⟩
    · simpa [clearErrorCountersLoop, Store.del, Store.roundTrip] using hrun
    · intro t ht
      rcases List.mem_cons.mp ht with h | h
      · subst h
        exact hkeep _ (by simp)
      · exact hrest t h
    · intro key hkey
      apply hkeep
      show Function.update data (counterKey accountId type) none key = none
      by_cases hk : key = counterKey accountId type
      · rw [hk, Function.update_same]
      · rw [Function.update_noteq hk]
        exact hkey

/-- C10: after `clearErrorCounters(accountId)` against a working store, from every
prior store, `getErrorCount(accountId, t)` returns 0 for each of the three tracked
error types `401`, `429` and `529`. -/
theorem getErrorCount_clearErrorCounters (s : Store) (accountId : String)
    (hs : s.faults = []) :
    (getErrorCount (clearErrorCounters s accountId) accountId "401").1 = 0 ∧
    (getErrorCount (clearErrorCounters s accountId) accountId "429").1 = 0 ∧
    (getErrorCount (clearErrorCounters s accountId) accountId "529").1 = 0 := by
  obtain ⟨after, hrun, hf, -, hnone, -⟩ :=
    clearErrorCountersLoop_working accountId ["401", "429", "529"] s hs
  have hclear : clearErrorCounters s accountId = after := by
    simp [clearErrorCounters, hrun]
  rw [hclear, getErrorCount_working after accountId "401" hf,
    getErrorCount_working after accountId "429" hf,
    getErrorCount_working after accountId "529" hf]
  exact ⟨count_of_data_none _ _ (hnone "401" (by simp)),
    count_of_data_none _ _ (hnone "429" (by simp)),
    count_of_data_none _ _ (hnone "529" (by simp))⟩

/-- Witness of C10: an account with three counted 429s is cleared. -/
theorem getErrorCount_clearErrorCounters_witness :
    (getErrorCount
      (clearErrorCounters (incrementSequence Store.empty "acct-1" "429" 300 [5, 5]).2 "acct-1")
      "acct-1" "401").1 = 0 ∧
    (getErrorCount
      (clearErrorCounters (incrementSequence Store.empty "acct-1" "429" 300 [5, 5]).2 "acct-1")
      "acct-1" "429").1 = 0 ∧
    (getErrorCount
      (clearErrorCounters (incrementSequence Store.empty "acct-1" "429" 300 [5, 5]).2 "acct-1")
      "acct-1" "529").1 = 0 :=
  getErrorCount_clearErrorCounters
    (incrementSequence Store.empty "acct-1" "429" 300 [5, 5]).2 "acct-1" rfl

/-! ### The rolling window -/

theorem count_of_lookup_none (s : Store) (key : String) (h : s.lookup key = none) :
    s.count key = 0 := by
  simp [Store.count, h]

theorem incrementSequence_working (accountId errorType : String) (windowSeconds : Int) :
    ∀ (gaps : List Int) (s : Store), s.faults = [] →
      (∀ gap ∈ gaps, 0 ≤ gap ∧ gap < windowSeconds) →
      ∃ after : Store,
        incrementSequence s accountId errorType windowSeconds gaps =
          ((List.range (gaps.length + 1)).map
            (fun i : Nat => s.count (counterKey accountId errorType) + 1 + (i : Int)), after) ∧
        after.faults = [] ∧
        after.data (counterKey accountId errorType) =
          some { value := s.count (counterKey accountId errorType) + 1 + (gaps.length : Int),
                 expiresAt := some (after.now + windowSeconds) } := by
  intro gaps
  induction gaps with
  | nil =>
    intro s hs _
    refine ⟨{ now := s.now,
              data := Function.update s.data (counterKey accountId errorType)
                (some { value := s.count (counterKey accountId errorType) + 1,
                        expiresAt := some (s.now + windowSeconds) }),
              faults := [] }, ?_, rfl, ?_⟩
    · rw [incrementSequence, incrementErrorCounter_working s accountId errorType windowSeconds hs]
      simp [List.range_succ]
    · simp
  | cons gap gaps ih =>
    intro s hs hgaps
    have hgap := hgaps gap (List.mem_cons_self _ _)
    have hrest : ∀ g ∈ gaps, 0 ≤ g ∧ g < windowSeconds :=
      fun g hg => hgaps g (List.mem_cons_of_mem _ hg)
    have hcount : (Store.advance
        { now := s.now,
          data := Function.update s.data (counterKey accountId errorType)
            (some { value := s.count (counterKey accountId errorType) + 1,
                    expiresAt := some (s.now + windowSeconds) }),
          faults := [] } gap).count (counterKey accountId errorType) =
        s.count (counterKey accountId errorType) + 1 := by
      apply count_of_data_live _ _ _ (s.now + windowSeconds)
      · simp [Store.advance]
      · simp only [Store.advance]
        omega
    obtain ⟨after, hrun, hf, hdata⟩ := ih _ (rfl : (Store.advance
        { now := s.now,
          data := Function.update s.data (counterKey accountId errorType)
            (some { value := s.count (counterKey accountId errorType) + 1,
                    expiresAt := some (s.now + windowSeconds) }),
          faults := [] } gap).faults = []) hrest
    rw [hcount] at hrun hdata
    refine ⟨after, ?_, hf, ?_⟩
    · rw [incrementSequence, incrementErrorCounter_working s accountId errorType windowSeconds hs]
      simp only [hrun, List.length_cons]
      rw [List.range_succ_eq_map (gaps.length + 1)]
      simp only [List.map_cons, List.map_map, Nat.cast_zero, add_zero]
      congr 2
      apply List.map_congr_left
      intro i _
      simp only [Function.comp_apply, Nat.succ_eq_add_one, Nat.cast_add, Nat.cast_one]
      ring
    · rw [hdata]
      simp only [List.length_cons, Nat.cast_add, Nat.cast_one]
      congr 2
      ring

/-- C8: on a working store and for a window `w`, starting from an absent counter, a
first `incrementErrorCounter` call followed by calls that each come less than `w`
seconds after the call before returns 1, 2, 3, ... (the call at position `k`,
counted from 0, returns `k + 1`), however long the sequence lasts; and after an
idle gap of at least `w` seconds the next call returns 1. A gap below `w` exists
only for `w > 0`. -/
theorem incrementErrorCounter_rolling_window (s : Store) (accountId errorType : String)
    (windowSeconds : Int) (gaps : List Int) (hs : s.faults = [])
    (hgaps : ∀ gap ∈ gaps, 0 ≤ gap ∧ gap < windowSeconds)
    (habsent : s.lookup (counterKey accountId errorType) = none) :
    (incrementSequence s accountId errorType windowSeconds gaps).1.length = gaps.length + 1 ∧
    (∀ k : Nat, k ≤ gaps.length →
      (incrementSequence s accountId errorType windowSeconds gaps).1[k]? = some ((k : Int) + 1)) ∧
    (∀ idle : Int, windowSeconds ≤ idle →
      (incrementErrorCounter
        ((incrementSequence s accountId errorType windowSeconds gaps).2.advance idle)
        accountId errorType windowSeconds).1 = 1) := by
  obtain ⟨after, hrun, hf, hdata⟩ :=
    incrementSequence_working accountId errorType windowSeconds gaps s hs hgaps
  rw [count_of_lookup_none s _ habsent] at hrun hdata
  rw [hrun]
  refine ⟨by simp, ?_, ?_⟩
  · intro k hk
    have hlt : k < gaps.length + 1 := by omega
    simp [List.getElem?_map, List.getElem?_range hlt, add_comm]
  · intro idle hidle
    have hf2 : (after.advance idle).faults = [] := hf
    rw [incrementErrorCounter_working _ accountId errorType windowSeconds hf2]
    have hzero : (after.advance idle).count (counterKey accountId errorType) = 0 := by
      apply count_of_data_expired _ _ _ (after.now + windowSeconds)
      · simpa [Store.advance] using hdata
      · simp only [Store.advance]
        omega
    simp [hzero]

/-- Witness of C8: a window of 10 seconds and calls 9 seconds apart. -/
theorem incrementErrorCounter_rolling_window_witness :
    (incrementSequence Store.empty "acct-1" "429" 10 [9, 9, 9]).1.length = [9, 9, 9].length + 1 ∧
    (∀ k : Nat, k ≤ [(9 : Int), 9, 9].length →
      (incrementSequence Store.empty "acct-1" "429" 10 [9, 9, 9]).1[k]? = some ((k : Int) + 1)) ∧
    (∀ idle : Int, 10 ≤ idle →
      (incrementErrorCounter
        ((incrementSequence Store.empty "acct-1" "429" 10 [9, 9, 9]).2.advance idle)
        "acct-1" "429" 10).1 = 1) :=
  incrementErrorCounter_rolling_window Store.empty "acct-1" "429" 10 [9, 9, 9] rfl
    (by decide) rfl

/-! ### The counter behind a decision -/

theorem orElse_pos (option : Option Int) (fallback : Int) (hfallback : 0 < fallback)
    (hoption : ∀ v, option = some v → 0 ≤ v) : 0 < orElse option fallback := by
  cases option with
  | none => simpa [orElse] using hfallback
  | some v =>
    have hv := hoption v rfl
    by_cases hz : v = 0
    · simpa [orElse, hz] using hfallback
    · simp only [orElse, hz, if_false]
      omega

theorem counterKey_right_injective (accountId errorType other : String)
    (h : counterKey accountId errorType = counterKey accountId other) : errorType = other := by
  have hdata := congrArg String.data h
  simp only [counterKey, String.data_append, List.append_cancel_left_eq] at hdata
  exact String.ext hdata

theorem count_after_increment (s : Store) (accountId errorType : String) (windowSeconds : Int)
    (hs : s.faults = []) (hw : 0 < windowSeconds) :
    (incrementErrorCounter s accountId errorType windowSeconds).2.faults = [] ∧
    (incrementErrorCounter s accountId errorType windowSeconds).2.count
        (counterKey accountId errorType) =
      (incrementErrorCounter s accountId errorType windowSeconds).1 := by
  rw [incrementErrorCounter_working s accountId errorType windowSeconds hs]
  refine ⟨rfl, ?_⟩
  apply count_of_data_live _ _ _ (s.now + windowSeconds)
  · simp
  · simp only
    omega

theorem count_other_after_increment (s : Store) (accountId errorType : String)
    (windowSeconds : Int) (key : String) (hs : s.faults = [])
    (hkey : key ≠ counterKey accountId errorType) :
    (incrementErrorCounter s accountId errorType windowSeconds).2.count key = s.count key := by
  rw [incrementErrorCounter_working s accountId errorType windowSeconds hs]
  simp [Store.count, Store.lookup, Function.update_noteq hkey]

/-- Counterexample to C9 as stated: the first upstream 401 of an account returns the
error type `401_upstream` and the count 1, and `getErrorCount` for that account and
that error type returns 0 afterwards. -/
theorem upstream401_errorType_not_counter :
    (shouldMarkAccountUnavailable asciiLowerCase
        (Config.enabled none none none none none none) Store.empty "acct-1" 401
        (JSValue.str "token expired")).1 =
      Except.ok { shouldMarkUnavailable := false, errorType := "401_upstream",
                  errorCount := 1, threshold := 3 } ∧
    (getErrorCount
      (shouldMarkAccountUnavailable asciiLowerCase
        (Config.enabled none none none none none none) Store.empty "acct-1" 401
        (JSValue.str "token expired")).2 "acct-1" "401_upstream").1 = 0 ∧
    ¬ ∃ (d : Decision) (after : Store),
      shouldMarkAccountUnavailable asciiLowerCase
        (Config.enabled none none none none none none) Store.empty "acct-1" 401
        (JSValue.str "token expired") = (Except.ok d, after) ∧
      (getErrorCount after "acct-1" d.errorType).1 = d.errorCount := by
  have hrun : (shouldMarkAccountUnavailable asciiLowerCase
        (Config.enabled none none none none none none) Store.empty "acct-1" 401
        (JSValue.str "token expired")).1 =
      Except.ok { shouldMarkUnavailable := false, errorType := "401_upstream",
                  errorCount := 1, threshold := 3 } := rfl
  have hget : (getErrorCount
      (shouldMarkAccountUnavailable asciiLowerCase
        (Config.enabled none none none none none none) Store.empty "acct-1" 401
        (JSValue.str "token expired")).2 "acct-1" "401_upstream").1 = 0 := rfl
  refine ⟨hrun, hget, ?_⟩
  rintro ⟨d, after, hd, hcount⟩
  rw [hd] at hrun hget
  have hdec := Except.ok.inj hrun
  simp only at hget
  rw [hdec] at hcount
  simp only at hcount
  rw [hget] at hcount
  exact absurd hcount (by decide)

/-- C9, amended: with intelligent handling enabled, a working store and no negative
window configured, after a counting decision `d` for an account the counter of the
status holds `d.errorCount`: for a 429 and a 529 it is the counter that
`d.errorType` names, for an upstream 401 it is the counter `401`, while the counter
that the error type `401_upstream` names is left as it was. -/
theorem getErrorCount_after_decision (toLowerCase : String → String) (config : Config)
    (s : Store) (accountId : String) (statusCode : Int) (errorData : JSValue)
    (hon : config.consoleOption (fun c => c.intelligentErrorHandling) = some true)
    (hs : s.faults = [])
    (h401w : ∀ v, config.consoleOption (fun c => c.error401Window) = some v → 0 ≤ v)
    (h429w : ∀ v, config.consoleOption (fun c => c.error429Window) = some v → 0 ≤ v)
    (h529w : ∀ v, config.consoleOption (fun c => c.error529Window) = some v → 0 ≤ v)
    (hstatus : statusCode = 429 ∨ statusCode = 529 ∨
      (statusCode = 401 ∧ isConsoleAuthError toLowerCase 401 errorData = Except.ok false)) :
    ∃ (d : Decision) (after : Store),
      shouldMarkAccountUnavailable toLowerCase config s accountId statusCode errorData =
        (Except.ok d, after) ∧
      (statusCode = 429 → (getErrorCount after accountId d.errorType).1 = d.errorCount) ∧
      (statusCode = 529 → (getErrorCount after accountId d.errorType).1 = d.errorCount) ∧
      (statusCode = 401 →
        d.errorType = "401_upstream" ∧
        (getErrorCount after accountId "401").1 = d.errorCount ∧
        (getErrorCount after accountId d.errorType).1 =
          (getErrorCount s accountId d.errorType).1) := by
  rcases hstatus with h | h | ⟨h, hbody⟩
  · subst h
    obtain ⟨hf, hcount⟩ := count_after_increment s accountId "429"
      (orElse (config.consoleOption (fun c => c.error429Window)) 300) hs
      (orElse_pos _ 300 (by decide) h429w)
    refine ⟨_, _, by simp only [shouldMarkAccountUnavailable, hon]; rfl, fun _ => ?_,
      fun h => absurd h (by decide), fun h => absurd h (by decide)⟩
    rw [getErrorCount_working _ accountId _ hf]
    exact hcount
  · subst h
    obtain ⟨hf, hcount⟩ := count_after_increment s accountId "529"
      (orElse (config.consoleOption (fun c => c.error529Window)) 180) hs
      (orElse_pos _ 180 (by decide) h529w)
    refine ⟨_, _, by simp only [shouldMarkAccountUnavailable, hon]; rfl,
      fun h => absurd h (by decide), fun _ => ?_, fun h => absurd h (by decide)⟩
    rw [getErrorCount_working _ accountId _ hf]
    exact hcount
  · subst h
    obtain ⟨hf, hcount⟩ := count_after_increment s accountId "401"
      (orElse (config.consoleOption (fun c => c.error401Window)) 300) hs
      (orElse_pos _ 300 (by decide) h401w)
    refine ⟨_, _, by simp only [shouldMarkAccountUnavailable, hon, hbody]; rfl,
      fun h => absurd h (by decide), fun h => absurd h (by decide), fun _ => ⟨rfl, ?_, ?_⟩⟩
    · rw [getErrorCount_working _ accountId _ hf]
      exact hcount
    · rw [getErrorCount_working _ accountId _ hf, getErrorCount_working s accountId _ hs]
      apply count_other_after_increment s accountId "401" _ _ hs
      intro hkey
      have hne : ("401_upstream" : String) ≠ "401" := by decide
      exact hne (counterKey_right_injective accountId _ _ hkey)

/-- Witness of C9, amended: the first upstream 401 of an account on the default
configuration. -/
theorem getErrorCount_after_decision_witness :
    ∃ (d : Decision) (after : Store),
      shouldMarkAccountUnavailable asciiLowerCase (Config.enabled none none none none none none)
        Store.empty "acct-1" 401 (JSValue.str "token expired") = (Except.ok d, after) ∧
      ((401 : Int) = 429 → (getErrorCount after "acct-1" d.errorType).1 = d.errorCount) ∧
      ((401 : Int) = 529 → (getErrorCount after "acct-1" d.errorType).1 = d.errorCount) ∧
      ((401 : Int) = 401 →
        d.errorType = "401_upstream" ∧
        (getErrorCount after "acct-1" "401").1 = d.errorCount ∧
        (getErrorCount after "acct-1" d.errorType).1 =
          (getErrorCount Store.empty "acct-1" d.errorType).1) :=
  getErrorCount_after_decision asciiLowerCase (Config.enabled none none none none none none)
    Store.empty "acct-1" 401 (JSValue.str "token expired") rfl rfl
    (fun _ h => Option.noConfusion h) (fun _ h => Option.noConfusion h)
    (fun _ h => Option.noConfusion h) (Or.inr (Or.inr ⟨rfl, rfl⟩))

/-! ### Counters are positive in every reachable store -/

theorem roundTrip_data (s : Store) : s.roundTrip.2.data = s.data ∧ s.roundTrip.2.now = s.now := by
  obtain ⟨now, data, faults⟩ := s
  cases faults with
  | nil => exact ⟨rfl, rfl⟩
  | cons n rest => cases n <;> exact ⟨rfl, rfl⟩

theorem lookup_roundTrip (s : Store) (key : String) : s.roundTrip.2.lookup key = s.lookup key := by
  simp only [Store.lookup, (roundTrip_data s).1, (roundTrip_data s).2]

theorem positive_of_lookup (s : Store) (hs : s.Positive) (key : String) (e : Entry)
    (h : s.lookup key = some e) : 0 < e.value := by
  unfold Store.lookup at h
  cases hd : s.data key with
  | none => simp [hd] at h
  | some e2 =>
    have hpos := hs key e2 hd
    rw [hd] at h
    cases hx : e2.expiresAt with
    | none =>
      simp only [hx, Option.some.injEq] at h
      rw [← h]; exact hpos
    | some t =>
      simp only [hx] at h
      split_ifs at h
      simp only [Option.some.injEq] at h
      rw [← h]; exact hpos

theorem positive_roundTrip (s : Store) (hs : s.Positive) : s.roundTrip.2.Positive := by
  intro key e h
  rw [(roundTrip_data s).1] at h
  exact hs key e h

theorem positive_update (s : Store) (hs : s.Positive) (key : String) (entry : Option Entry)
    (hentry : ∀ e, entry = some e → 0 < e.value) (now : Int) (faults : List Nat) :
    Store.Positive { now := now, data := Function.update s.data key entry, faults := faults } := by
  intro k e h
  simp only at h
  by_cases hk : k = key
  · subst hk
    rw [Function.update_same] at h
    exact hentry e h
  · rw [Function.update_noteq hk] at h
    exact hs k e h

theorem positive_incr (s : Store) (hs : s.Positive) (key : String) : (s.incr key).2.Positive := by
  have h1 := positive_roundTrip s hs
  unfold Store.incr
  cases hfail : s.roundTrip.1 with
  | true => simpa [hfail] using h1
  | false =>
    simp only [hfail, Bool.false_eq_true, if_false]
    apply positive_update _ h1
    intro e he
    cases hl : s.roundTrip.2.lookup key with
    | none =>
      simp only [hl, Option.some.injEq] at he
      rw [← he]; decide
    | some e2 =>
      have hpos := positive_of_lookup _ h1 key e2 hl
      simp only [hl, Option.some.injEq] at he
      rw [← he]
      simp only
      omega

theorem positive_expire (s : Store) (hs : s.Positive) (key : String) (seconds : Int) :
    (s.expire key seconds).2.Positive := by
  have h1 := positive_roundTrip s hs
  unfold Store.expire
  cases hfail : s.roundTrip.1 with
  | true => simpa [hfail] using h1
  | false =>
    simp only [hfail, Bool.false_eq_true, if_false]
    cases hl : s.roundTrip.2.lookup key with
    | none => simpa [hl] using h1
    | some e2 =>
      have hpos := positive_of_lookup _ h1 key e2 hl
      simp only [hl]
      apply positive_update _ h1
      intro e he
      simp only [Option.some.injEq] at he
      rw [← he]
      exact hpos

theorem positive_del (s : Store) (hs : s.Positive) (key : String) : (s.del key).2.Positive := by
  have h1 := positive_roundTrip s hs
  unfold Store.del
  cases hfail : s.roundTrip.1 with
  | true => simpa [hfail] using h1
  | false =>
    simp only [hfail, Bool.false_eq_true, if_false]
    apply positive_update _ h1
    intro e he
    cases he

theorem positive_get (s : Store) (hs : s.Positive) (key : String) : (s.get key).2.Positive := by
  have h1 := positive_roundTrip s hs
  unfold Store.get
  cases hfail : s.roundTrip.1 <;> simpa [hfail] using h1

theorem positive_incrementErrorCounter (s : Store) (hs : s.Positive)
    (accountId errorType : String) (windowSeconds : Int) :
    (incrementErrorCounter s accountId errorType windowSeconds).2.Positive := by
  have h1 := positive_incr s hs (counterKey accountId errorType)
  unfold incrementErrorCounter
  simp only
  rcases hi : s.incr (counterKey accountId errorType) with ⟨r1, s1⟩
  rw [hi] at h1
  cases r1 with
  | error e => exact h1
  | ok count =>
    have h2 := positive_expire s1 h1 (counterKey accountId errorType) windowSeconds
    simp only
    rcases he : s1.expire (counterKey accountId errorType) windowSeconds with ⟨r2, s2⟩
    rw [he] at h2
    cases r2 <;> exact h2

theorem positive_clearErrorCountersLoop (accountId : String) :
    ∀ (types : List String) (s : Store), s.Positive →
      (clearErrorCountersLoop s accountId types).2.Positive := by
  intro types
  induction types with
  | nil => intro s hs; exact hs
  | cons type rest ih =>
    intro s hs
    have h1 := positive_del s hs (counterKey accountId type)
    unfold clearErrorCountersLoop
    rcases hd : s.del (counterKey accountId type) with ⟨r1, s1⟩
    rw [hd] at h1
    cases r1 with
    | error e => exact h1
    | ok u => exact ih s1 h1

theorem positive_clearErrorCounters (s : Store) (hs : s.Positive) (accountId : String) :
    (clearErrorCounters s accountId).Positive := by
  have h := positive_clearErrorCountersLoop accountId ["401", "429", "529"] s hs
  unfold clearErrorCounters
  simp only
  rcases hl : clearErrorCountersLoop s accountId ["401", "429", "529"] with ⟨r, s1⟩
  rw [hl] at h
  cases r <;> exact h

theorem positive_getErrorCount (s : Store) (hs : s.Positive) (accountId errorType : String) :
    (getErrorCount s accountId errorType).2.Positive := by
  have h := positive_get s hs (counterKey accountId errorType)
  unfold getErrorCount
  simp only
  rcases hg : s.get (counterKey accountId errorType) with ⟨r, s1⟩
  rw [hg] at h
  cases r <;> exact h

theorem positive_of_reachable (s : Store) (hs : Reachable s) : s.Positive := by
  induction hs with
  | initial now faults => intro key e h; cases h
  | increment accountId errorType windowSeconds _ ih =>
    exact positive_incrementErrorCounter _ ih accountId errorType windowSeconds
  | clear accountId _ ih => exact positive_clearErrorCounters _ ih accountId
  | read accountId errorType _ ih => exact positive_getErrorCount _ ih accountId errorType
  | elapse seconds _ _ ih => exact fun key e h => ih key e h
  | connection faults _ ih => exact fun key e h => ih key e h

theorem getErrorCount_of_get (s : Store) (accountId errorType : String) :
    (∀ e, (s.get (counterKey accountId errorType)).1 = Except.error e →
      (getErrorCount s accountId errorType).1 = 0) ∧
    ((s.get (counterKey accountId errorType)).1 = Except.ok none →
      (getErrorCount s accountId errorType).1 = 0) ∧
    (∀ count : Int, (s.get (counterKey accountId errorType)).1 = Except.ok (some count) →
      (getErrorCount s accountId errorType).1 = count) := by
  unfold getErrorCount
  simp only
  rcases hg : s.get (counterKey accountId errorType) with ⟨r, s1⟩
  refine ⟨fun e h => ?_, fun h => ?_, fun count h => ?_⟩ <;> simp only at h <;> subst h
  · rfl
  · rfl
  · by_cases hc : count = 0 <;> simp [orElse, parseInt, hc]

/-- C11: `getErrorCount(accountId, errorType)` always returns a number (its result
type has no error case): 0 when the store read fails, 0 when the store holds no
live counter under the key, and the stored count otherwise; in every store state
reachable through `incrementErrorCounter`, `clearErrorCounters`, reads and expiry,
with any failures of the connection, the returned value is not negative. -/
theorem getErrorCount_never_raises (s : Store) (accountId errorType : String) :
    (∀ e, (s.get (counterKey accountId errorType)).1 = Except.error e →
      (getErrorCount s accountId errorType).1 = 0) ∧
    (s.roundTrip.1 = false → s.lookup (counterKey accountId errorType) = none →
      (getErrorCount s accountId errorType).1 = 0) ∧
    (∀ entry : Entry, s.roundTrip.1 = false →
      s.lookup (counterKey accountId errorType) = some entry →
      (getErrorCount s accountId errorType).1 = entry.value) ∧
    (Reachable s → 0 ≤ (getErrorCount s accountId errorType).1) := by
  obtain ⟨hfail, hnone, hsome⟩ := getErrorCount_of_get s accountId errorType
  have hget : s.roundTrip.1 = false → (s.get (counterKey accountId errorType)).1 =
      Except.ok ((s.lookup (counterKey accountId errorType)).map (fun e => e.value)) := by
    intro h
    simp [Store.get, h, lookup_roundTrip]
  refine ⟨hfail, fun hok habsent => ?_, fun entry hok hlive => ?_, fun hreach => ?_⟩
  · exact hnone (by rw [hget hok, habsent]; rfl)
  · exact hsome entry.value (by rw [hget hok, hlive]; rfl)
  · have hpos := positive_of_reachable s hreach
    cases hrt : s.roundTrip.1 with
    | true =>
      have : (s.get (counterKey accountId errorType)).1 = Except.error StoreError.unavailable := by
        simp [Store.get, hrt]
      rw [hfail _ this]
    | false =>
      cases hl : s.lookup (counterKey accountId errorType) with
      | none => rw [hnone (by rw [hget hrt, hl]; rfl)]
      | some entry =>
        rw [hsome entry.value (by rw [hget hrt, hl]; rfl)]
        exact le_of_lt (positive_of_lookup s hpos _ entry hl)

/-- Witness of C11: a counter incremented twice reads 2, and the store it is read
from is reachable. -/
theorem getErrorCount_never_raises_witness :
    (getErrorCount (incrementSequence Store.empty "acct-1" "429" 300 [5]).2 "acct-1" "429").1 = 2 ∧
    0 ≤ (getErrorCount (incrementSequence Store.empty "acct-1" "429" 300 [5]).2
      "acct-1" "429").1 :=
  ⟨(getErrorCount_never_raises (incrementSequence Store.empty "acct-1" "429" 300 [5]).2
      "acct-1" "429").2.2.1 { value := 2, expiresAt := some 305 } rfl rfl,
    (getErrorCount_never_raises (incrementSequence Store.empty "acct-1" "429" 300 [5]).2
      "acct-1" "429").2.2.2
      (Reachable.increment "acct-1" "429" 300
        (Reachable.elapse 5 (by decide)
          (Reachable.increment "acct-1" "429" 300 (Reachable.initial 0 []))))⟩

/-! ### The retry loop, one iteration at a time -/

theorem selectTokens_append {ρ : Type} (a b : List (Event ρ)) :
    selectTokens (a ++ b) = selectTokens a ++ selectTokens b := by
  induction a with
  | nil => rfl
  | cons e rest ih => cases e <;> simp [selectTokens, ih]

theorem requestedAccounts_append {ρ : Type} (a b : List (Event ρ)) :
    requestedAccounts (a ++ b) = requestedAccounts a ++ requestedAccounts b := by
  induction a with
  | nil => rfl
  | cons e rest ih => cases e <;> simp [requestedAccounts, ih]

theorem sleepDelays_append {ρ : Type} (a b : List (Event ρ)) :
    sleepDelays (a ++ b) = sleepDelays a ++ sleepDelays b := by
  induction a with
  | nil => rfl
  | cons e rest ih => cases e <;> simp [sleepDelays, ih]

theorem caughtErrors_append {ρ : Type} (a b : List (Event ρ)) :
    caughtErrors (a ++ b) = caughtErrors a ++ caughtErrors b := by
  induction a with
  | nil => rfl
  | cons e rest ih =>
    cases e with
    | select tok outcome => cases outcome <;> simp [caughtErrors, ih]
    | request accountId accountType outcome => cases outcome <;> simp [caughtErrors, ih]
    | sleep d => simp [caughtErrors, ih]

theorem after_log {σ ρ : Type} (events : List (Event ρ)) (run : RetryRun σ ρ) :
    (run.after events).log = events ++ run.log := rfl

theorem after_result {σ ρ : Type} (events : List (Event ρ)) (run : RetryRun σ ρ) :
    (run.after events).result = run.result := rfl

theorem after_world {σ ρ : Type} (events : List (Event ρ)) (run : RetryRun σ ρ) :
    (run.after events).world = run.world := rfl

/-- The six ways one iteration of the loop can go: the selector raises and the error
is thrown again, or is retried; the selected account was attempted before and is
skipped; the request succeeds; the request fails and the error is thrown again, or
is retried. -/
theorem executeWithRetryLoop_succ {σ ρ κ μ : Type} (options : RetryOptions σ ρ κ μ)
    (remaining attempt : Nat) (lastError : Option JSError) (attemptedAccounts : List String)
    (world : σ) :
    (∃ (error : JSError) (world1 : σ),
      options.selectAccountFunc world options.apiKeyData
        (effectiveSessionHash options.sessionHash options.clearSessionOnRetry attempt)
        options.requestBody.model = (.error error, world1) ∧
      catchBlock options.maxRetries attempt error = none ∧
      executeWithRetryLoop options (remaining + 1) attempt lastError attemptedAccounts world =
        { result := .error error,
          log := [.select (effectiveSessionHash options.sessionHash
            options.clearSessionOnRetry attempt) (.error error)],
          world := world1 }) ∨
    (∃ (error : JSError) (world1 : σ) (delayMs : Nat),
      options.selectAccountFunc world options.apiKeyData
        (effectiveSessionHash options.sessionHash options.clearSessionOnRetry attempt)
        options.requestBody.model = (.error error, world1) ∧
      catchBlock options.maxRetries attempt error = some delayMs ∧
      executeWithRetryLoop options (remaining + 1) attempt lastError attemptedAccounts world =
        (executeWithRetryLoop options remaining (attempt + 1) (some error) attemptedAccounts
          world1).after
          [.select (effectiveSessionHash options.sessionHash
            options.clearSessionOnRetry attempt) (.error error), .sleep delayMs]) ∨
    (∃ (selection : AccountSelection) (world1 : σ),
      options.selectAccountFunc world options.apiKeyData
        (effectiveSessionHash options.sessionHash options.clearSessionOnRetry attempt)
        options.requestBody.model = (.ok selection, world1) ∧
      selection.accountId ∈ attemptedAccounts ∧
      executeWithRetryLoop options (remaining + 1) attempt lastError attemptedAccounts world =
        (executeWithRetryLoop options remaining (attempt + 1) lastError attemptedAccounts
          world1).after
          [.select (effectiveSessionHash options.sessionHash
            options.clearSessionOnRetry attempt) (.ok selection)]) ∨
    (∃ (selection : AccountSelection) (world1 : σ) (result : ρ) (world2 : σ),
      options.selectAccountFunc world options.apiKeyData
        (effectiveSessionHash options.sessionHash options.clearSessionOnRetry attempt)
        options.requestBody.model = (.ok selection, world1) ∧
      selection.accountId ∉ attemptedAccounts ∧
      options.requestFunc world1 selection.accountId selection.accountType =
        (.ok result, world2) ∧
      executeWithRetryLoop options (remaining + 1) attempt lastError attemptedAccounts world =
        { result := .ok result,
          log := [.select (effectiveSessionHash options.sessionHash
              options.clearSessionOnRetry attempt) (.ok selection),
            .request selection.accountId selection.accountType (.ok result)],
          world := world2 }) ∨
    (∃ (selection : AccountSelection) (world1 : σ) (error : JSError) (world2 : σ),
      options.selectAccountFunc world options.apiKeyData
        (effectiveSessionHash options.sessionHash options.clearSessionOnRetry attempt)
        options.requestBody.model = (.ok selection, world1) ∧
      selection.accountId ∉ attemptedAccounts ∧
      options.requestFunc world1 selection.accountId selection.accountType =
        (.error error, world2) ∧
      catchBlock options.maxRetries attempt error = none ∧
      executeWithRetryLoop options (remaining + 1) attempt lastError attemptedAccounts world =
        { result := .error error,
          log := [.select (effectiveSessionHash options.sessionHash
              options.clearSessionOnRetry attempt) (.ok selection),
            .request selection.accountId selection.accountType (.error error)],
          world := world2 }) ∨
    (∃ (selection : AccountSelection) (world1 : σ) (error : JSError) (world2 : σ)
        (delayMs : Nat),
      options.selectAccountFunc world options.apiKeyData
        (effectiveSessionHash options.sessionHash options.clearSessionOnRetry attempt)
        options.requestBody.model = (.ok selection, world1) ∧
      selection.accountId ∉ attemptedAccounts ∧
      options.requestFunc world1 selection.accountId selection.accountType =
        (.error error, world2) ∧
      catchBlock options.maxRetries attempt error = some delayMs ∧
      executeWithRetryLoop options (remaining + 1) attempt lastError attemptedAccounts world =
        (executeWithRetryLoop options remaining (attempt + 1) (some error)
          (attemptedAccounts ++ [selection.accountId]) world2).after
          [.select (effectiveSessionHash options.sessionHash
              options.clearSessionOnRetry attempt) (.ok selection),
            .request selection.accountId selection.accountType (.error error),
            .sleep delayMs]) := by
  rcases hsel : options.selectAccountFunc world options.apiKeyData
      (effectiveSessionHash options.sessionHash options.clearSessionOnRetry attempt)
      options.requestBody.model with ⟨outcome, world1⟩
  cases outcome with
  | error error =>
    cases hcatch : catchBlock options.maxRetries attempt error with
    | none =>
      refine Or.inl ⟨error, world1, rfl, hcatch, ?_⟩
      simp only [executeWithRetryLoop, hsel, hcatch]
    | some delayMs =>
      refine Or.inr (Or.inl ⟨error, world1, delayMs, rfl, hcatch, ?_⟩)
      simp only [executeWithRetryLoop, hsel, hcatch]
  | ok selection =>
    by_cases hmem : selection.accountId ∈ attemptedAccounts
    · refine Or.inr (Or.inr (Or.inl ⟨selection, world1, rfl, hmem, ?_⟩))
      simp only [executeWithRetryLoop, hsel, hmem, if_true]
    · rcases hreq : options.requestFunc world1 selection.accountId selection.accountType with
        ⟨outcome2, world2⟩
      cases outcome2 with
      | ok result =>
        refine Or.inr (Or.inr (Or.inr (Or.inl
          ⟨selection, world1, result, world2, rfl, hmem, hreq, ?_⟩)))
        simp only [executeWithRetryLoop, hsel, hmem, if_false, hreq]
      | error error =>
        cases hcatch : catchBlock options.maxRetries attempt error with
        | none =>
          refine Or.inr (Or.inr (Or.inr (Or.inr (Or.inl
            ⟨selection, world1, error, world2, rfl, hmem, hreq, hcatch, ?_⟩))))
          simp only [executeWithRetryLoop, hsel, hmem, if_false, hreq, hcatch]
        | some delayMs =>
          refine Or.inr (Or.inr (Or.inr (Or.inr (Or.inr
            ⟨selection, world1, error, world2, delayMs, rfl, hmem, hreq, hcatch, ?_⟩))))
          simp only [executeWithRetryLoop, hsel, hmem, if_false, hreq, hcatch]

theorem executeWithRetryLoop_calls_le {σ ρ κ μ : Type} (options : RetryOptions σ ρ κ μ) :
    ∀ (remaining attempt : Nat) (lastError : Option JSError) (attemptedAccounts : List String)
      (world : σ),
      (selectTokens (executeWithRetryLoop options remaining attempt lastError
        attemptedAccounts world).log).length ≤ remaining ∧
      (requestedAccounts (executeWithRetryLoop options remaining attempt lastError
        attemptedAccounts world).log).length ≤ remaining := by
  intro remaining
  induction remaining with
  | zero =>
    intro attempt lastError attemptedAccounts world
    simp [executeWithRetryLoop, selectTokens, requestedAccounts]
  | succ n ih =>
    intro attempt lastError attemptedAccounts world
    rcases executeWithRetryLoop_succ options n attempt lastError attemptedAccounts world with
      ⟨e, w1, _, _, h⟩ | ⟨e, w1, d, _, _, h⟩ | ⟨sel, w1, _, _, h⟩ | ⟨sel, w1, r, w2, _, _, _, h⟩ |
      ⟨sel, w1, e, w2, _, _, _, _, h⟩ | ⟨sel, w1, e, w2, d, _, _, _, _, h⟩
    · rw [h]; simp [selectTokens, requestedAccounts]
    · have := ih (attempt + 1) (some e) attemptedAccounts w1
      rw [h]
      simp only [after_log, selectTokens_append, requestedAccounts_append, List.length_append]
      simp only [selectTokens, requestedAccounts, List.length_cons, List.length_nil]
      omega
    · have := ih (attempt + 1) lastError attemptedAccounts w1
      rw [h]
      simp only [after_log, selectTokens_append, requestedAccounts_append, List.length_append]
      simp only [selectTokens, requestedAccounts, List.length_cons, List.length_nil]
      omega
    · rw [h]; simp [selectTokens, requestedAccounts]
    · rw [h]; simp [selectTokens, requestedAccounts]
    · have := ih (attempt + 1) (some e) (attemptedAccounts ++ [sel.accountId]) w2
      rw [h]
      simp only [after_log, selectTokens_append, requestedAccounts_append, List.length_append]
      simp only [selectTokens, requestedAccounts, List.length_cons, List.length_nil]
      omega

/-- C12: `executeWithRetry` is a total function of its options and the world (the
loop runs on a counter that goes down), and for `maxRetries >= 0` and any behaviour
of the two callbacks a call makes at most `maxRetries + 1` calls of
`selectAccountFunc` and at most `maxRetries + 1` calls of `requestFunc`. -/
theorem executeWithRetry_calls_le {σ ρ κ μ : Type} (options : RetryOptions σ ρ κ μ) (world : σ)
    (hmax : 0 ≤ options.maxRetries) :
    ((selectTokens (executeWithRetry options world).log).length : Int) ≤
      options.maxRetries + 1 ∧
    ((requestedAccounts (executeWithRetry options world).log).length : Int) ≤
      options.maxRetries + 1 := by
  have h := executeWithRetryLoop_calls_le options (options.maxRetries + 1).toNat 0 none [] world
  have hnat : (((options.maxRetries + 1).toNat : Nat) : Int) = options.maxRetries + 1 :=
    Int.toNat_of_nonneg (by omega)
  unfold executeWithRetry
  omega

/-- Witness of C12: three distinct accounts that all fail with 429, `maxRetries = 2`. -/
theorem executeWithRetry_calls_le_witness :
    ((selectTokens (executeWithRetry (optionsAlways429 distinctAccounts 2)
        ScriptWorld.start).log).length : Int) ≤ 2 + 1 ∧
    ((requestedAccounts (executeWithRetry (optionsAlways429 distinctAccounts 2)
        ScriptWorld.start).log).length : Int) ≤ 2 + 1 :=
  executeWithRetry_calls_le (optionsAlways429 distinctAccounts 2) ScriptWorld.start (by decide)

theorem toNat_maxRetries_succ (maxRetries : Int) (hmax : 0 ≤ maxRetries) :
    (maxRetries + 1).toNat = maxRetries.toNat + 1 := by
  omega

theorem catchBlock_not_retryable (maxRetries : Int) (attempt : Nat) (error : JSError)
    (h : shouldRetryError error (lastStatusCodeOf error) = false) :
    catchBlock maxRetries attempt error = none := by
  simp [catchBlock, h]

/-- C13: for `maxRetries >= 0`, when the selector returns an account and
`requestFunc` fails on it with an error whose status is not retryable, the call
consists of that one selection and that one request, without a sleep, and raises
that same error. -/
theorem executeWithRetry_not_retryable {σ ρ κ μ : Type} (options : RetryOptions σ ρ κ μ)
    (world world1 world2 : σ) (selection : AccountSelection) (error : JSError)
    (hmax : 0 ≤ options.maxRetries)
    (hselect : options.selectAccountFunc world options.apiKeyData options.sessionHash
      options.requestBody.model = (Except.ok selection, world1))
    (hrequest : options.requestFunc world1 selection.accountId selection.accountType =
      (Except.error error, world2))
    (hstatus : shouldRetryError error (lastStatusCodeOf error) = false) :
    (executeWithRetry options world).result = Except.error error ∧
    (executeWithRetry options world).log =
      [Event.select options.sessionHash (Except.ok selection),
        Event.request selection.accountId selection.accountType (Except.error error)] ∧
    requestedAccounts (executeWithRetry options world).log = [selection.accountId] ∧
    sleepDelays (executeWithRetry options world).log = [] ∧
    (executeWithRetry options world).world = world2 := by
  have hrun : executeWithRetry options world =
      { result := Except.error error,
        log := [Event.select options.sessionHash (Except.ok selection),
          Event.request selection.accountId selection.accountType (Except.error error)],
        world := world2 } := by
    unfold executeWithRetry
    rw [toNat_maxRetries_succ _ hmax]
    simp [executeWithRetryLoop, effectiveSessionHash, hselect, hrequest,
      catchBlock_not_retryable _ _ _ hstatus]
  rw [hrun]
  exact ⟨rfl, rfl, rfl, rfl, rfl⟩

/-- Witness of C13: a request that fails with 403 under `maxRetries = 2`. -/
theorem executeWithRetry_not_retryable_witness :
    (executeWithRetry (optionsDistinct (fun _ => Except.error (JSError.withStatus "forbidden" 403))
        2) ScriptWorld.start).result = Except.error (JSError.withStatus "forbidden" 403) ∧
    (executeWithRetry (optionsDistinct (fun _ => Except.error (JSError.withStatus "forbidden" 403))
        2) ScriptWorld.start).log =
      [Event.select (some "session-1")
          (Except.ok { accountId := "acct-0", accountType := "claude" }),
        Event.request "acct-0" "claude" (Except.error (JSError.withStatus "forbidden" 403))] ∧
    requestedAccounts (executeWithRetry
      (optionsDistinct (fun _ => Except.error (JSError.withStatus "forbidden" 403)) 2)
      ScriptWorld.start).log = ["acct-0"] ∧
    sleepDelays (executeWithRetry
      (optionsDistinct (fun _ => Except.error (JSError.withStatus "forbidden" 403)) 2)
      ScriptWorld.start).log = [] ∧
    (executeWithRetry (optionsDistinct (fun _ => Except.error (JSError.withStatus "forbidden" 403))
        2) ScriptWorld.start).world = { selects := 1, requests := 1 } :=
  executeWithRetry_not_retryable
    (optionsDistinct (fun _ => Except.error (JSError.withStatus "forbidden" 403)) 2)
    ScriptWorld.start { selects := 1, requests := 0 } { selects := 1, requests := 1 }
    { accountId := "acct-0", accountType := "claude" } (JSError.withStatus "forbidden" 403)
    (by decide) rfl rfl rfl

/-! ### Requests that always fail with a retryable status -/

theorem selectedAccounts_append {ρ : Type} (a b : List (Event ρ)) :
    selectedAccounts (a ++ b) = selectedAccounts a ++ selectedAccounts b := by
  induction a with
  | nil => rfl
  | cons e rest ih =>
    cases e with
    | select tok outcome => cases outcome <;> simp [selectedAccounts, ih]
    | request accountId accountType outcome => simp [selectedAccounts, ih]
    | sleep d => simp [selectedAccounts, ih]

theorem catchBlock_retryable (maxRetries : Int) (attempt : Nat) (error : JSError)
    (h : shouldRetryError error (lastStatusCodeOf error) = true) :
    catchBlock maxRetries attempt error =
      if (attempt : Int) ≥ maxRetries then none else some (backoffDelay attempt) := by
  simp [catchBlock, h]

theorem executeWithRetryLoop_all_fail {σ ρ κ μ : Type} (options : RetryOptions σ ρ κ μ)
    (hrequest : ∀ (w : σ) (accountId accountType : String), ∃ (e : JSError) (w2 : σ),
      options.requestFunc w accountId accountType = (Except.error e, w2) ∧
      shouldRetryError e (lastStatusCodeOf e) = true)
    (hselect : ∀ (w : σ) (sessionHash : Option String), ∃ (selection : AccountSelection) (w1 : σ),
      options.selectAccountFunc w options.apiKeyData sessionHash options.requestBody.model =
        (Except.ok selection, w1)) :
    ∀ (n attempt : Nat) (lastError : Option JSError) (attemptedAccounts : List String)
      (world : σ),
      ((attempt + n : Nat) : Int) = options.maxRetries →
      (selectedAccounts (executeWithRetryLoop options (n + 1) attempt lastError
        attemptedAccounts world).log).Nodup →
      (∀ accountId ∈ selectedAccounts (executeWithRetryLoop options (n + 1) attempt lastError
        attemptedAccounts world).log, accountId ∉ attemptedAccounts) →
      (requestedAccounts (executeWithRetryLoop options (n + 1) attempt lastError
        attemptedAccounts world).log).length = n + 1 ∧
      ∃ (accountId accountType : String) (e : JSError),
        (executeWithRetryLoop options (n + 1) attempt lastError attemptedAccounts
          world).log.getLast? = some (Event.request accountId accountType (Except.error e)) ∧
        (executeWithRetryLoop options (n + 1) attempt lastError attemptedAccounts
          world).result = Except.error e := by
  intro n
  induction n with
  | zero =>
    intro attempt lastError attemptedAccounts world hmax hnodup hfresh
    rcases executeWithRetryLoop_succ options 0 attempt lastError attemptedAccounts world with
      ⟨e, w1, hs, _, h⟩ | ⟨e, w1, d, hs, _, h⟩ | ⟨sel, w1, hs, hmem, h⟩ |
      ⟨sel, w1, r, w2, hs, _, hr, h⟩ | ⟨sel, w1, e, w2, hs, _, hr, hc, h⟩ |
      ⟨sel, w1, e, w2, d, hs, _, hr, hc, h⟩
    · obtain ⟨sel, w, hw⟩ := hselect world
        (effectiveSessionHash options.sessionHash options.clearSessionOnRetry attempt)
      rw [hw] at hs; cases hs
    · obtain ⟨sel, w, hw⟩ := hselect world
        (effectiveSessionHash options.sessionHash options.clearSessionOnRetry attempt)
      rw [hw] at hs; cases hs
    · rw [h] at hfresh
      exact absurd hmem (hfresh sel.accountId (by simp [after_log, selectedAccounts]))
    · obtain ⟨e, w, hw, _⟩ := hrequest w1 sel.accountId sel.accountType
      rw [hw] at hr; cases hr
    · rw [h]
      exact ⟨by simp [requestedAccounts], sel.accountId, sel.accountType, e, rfl, rfl⟩
    · obtain ⟨e2, w, hw, hretry⟩ := hrequest w1 sel.accountId sel.accountType
      rw [hw] at hr
      cases hr
      rw [catchBlock_retryable _ _ _ hretry] at hc
      have : (attempt : Int) ≥ options.maxRetries := by
        simp only [add_zero] at hmax
        omega
      simp [this] at hc
  | succ m ih =>
    intro attempt lastError attemptedAccounts world hmax hnodup hfresh
    rcases executeWithRetryLoop_succ options (m + 1) attempt lastError attemptedAccounts
        world with
      ⟨e, w1, hs, _, h⟩ | ⟨e, w1, d, hs, _, h⟩ | ⟨sel, w1, hs, hmem, h⟩ |
      ⟨sel, w1, r, w2, hs, _, hr, h⟩ | ⟨sel, w1, e, w2, hs, _, hr, hc, h⟩ |
      ⟨sel, w1, e, w2, d, hs, _, hr, hc, h⟩
    · obtain ⟨sel, w, hw⟩ := hselect world
        (effectiveSessionHash options.sessionHash options.clearSessionOnRetry attempt)
      rw [hw] at hs; cases hs
    · obtain ⟨sel, w, hw⟩ := hselect world
        (effectiveSessionHash options.sessionHash options.clearSessionOnRetry attempt)
      rw [hw] at hs; cases hs
    · rw [h] at hfresh
      exact absurd hmem (hfresh sel.accountId (by simp [after_log, selectedAccounts]))
    · obtain ⟨e, w, hw, _⟩ := hrequest w1 sel.accountId sel.accountType
      rw [hw] at hr; cases hr
    · obtain ⟨e2, w, hw, hretry⟩ := hrequest w1 sel.accountId sel.accountType
      rw [hw] at hr
      cases hr
      rw [catchBlock_retryable _ _ _ hretry] at hc
      have : ¬ (attempt : Int) ≥ options.maxRetries := by
        push_cast at hmax
        omega
      simp [this] at hc
    · rw [h] at hnodup hfresh
      simp only [after_log, selectedAccounts_append, selectedAccounts, List.cons_append,
        List.nil_append, List.nodup_cons, List.mem_cons] at hnodup hfresh
      have hih := ih (attempt + 1) (some e) (attemptedAccounts ++ [sel.accountId]) w2
        (by push_cast at hmax ⊢; omega) hnodup.2
        (by
          intro accountId hid hmem
          rcases List.mem_append.mp hmem with hm | hm
          · exact hfresh accountId (Or.inr hid) hm
          · rw [List.mem_singleton] at hm
            subst hm
            exact hnodup.1 hid)
      obtain ⟨hlen, accountId, accountType, e3, hlast, hres⟩ := hih
      rw [h]
      refine ⟨?_, accountId, accountType, e3, ?_, ?_⟩
      · simp only [after_log, requestedAccounts_append, List.length_append, hlen]
        simp [requestedAccounts]
        omega
      · rw [after_log, List.getLast?_append, hlast]
        rfl
      · rw [after_result, hres]

/-- Counterexample to C14 as stated: with `maxRetries = 2`, a request that fails with
429 on every call and a selector that returns the account `acct-0` on every call,
`requestFunc` is called once (on `acct-0`), not three times. -/
theorem same_account_one_request :
    requestedAccounts (executeWithRetry (optionsAlways429 sameAccount 2)
      ScriptWorld.start).log = ["acct-0"] ∧
    (requestedAccounts (executeWithRetry (optionsAlways429 sameAccount 2)
      ScriptWorld.start).log).length ≠ 3 :=
  ⟨rfl, by decide⟩

/-- C14, amended: with `maxRetries = 2`, a `requestFunc` that fails with status 429 on
every call and a selector that returns an account on every call, if the accounts the
selector returns during the call are pairwise distinct, then `requestFunc` is
called exactly 3 times, the last event of the call is the third failing request,
and the call raises the error of that request, unchanged. -/
theorem executeWithRetry_always_429 {σ ρ κ μ : Type} (options : RetryOptions σ ρ κ μ)
    (world : σ) (hmax : options.maxRetries = 2)
    (hrequest : ∀ (w : σ) (accountId accountType : String), ∃ (e : JSError) (w2 : σ),
      options.requestFunc w accountId accountType = (Except.error e, w2) ∧
      lastStatusCodeOf e = JSValue.num 429)
    (hselect : ∀ (w : σ) (sessionHash : Option String), ∃ (selection : AccountSelection) (w1 : σ),
      options.selectAccountFunc w options.apiKeyData sessionHash options.requestBody.model =
        (Except.ok selection, w1))
    (hdistinct : (selectedAccounts (executeWithRetry options world).log).Nodup) :
    (requestedAccounts (executeWithRetry options world).log).length = 3 ∧
    ∃ (accountId accountType : String) (e : JSError),
      (executeWithRetry options world).log.getLast? =
        some (Event.request accountId accountType (Except.error e)) ∧
      (executeWithRetry options world).result = Except.error e := by
  have hretry : ∀ (w : σ) (accountId accountType : String), ∃ (e : JSError) (w2 : σ),
      options.requestFunc w accountId accountType = (Except.error e, w2) ∧
      shouldRetryError e (lastStatusCodeOf e) = true := by
    intro w accountId accountType
    obtain ⟨e, w2, h1, h2⟩ := hrequest w accountId accountType
    exact ⟨e, w2, h1, by rw [h2]; rfl⟩
  have hrun : executeWithRetry options world =
      executeWithRetryLoop options (2 + 1) 0 none [] world := by
    unfold executeWithRetry
    rw [hmax]
    rfl
  rw [hrun] at hdistinct ⊢
  exact executeWithRetryLoop_all_fail options hretry hselect 2 0 none [] world
    (by rw [hmax]; rfl) hdistinct (fun _ _ h => absurd h (List.not_mem_nil _))

/-- Witness of C14, amended: the accounts `acct-0`, `acct-1`, `acct-2`. -/
theorem executeWithRetry_always_429_witness :
    (requestedAccounts (executeWithRetry (optionsAlways429 distinctAccounts 2)
      ScriptWorld.start).log).length = 3 ∧
    ∃ (accountId accountType : String) (e : JSError),
      (executeWithRetry (optionsAlways429 distinctAccounts 2) ScriptWorld.start).log.getLast? =
        some (Event.request accountId accountType (Except.error e)) ∧
      (executeWithRetry (optionsAlways429 distinctAccounts 2) ScriptWorld.start).result =
        Except.error e :=
  executeWithRetry_always_429 (optionsAlways429 distinctAccounts 2) ScriptWorld.start rfl
    (fun w _ _ => ⟨JSError.withStatus "rate limited" 429,
      { w with requests := w.requests + 1 }, rfl, rfl⟩)
    (fun w _ => ⟨{ accountId := "acct-" ++ toString w.selects, accountType := "claude" },
      { w with selects := w.selects + 1 }, rfl⟩)
    (by decide)

/-! ### No account is requested twice -/

theorem executeWithRetryLoop_requests_fresh {σ ρ κ μ : Type} (options : RetryOptions σ ρ κ μ) :
    ∀ (remaining attempt : Nat) (lastError : Option JSError) (attemptedAccounts : List String)
      (world : σ),
      (requestedAccounts (executeWithRetryLoop options remaining attempt lastError
        attemptedAccounts world).log).Nodup ∧
      ∀ accountId ∈ requestedAccounts (executeWithRetryLoop options remaining attempt lastError
        attemptedAccounts world).log, accountId ∉ attemptedAccounts := by
  intro remaining
  induction remaining with
  | zero =>
    intro attempt lastError attemptedAccounts world
    simp [executeWithRetryLoop, requestedAccounts]
  | succ n ih =>
    intro attempt lastError attemptedAccounts world
    rcases executeWithRetryLoop_succ options n attempt lastError attemptedAccounts world with
      ⟨e, w1, _, _, h⟩ | ⟨e, w1, d, _, _, h⟩ | ⟨sel, w1, _, _, h⟩ |
      ⟨sel, w1, r, w2, _, hfresh, _, h⟩ | ⟨sel, w1, e, w2, _, hfresh, _, _, h⟩ |
      ⟨sel, w1, e, w2, d, _, hfresh, _, _, h⟩
    · rw [h]; simp [requestedAccounts]
    · rw [h]
      simpa [after_log, requestedAccounts_append, requestedAccounts] using
        ih (attempt + 1) (some e) attemptedAccounts w1
    · rw [h]
      simpa [after_log, requestedAccounts_append, requestedAccounts] using
        ih (attempt + 1) lastError attemptedAccounts w1
    · rw [h]; simpa [requestedAccounts] using hfresh
    · rw [h]; simpa [requestedAccounts] using hfresh
    · obtain ⟨hnodup, hnew⟩ := ih (attempt + 1) (some e) (attemptedAccounts ++ [sel.accountId]) w2
      rw [h]
      simp only [after_log, requestedAccounts_append, requestedAccounts, List.cons_append,
        List.nil_append, List.nodup_cons, List.mem_cons]
      refine ⟨⟨fun hmem => ?_, hnodup⟩, fun accountId hid => ?_⟩
      · exact hnew sel.accountId hmem (List.mem_append_right _ (List.mem_singleton_self _))
      · rcases hid with hid | hid
        · rw [hid]; exact hfresh
        · exact fun hmem => hnew accountId hid (List.mem_append_left _ hmem)

/-- C15: within one `executeWithRetry` call, whatever the selector and `requestFunc`
do, the account ids passed to `requestFunc` are pairwise different. -/
theorem executeWithRetry_requests_nodup {σ ρ κ μ : Type} (options : RetryOptions σ ρ κ μ)
    (world : σ) :
    (requestedAccounts (executeWithRetry options world).log).Nodup :=
  (executeWithRetryLoop_requests_fresh options (options.maxRetries + 1).toNat 0 none []
    world).1

/-! ### Events after which a call ends -/

theorem mem_or_split_of_append {α : Type} :
    ∀ (events rest before after : List α) (x : α),
      events ++ rest = before ++ x :: after →
      x ∈ events ∨ ∃ before2 : List α, rest = before2 ++ x :: after := by
  intro events
  induction events with
  | nil => intro rest before after x h; exact Or.inr ⟨before, h⟩
  | cons a events ih =>
    intro rest before after x h
    cases before with
    | nil =>
      simp only [List.cons_append, List.nil_append, List.cons.injEq] at h
      exact Or.inl (by rw [h.1]; exact List.mem_cons_self _ _)
    | cons b before =>
      simp only [List.cons_append, List.cons.injEq] at h
      rcases ih rest before after x h.2 with hmem | hsplit
      · exact Or.inl (List.mem_cons_of_mem _ hmem)
      · exact Or.inr hsplit

theorem executeWithRetryLoop_terminal {σ ρ κ μ : Type} (options : RetryOptions σ ρ κ μ) :
    ∀ (remaining attempt : Nat) (lastError : Option JSError) (attemptedAccounts : List String)
      (world : σ) (before after : List (Event ρ)) (x : Event ρ),
      (executeWithRetryLoop options remaining attempt lastError attemptedAccounts world).log =
        before ++ x :: after →
      (∀ (accountId accountType : String) (result : ρ),
        x = Event.request accountId accountType (Except.ok result) →
        after = [] ∧
        (executeWithRetryLoop options remaining attempt lastError attemptedAccounts
          world).result = Except.ok result) ∧
      (∀ (sessionHash : Option String) (error : JSError),
        x = Event.select sessionHash (Except.error error) →
        shouldRetryError error (lastStatusCodeOf error) = false →
        after = [] ∧
        (executeWithRetryLoop options remaining attempt lastError attemptedAccounts
          world).result = Except.error error) := by
  intro remaining
  induction remaining with
  | zero =>
    intro attempt lastError attemptedAccounts world before after x hlog
    simp [executeWithRetryLoop] at hlog
  | succ n ih =>
    intro attempt lastError attemptedAccounts world before after x hlog
    rcases executeWithRetryLoop_succ options n attempt lastError attemptedAccounts world with
      ⟨e, w1, _, _, h⟩ | ⟨e, w1, d, _, hc, h⟩ | ⟨sel, w1, _, _, h⟩ |
      ⟨sel, w1, r, w2, _, _, _, h⟩ | ⟨sel, w1, e, w2, _, _, _, _, h⟩ |
      ⟨sel, w1, e, w2, d, _, _, _, _, h⟩
    · rw [h] at hlog ⊢
      simp only at hlog
      rcases before with _ | ⟨b, before⟩
      · simp only [List.nil_append, List.cons.injEq] at hlog
        obtain ⟨hx, hafter⟩ := hlog
        refine ⟨fun _ _ _ hreq => ?_, fun tok error hsel _ => ?_⟩
        · rw [hreq] at hx; cases hx
        · rw [hsel] at hx
          cases hx
          exact ⟨hafter.symm, rfl⟩
      · simp at hlog
    · rw [h] at hlog ⊢
      rw [after_log] at hlog
      rw [after_result]
      rcases mem_or_split_of_append _ _ _ _ _ hlog with hmem | ⟨before2, hsplit⟩
      · refine ⟨fun _ _ _ hreq => ?_, fun tok error hsel hnot => ?_⟩
        · rw [hreq] at hmem; simp at hmem
        · rw [hsel] at hmem
          simp only [List.mem_cons, Event.select.injEq, Except.error.injEq, List.mem_singleton,
            List.not_mem_nil, or_false] at hmem
          rcases hmem with ⟨_, herr⟩ | hmem
          · subst herr
            rw [catchBlock_not_retryable _ _ _ hnot] at hc
            cases hc
          · cases hmem
      · exact ih _ _ _ _ before2 after x hsplit
    · rw [h] at hlog ⊢
      rw [after_log] at hlog
      rw [after_result]
      rcases mem_or_split_of_append _ _ _ _ _ hlog with hmem | ⟨before2, hsplit⟩
      · refine ⟨fun _ _ _ hreq => ?_, fun tok error hsel hnot => ?_⟩
        · rw [hreq] at hmem; simp at hmem
        · rw [hsel] at hmem; simp at hmem
      · exact ih _ _ _ _ before2 after x hsplit
    · rw [h] at hlog ⊢
      simp only at hlog
      rcases before with _ | ⟨b, _ | ⟨c, before⟩⟩
      · simp only [List.nil_append, List.cons.injEq] at hlog
        refine ⟨fun _ _ _ hreq => ?_, fun tok error hsel _ => ?_⟩
        · rw [hreq] at hlog; cases hlog.1
        · rw [hsel] at hlog; cases hlog.1
      · simp only [List.cons_append, List.nil_append, List.cons.injEq] at hlog
        obtain ⟨_, hx, hafter⟩ := hlog
        refine ⟨fun _ _ _ hreq => ?_, fun tok error hsel _ => ?_⟩
        · rw [hreq] at hx
          cases hx
          exact ⟨hafter.symm, rfl⟩
        · rw [hsel] at hx; cases hx
      · simp at hlog
    · rw [h] at hlog ⊢
      simp only at hlog
      rcases before with _ | ⟨b, _ | ⟨c, before⟩⟩
      · simp only [List.nil_append, List.cons.injEq] at hlog
        refine ⟨fun _ _ _ hreq => ?_, fun tok error hsel _ => ?_⟩
        · rw [hreq] at hlog; cases hlog.1
        · rw [hsel] at hlog; cases hlog.1
      · simp only [List.cons_append, List.nil_append, List.cons.injEq] at hlog
        obtain ⟨_, hx, hafter⟩ := hlog
        refine ⟨fun _ _ _ hreq => ?_, fun tok error hsel _ => ?_⟩
        · rw [hreq] at hx; cases hx
        · rw [hsel] at hx; cases hx
      · simp at hlog
    · rw [h] at hlog ⊢
      rw [after_log] at hlog
      rw [after_result]
      rcases mem_or_split_of_append _ _ _ _ _ hlog with hmem | ⟨before2, hsplit⟩
      · refine ⟨fun _ _ _ hreq => ?_, fun tok error hsel hnot => ?_⟩
        · rw [hreq] at hmem; simp at hmem
        · rw [hsel] at hmem; simp at hmem
      · exact ih _ _ _ _ before2 after x hsplit

/-- Counterexample to C16 as stated: the selector raises an error with status 503 on
its first call; `executeWithRetry` sleeps 100 ms, calls the selector again, calls
`requestFunc` and returns its result instead of raising the selector's error. -/
theorem selector_error_is_retried :
    (executeWithRetry (scriptedOptions selectorFailsOnce (fun _ => Except.ok "done")
        (some "session-1") 2 true) ScriptWorld.start).log =
      [Event.select (some "session-1")
          (Except.error (JSError.withStatus "selector unavailable" 503)),
        Event.sleep 100,
        Event.select none (Except.ok { accountId := "acct-1", accountType := "claude" }),
        Event.request "acct-1" "claude" (Except.ok "done")] ∧
    (executeWithRetry (scriptedOptions selectorFailsOnce (fun _ => Except.ok "done")
        (some "session-1") 2 true) ScriptWorld.start).result = Except.ok "done" :=
  ⟨rfl, rfl⟩

/-- C16, amended: when `selectAccountFunc` raises an error whose status is not
retryable (such as an error without a status code), the call ends with that
selector call and raises that error: no selector call, no request and no sleep
follows it. -/
theorem executeWithRetry_selector_error {σ ρ κ μ : Type} (options : RetryOptions σ ρ κ μ)
    (world : σ) (before after : List (Event ρ)) (sessionHash : Option String) (error : JSError)
    (hlog : (executeWithRetry options world).log =
      before ++ Event.select sessionHash (Except.error error) :: after)
    (hstatus : shouldRetryError error (lastStatusCodeOf error) = false) :
    after = [] ∧ (executeWithRetry options world).result = Except.error error :=
  (executeWithRetryLoop_terminal options (options.maxRetries + 1).toNat 0 none [] world
    before after _ hlog).2 sessionHash error rfl hstatus

/-- Witness of C16, amended: a selector that raises `No available accounts` without a
status code. -/
theorem executeWithRetry_selector_error_witness :
    ([] : List (Event String)) = [] ∧
    (executeWithRetry (scriptedOptions (fun _ => Except.error (JSError.new "No available accounts"))
        (fun _ => (Except.ok "done" : Except JSError String)) (some "session-1") 2 true)
      ScriptWorld.start).result = Except.error (JSError.new "No available accounts") :=
  executeWithRetry_selector_error
    (scriptedOptions (fun _ => Except.error (JSError.new "No available accounts"))
      (fun _ => (Except.ok "done" : Except JSError String)) (some "session-1") 2 true)
    ScriptWorld.start [] [] (some "session-1") (JSError.new "No available accounts") rfl rfl

/-- C17: when a `requestFunc` call succeeds, the call ends with it and returns
exactly its result: no selector call, no request and no sleep follows it. -/
theorem executeWithRetry_success_is_last {σ ρ κ μ : Type} (options : RetryOptions σ ρ κ μ)
    (world : σ) (before after : List (Event ρ)) (accountId accountType : String) (result : ρ)
    (hlog : (executeWithRetry options world).log =
      before ++ Event.request accountId accountType (Except.ok result) :: after) :
    after = [] ∧ (executeWithRetry options world).result = Except.ok result :=
  (executeWithRetryLoop_terminal options (options.maxRetries + 1).toNat 0 none [] world
    before after _ hlog).1 accountId accountType result rfl

/-- Witness of C17: the second request, on `acct-1`, succeeds after a 503 on
`acct-0`. -/
theorem executeWithRetry_success_is_last_witness :
    ([] : List (Event String)) = [] ∧
    (executeWithRetry (optionsDistinct (failsThenSucceeds 1 503) 2) ScriptWorld.start).result =
      Except.ok "done" :=
  executeWithRetry_success_is_last (optionsDistinct (failsThenSucceeds 1 503) 2)
    ScriptWorld.start
    [Event.select (some "session-1") (Except.ok { accountId := "acct-0", accountType := "claude" }),
      Event.request "acct-0" "claude" (Except.error (JSError.withStatus "unavailable" 503)),
      Event.sleep 100,
      Event.select none (Except.ok { accountId := "acct-1", accountType := "claude" })]
    [] "acct-1" "claude" "done" rfl

/-! ### The session hash given to the selector -/

theorem getElem?_cons_shift {α : Type} (a : α) (l : List α) (f : Nat → α) (attempt : Nat)
    (hhead : a = f attempt)
    (htail : ∀ i, i < l.length → l[i]? = some (f (attempt + 1 + i))) :
    ∀ i, i < (a :: l).length → (a :: l)[i]? = some (f (attempt + i)) := by
  intro i hi
  cases i with
  | zero => simp [hhead]
  | succ j =>
    have hj : j < l.length := by simpa using hi
    rw [List.getElem?_cons_succ, htail j hj]
    congr 2
    omega

theorem executeWithRetryLoop_tokens {σ ρ κ μ : Type} (options : RetryOptions σ ρ κ μ) :
    ∀ (remaining attempt : Nat) (lastError : Option JSError) (attemptedAccounts : List String)
      (world : σ) (i : Nat),
      i < (selectTokens (executeWithRetryLoop options remaining attempt lastError
        attemptedAccounts world).log).length →
      (selectTokens (executeWithRetryLoop options remaining attempt lastError
        attemptedAccounts world).log)[i]? =
        some (effectiveSessionHash options.sessionHash options.clearSessionOnRetry
          (attempt + i)) := by
  intro remaining
  induction remaining with
  | zero =>
    intro attempt lastError attemptedAccounts world i hi
    simp [executeWithRetryLoop, selectTokens] at hi
  | succ n ih =>
    intro attempt lastError attemptedAccounts world
    rcases executeWithRetryLoop_succ options n attempt lastError attemptedAccounts world with
      ⟨e, w1, _, _, h⟩ | ⟨e, w1, d, _, _, h⟩ | ⟨sel, w1, _, _, h⟩ |
      ⟨sel, w1, r, w2, _, _, _, h⟩ | ⟨sel, w1, e, w2, _, _, _, _, h⟩ |
      ⟨sel, w1, e, w2, d, _, _, _, _, h⟩
    · rw [h]
      exact getElem?_cons_shift _ [] _ attempt rfl (fun i hi => absurd hi (by simp))
    · rw [h]
      simp only [after_log, selectTokens_append]
      exact getElem?_cons_shift _ _ _ attempt rfl (ih (attempt + 1) (some e) attemptedAccounts w1)
    · rw [h]
      simp only [after_log, selectTokens_append]
      exact getElem?_cons_shift _ _ _ attempt rfl (ih (attempt + 1) lastError attemptedAccounts w1)
    · rw [h]
      exact getElem?_cons_shift _ [] _ attempt rfl (fun i hi => absurd hi (by simp))
    · rw [h]
      exact getElem?_cons_shift _ [] _ attempt rfl (fun i hi => absurd hi (by simp))
    · rw [h]
      simp only [after_log, selectTokens_append]
      exact getElem?_cons_shift _ _ _ attempt rfl
        (ih (attempt + 1) (some e) (attemptedAccounts ++ [sel.accountId]) w2)

/-- C19: the session hash given to the selector call number `i` of a call (attempt
`i`, counted from 0) is the original `sessionHash` when `i = 0` or
`clearSessionOnRetry` is false, and `null` when `i >= 1` and `clearSessionOnRetry` is
true. -/
theorem executeWithRetry_session_hash {σ ρ κ μ : Type} (options : RetryOptions σ ρ κ μ)
    (world : σ) (i : Nat) (token : Option String)
    (hcall : (selectTokens (executeWithRetry options world).log)[i]? = some token) :
    (i = 0 ∨ options.clearSessionOnRetry = false → token = options.sessionHash) ∧
    (1 ≤ i → options.clearSessionOnRetry = true → token = none) := by
  have hlt : i < (selectTokens (executeWithRetry options world).log).length := by
    by_contra hge
    rw [List.getElem?_eq_none (by omega)] at hcall
    cases hcall
  have h := executeWithRetryLoop_tokens options (options.maxRetries + 1).toNat 0 none [] world
    i hlt
  rw [show executeWithRetryLoop options (options.maxRetries + 1).toNat 0 none [] world =
    executeWithRetry options world from rfl, hcall, Nat.zero_add] at h
  have htoken := Option.some.inj h
  refine ⟨fun hfirst => ?_, fun hi hclear => ?_⟩
  · rw [htoken, effectiveSessionHash, if_pos hfirst]
  · rw [htoken, effectiveSessionHash, if_neg]
    rintro (h0 | hfalse)
    · omega
    · rw [hclear] at hfalse
      cases hfalse

/-- Witness of C19: the second selector call of a call with session hash `session-1`
and `clearSessionOnRetry = true` gets `null`. -/
theorem executeWithRetry_session_hash_witness :
    ((1 : Nat) = 0 ∨ true = false → (none : Option String) = some "session-1") ∧
    (1 ≤ 1 → true = true → (none : Option String) = none) :=
  executeWithRetry_session_hash (optionsAlways429 distinctAccounts 2) ScriptWorld.start 1 none
    rfl

/-! ### Retryable failures followed by a success -/

theorem scripted_retry_chain {ρ : Type} (selectScript : Nat → Except JSError AccountSelection)
    (requestScript : Nat → Except JSError ρ) (sessionHash : Option String) (maxRetries : Int)
    (clearSessionOnRetry : Bool) (accounts : Nat → AccountSelection) (errors : Nat → JSError)
    (k : Nat) (result : ρ)
    (hselect : ∀ i, i ≤ k → selectScript i = Except.ok (accounts i))
    (hdistinct : ∀ i j, i ≤ k → j ≤ k → (accounts i).accountId = (accounts j).accountId → i = j)
    (hfail : ∀ i, i < k → requestScript i = Except.error (errors i) ∧
      shouldRetryError (errors i) (lastStatusCodeOf (errors i)) = true)
    (hok : requestScript k = Except.ok result) (hk : (k : Int) ≤ maxRetries) :
    ∀ (j a n : Nat) (lastError : Option JSError) (attemptedAccounts : List String),
      a + j = k → j ≤ n →
      (∀ i, a ≤ i → i ≤ k → (accounts i).accountId ∉ attemptedAccounts) →
      (executeWithRetryLoop
        (scriptedOptions selectScript requestScript sessionHash maxRetries clearSessionOnRetry)
        (n + 1) a lastError attemptedAccounts { selects := a, requests := a }).result =
        Except.ok result ∧
      (requestedAccounts (executeWithRetryLoop
        (scriptedOptions selectScript requestScript sessionHash maxRetries clearSessionOnRetry)
        (n + 1) a lastError attemptedAccounts { selects := a, requests := a }).log).length =
        j + 1 ∧
      sleepDelays (executeWithRetryLoop
        (scriptedOptions selectScript requestScript sessionHash maxRetries clearSessionOnRetry)
        (n + 1) a lastError attemptedAccounts { selects := a, requests := a }).log =
        (List.range j).map (fun i => backoffDelay (a + i)) := by
  intro j
  induction j with
  | zero =>
    intro a n lastError attemptedAccounts ha _ hfresh
    have hak : a = k := by omega
    subst hak
    have hnot := hfresh a (le_refl _) (le_refl _)
    rw [executeWithRetryLoop]
    simp [scriptedOptions, hselect a (le_refl _), hnot, hok, requestedAccounts, sleepDelays]
  | succ j ih =>
    intro a n lastError attemptedAccounts ha hn hfresh
    obtain ⟨m, hm⟩ : ∃ m, n = m + 1 := ⟨n - 1, by omega⟩
    subst hm
    have hnot := hfresh a (le_refl _) (by omega)
    obtain ⟨hreq, hretry⟩ := hfail a (by omega)
    have hcatch : catchBlock maxRetries a (errors a) = some (backoffDelay a) := by
      rw [catchBlock_retryable _ _ _ hretry, if_neg]
      omega
    have hih := ih (a + 1) m (some (errors a)) (attemptedAccounts ++ [(accounts a).accountId])
      (by omega) (by omega)
      (by
        intro i hai hik hmem
        rcases List.mem_append.mp hmem with h | h
        · exact hfresh i (by omega) hik h
        · rw [List.mem_singleton] at h
          have := hdistinct i a hik (by omega) h
          omega)
    obtain ⟨hres, hlen, hsleep⟩ := hih
    rw [executeWithRetryLoop]
    simp only [scriptedOptions, hselect a (by omega), hnot, if_false, hreq, hcatch]
    simp only [scriptedOptions] at hres hlen hsleep
    refine ⟨by rw [after_result, hres], ?_, ?_⟩
    · rw [after_log, requestedAccounts_append, List.length_append, hlen]
      simp [requestedAccounts]
      omega
    · rw [after_log, sleepDelays_append, hsleep, List.range_succ_eq_map]
      simp only [sleepDelays, List.map_cons, List.map_map, add_zero, List.cons_append,
        List.nil_append, List.cons.injEq, true_and]
      apply List.map_congr_left
      intro i _
      simp only [Function.comp_apply, Nat.succ_eq_add_one]
      congr 1
      omega

/-- C18: with a selector that yields pairwise distinct accounts and a `requestFunc`
that fails with a retryable status on its first `k` calls (`k <= maxRetries`) and
succeeds on the next, `executeWithRetry` returns the successful result after
exactly `k + 1` requests and `k` sleeps, the sleep after attempt `i` lasting
`min(100 * 2^i, 1000)` milliseconds. -/
theorem executeWithRetry_backoff {ρ : Type}
    (selectScript : Nat → Except JSError AccountSelection)
    (requestScript : Nat → Except JSError ρ) (sessionHash : Option String) (maxRetries : Int)
    (clearSessionOnRetry : Bool) (accounts : Nat → AccountSelection) (errors : Nat → JSError)
    (k : Nat) (result : ρ)
    (hselect : ∀ i, i ≤ k → selectScript i = Except.ok (accounts i))
    (hdistinct : ∀ i j, i ≤ k → j ≤ k → (accounts i).accountId = (accounts j).accountId → i = j)
    (hfail : ∀ i, i < k → requestScript i = Except.error (errors i) ∧
      shouldRetryError (errors i) (lastStatusCodeOf (errors i)) = true)
    (hok : requestScript k = Except.ok result) (hk : (k : Int) ≤ maxRetries) :
    (executeWithRetry
      (scriptedOptions selectScript requestScript sessionHash maxRetries clearSessionOnRetry)
      ScriptWorld.start).result = Except.ok result ∧
    (requestedAccounts (executeWithRetry
      (scriptedOptions selectScript requestScript sessionHash maxRetries clearSessionOnRetry)
      ScriptWorld.start).log).length = k + 1 ∧
    sleepDelays (executeWithRetry
      (scriptedOptions selectScript requestScript sessionHash maxRetries clearSessionOnRetry)
      ScriptWorld.start).log = (List.range k).map (fun i => min (100 * 2 ^ i) 1000) := by
  have hmax : 0 ≤ maxRetries := by omega
  have hrun : executeWithRetry
      (scriptedOptions selectScript requestScript sessionHash maxRetries clearSessionOnRetry)
      ScriptWorld.start =
      executeWithRetryLoop
        (scriptedOptions selectScript requestScript sessionHash maxRetries clearSessionOnRetry)
        (maxRetries.toNat + 1) 0 none [] { selects := 0, requests := 0 } := by
    unfold executeWithRetry
    rw [show (scriptedOptions selectScript requestScript sessionHash maxRetries
      clearSessionOnRetry).maxRetries = maxRetries from rfl, toNat_maxRetries_succ _ hmax]
    rfl
  rw [hrun]
  have h := scripted_retry_chain selectScript requestScript sessionHash maxRetries
    clearSessionOnRetry accounts errors k result hselect hdistinct hfail hok hk
    k 0 maxRetries.toNat none [] (by omega) (by omega)
    (fun _ _ _ hmem => absurd hmem (List.not_mem_nil _))
  simpa [backoffDelay] using h

/-- Witness of C18: `maxRetries = 2`, the accounts `acct-0`, `acct-1`, `acct-2`, and
503, 503, success: three requests with sleeps of 100 ms and 200 ms. -/
theorem executeWithRetry_backoff_witness :
    (executeWithRetry (scriptedOptions distinctAccounts (failsThenSucceeds 2 503)
      (some "session-1") 2 true) ScriptWorld.start).result = Except.ok "done" ∧
    (requestedAccounts (executeWithRetry (scriptedOptions distinctAccounts
      (failsThenSucceeds 2 503) (some "session-1") 2 true) ScriptWorld.start).log).length =
      2 + 1 ∧
    sleepDelays (executeWithRetry (scriptedOptions distinctAccounts (failsThenSucceeds 2 503)
      (some "session-1") 2 true) ScriptWorld.start).log = [100, 200] :=
  executeWithRetry_backoff distinctAccounts (failsThenSucceeds 2 503) (some "session-1") 2 true
    (fun i => { accountId := "acct-" ++ toString i, accountType := "claude" })
    (fun _ => JSError.withStatus "unavailable" 503) 2 "done"
    (fun _ _ => rfl)
    (by
      intro i j hi hj h
      interval_cases i <;> interval_cases j <;> first | rfl | exact absurd h (by decide))
    (by
      intro i hi
      interval_cases i <;> exact ⟨rfl, rfl⟩)
    rfl (by decide)

/-! ### The end of the loop -/

theorem endsWithSkip_of_append {ρ : Type} (events rest : List (Event ρ))
    (h : EndsWithSkip (events ++ rest)) : EndsWithSkip rest := by
  intro last hlast
  apply h
  rw [List.getLast?_append, hlast]
  rfl

theorem getLast?_getD_cons {α : Type} (a fallback : α) (l : List α) :
    ((a :: l).getLast?).getD fallback = (l.getLast?).getD a := by
  rw [List.getLast?_cons]
  rfl

theorem executeWithRetryLoop_exhausted {σ ρ κ μ : Type} (options : RetryOptions σ ρ κ μ) :
    ∀ (remaining attempt : Nat) (lastError : Option JSError) (attemptedAccounts : List String)
      (world : σ),
      EndsWithSkip (executeWithRetryLoop options remaining attempt lastError attemptedAccounts
        world).log →
      (executeWithRetryLoop options remaining attempt lastError attemptedAccounts
        world).result =
        Except.error (((caughtErrors (executeWithRetryLoop options remaining attempt lastError
          attemptedAccounts world).log).getLast?).getD
          (lastError.getD (JSError.new "Retry failed with unknown error"))) := by
  intro remaining
  induction remaining with
  | zero =>
    intro attempt lastError attemptedAccounts world _
    rfl
  | succ n ih =>
    intro attempt lastError attemptedAccounts world hskip
    rcases executeWithRetryLoop_succ options n attempt lastError attemptedAccounts world with
      ⟨e, w1, _, _, h⟩ | ⟨e, w1, d, _, _, h⟩ | ⟨sel, w1, _, _, h⟩ |
      ⟨sel, w1, r, w2, _, _, _, h⟩ | ⟨sel, w1, e, w2, _, _, _, _, h⟩ |
      ⟨sel, w1, e, w2, d, _, _, _, _, h⟩
    · rw [h] at hskip
      obtain ⟨_, _, hlast⟩ := hskip _ rfl
      cases hlast
    · rw [h] at hskip ⊢
      rw [after_log] at hskip
      rw [after_result, after_log, ih _ _ _ _ (endsWithSkip_of_append _ _ hskip),
        caughtErrors_append]
      simp only [caughtErrors, List.cons_append, List.nil_append, Option.getD_some]
      rw [getLast?_getD_cons]
    · rw [h] at hskip ⊢
      rw [after_log] at hskip
      rw [after_result, after_log, ih _ _ _ _ (endsWithSkip_of_append _ _ hskip),
        caughtErrors_append]
      simp only [caughtErrors, List.nil_append]
    · rw [h] at hskip
      obtain ⟨_, _, hlast⟩ := hskip _ rfl
      cases hlast
    · rw [h] at hskip
      obtain ⟨_, _, hlast⟩ := hskip _ rfl
      cases hlast
    · rw [h] at hskip ⊢
      rw [after_log] at hskip
      rw [after_result, after_log, ih _ _ _ _ (endsWithSkip_of_append _ _ hskip),
        caughtErrors_append]
      simp only [caughtErrors, List.cons_append, List.nil_append, Option.getD_some]
      rw [getLast?_getD_cons]

theorem executeWithRetryLoop_first_not_skipped {σ ρ κ μ : Type} (options : RetryOptions σ ρ κ μ)
    (remaining attempt : Nat) (lastError : Option JSError) (world : σ)
    (hnonempty : (executeWithRetryLoop options remaining attempt lastError [] world).log ≠ [])
    (hskip : EndsWithSkip (executeWithRetryLoop options remaining attempt lastError []
      world).log) :
    caughtErrors (executeWithRetryLoop options remaining attempt lastError [] world).log ≠
      [] := by
  cases remaining with
  | zero => exact absurd rfl hnonempty
  | succ n =>
    rcases executeWithRetryLoop_succ options n attempt lastError [] world with
      ⟨e, w1, _, _, h⟩ | ⟨e, w1, d, _, _, h⟩ | ⟨sel, w1, _, hmem, h⟩ |
      ⟨sel, w1, r, w2, _, _, _, h⟩ | ⟨sel, w1, e, w2, _, _, _, _, h⟩ |
      ⟨sel, w1, e, w2, d, _, _, _, _, h⟩
    · rw [h]; simp [caughtErrors]
    · rw [h, after_log, caughtErrors_append]; simp [caughtErrors]
    · exact absurd hmem (List.not_mem_nil _)
    · rw [h] at hskip
      obtain ⟨_, _, hlast⟩ := hskip _ rfl
      cases hlast
    · rw [h]; simp [caughtErrors]
    · rw [h, after_log, caughtErrors_append]; simp [caughtErrors]

/-- Counterexample to C20 as stated: with `maxRetries = 1`, the same account on every
selection and a request that fails with 429, the last attempt is a skip and the
loop ends; the call raises the 429 error of the request, not the generic error
`Retry failed with unknown error`. -/
theorem skip_at_end_raises_last_error :
    (executeWithRetry (optionsAlways429 sameAccount 1) ScriptWorld.start).log =
      [Event.select (some "session-1")
          (Except.ok { accountId := "acct-0", accountType := "claude" }),
        Event.request "acct-0" "claude" (Except.error (JSError.withStatus "rate limited" 429)),
        Event.sleep 100,
        Event.select none (Except.ok { accountId := "acct-0", accountType := "claude" })] ∧
    (executeWithRetry (optionsAlways429 sameAccount 1) ScriptWorld.start).result =
      Except.error (JSError.withStatus "rate limited" 429) ∧
    (executeWithRetry (optionsAlways429 sameAccount 1) ScriptWorld.start).result ≠
      Except.error (JSError.new "Retry failed with unknown error") := by
  refine ⟨rfl, rfl, fun h => ?_⟩
  have hmessage : (JSError.withStatus "rate limited" 429).message =
      (JSError.new "Retry failed with unknown error").message :=
    congrArg JSError.message (Except.error.inj h)
  exact absurd hmessage (by decide)

/-- C20, amended: when the loop ends without a return or a throw inside it, the call
raises an error and returns no result. If the last attempt was the skip of an
account attempted before, the error raised is the last error caught in the loop
(there always is one, because the first attempt is never a skip); the generic
error `Retry failed with unknown error` is raised only when no attempt was made,
which takes a negative `maxRetries`. -/
theorem executeWithRetry_loop_end {σ ρ κ μ : Type} (options : RetryOptions σ ρ κ μ)
    (world : σ) :
    (options.maxRetries < 0 →
      (executeWithRetry options world).log = [] ∧
      (executeWithRetry options world).result =
        Except.error (JSError.new "Retry failed with unknown error")) ∧
    (∀ (before : List (Event ρ)) (sessionHash : Option String) (selection : AccountSelection),
      (executeWithRetry options world).log =
        before ++ [Event.select sessionHash (Except.ok selection)] →
      ∃ error : JSError,
        (caughtErrors (executeWithRetry options world).log).getLast? = some error ∧
        (executeWithRetry options world).result = Except.error error) := by
  refine ⟨fun hneg => ?_, fun before sessionHash selection hlog => ?_⟩
  · have hzero : (options.maxRetries + 1).toNat = 0 := by omega
    unfold executeWithRetry
    rw [hzero]
    exact ⟨rfl, rfl⟩
  · have hskip : EndsWithSkip (executeWithRetry options world).log := by
      intro last hlast
      rw [hlog, List.getLast?_concat] at hlast
      exact ⟨sessionHash, selection, (Option.some.inj hlast).symm⟩
    have hnonempty : (executeWithRetry options world).log ≠ [] := by
      rw [hlog]
      simp
    have hcaught := executeWithRetryLoop_first_not_skipped options
      (options.maxRetries + 1).toNat 0 none world hnonempty hskip
    have hresult := executeWithRetryLoop_exhausted options (options.maxRetries + 1).toNat 0
      none [] world hskip
    obtain ⟨error, herror⟩ : ∃ error, (caughtErrors (executeWithRetryLoop options
        (options.maxRetries + 1).toNat 0 none [] world).log).getLast? = some error := by
      cases hl : (caughtErrors (executeWithRetryLoop options
        (options.maxRetries + 1).toNat 0 none [] world).log).getLast? with
      | none => exact absurd (List.getLast?_eq_none_iff.mp hl) hcaught
      | some error => exact ⟨error, rfl⟩
    refine ⟨error, herror, ?_⟩
    rw [herror] at hresult
    exact hresult

/-- Witness of C20, amended: the call of the counterexample raises the last caught
error. -/
theorem executeWithRetry_loop_end_witness :
    ∃ error : JSError,
      (caughtErrors (executeWithRetry (optionsAlways429 sameAccount 1)
        ScriptWorld.start).log).getLast? = some error ∧
      (executeWithRetry (optionsAlways429 sameAccount 1) ScriptWorld.start).result =
        Except.error error :=
  (executeWithRetry_loop_end (optionsAlways429 sameAccount 1) ScriptWorld.start).2
    [Event.select (some "session-1")
        (Except.ok { accountId := "acct-0", accountType := "claude" }),
      Event.request "acct-0" "claude" (Except.error (JSError.withStatus "rate limited" 429)),
      Event.sleep 100]
    none { accountId := "acct-0", accountType := "claude" } rfl

/-! ### Every decision agrees with its count and threshold -/

/-- C24: every decision that `shouldMarkAccountUnavailable` returns, in every branch,
for every configuration and every store (whatever round trips fail), has
`shouldMarkUnavailable` equal to `errorCount >= threshold`. -/
theorem shouldMarkAccountUnavailable_consistent (toLowerCase : String → String)
    (config : Config) (s : Store) (accountId : String) (statusCode : Int) (errorData : JSValue)
    (d : Decision) (after : Store)
    (hrun : shouldMarkAccountUnavailable toLowerCase config s accountId statusCode errorData =
      (Except.ok d, after)) :
    d.shouldMarkUnavailable = decide (d.errorCount ≥ d.threshold) := by
  unfold shouldMarkAccountUnavailable at hrun
  split_ifs at hrun with hoff h401 h429 h529
  · obtain ⟨hd, -⟩ := Prod.mk.inj hrun
    rw [← Except.ok.inj hd]
    rfl
  · cases hauth : isConsoleAuthError toLowerCase statusCode errorData with
    | error e =>
      rw [hauth] at hrun
      obtain ⟨hd, -⟩ := Prod.mk.inj hrun
      cases hd
    | ok isConsoleAuth =>
      rw [hauth] at hrun
      cases isConsoleAuth with
      | true =>
        obtain ⟨hd, -⟩ := Prod.mk.inj hrun
        rw [← Except.ok.inj hd]
        rfl
      | false =>
        obtain ⟨hd, -⟩ := Prod.mk.inj hrun
        rw [← Except.ok.inj hd]
  · obtain ⟨hd, -⟩ := Prod.mk.inj hrun
    rw [← Except.ok.inj hd]
  · obtain ⟨hd, -⟩ := Prod.mk.inj hrun
    rw [← Except.ok.inj hd]
  · obtain ⟨hd, -⟩ := Prod.mk.inj hrun
    rw [← Except.ok.inj hd]
    rfl

/-- Witness of C24: a 429 on a store whose increment fails, with `max429Errors = -1`:
the count 0 has reached the threshold -1 and the decision marks the account. -/
theorem shouldMarkAccountUnavailable_consistent_witness :
    true = decide ((0 : Int) ≥ -1) :=
  shouldMarkAccountUnavailable_consistent asciiLowerCase
    (Config.enabled none none (some (-1)) none none none)
    { Store.empty with faults := [0] } "acct-1" 429 (JSValue.str "rate limited")
    { shouldMarkUnavailable := true, errorType := "429", errorCount := 0, threshold := -1 }
    { Store.empty with faults := [] } (by apply Prod.ext <;> rfl)

/-! ### A failing store -/

theorem incr_of_faults_zero (s : Store) (rest : List Nat) (key : String)
    (h : s.faults = 0 :: rest) :
    s.incr key = (Except.error StoreError.unavailable, { s with faults := rest }) := by
  obtain ⟨now, data, faults⟩ := s
  simp only at h
  subst h
  rfl

theorem incr_expire_of_faults_one (s : Store) (rest : List Nat) (key : String) (seconds : Int)
    (h : s.faults = 1 :: rest) :
    (∃ count : Int, (s.incr key).1 = Except.ok count) ∧
    ((s.incr key).2.expire key seconds).1 = Except.error StoreError.unavailable := by
  obtain ⟨now, data, faults⟩ := s
  simp only at h
  subst h
  exact ⟨⟨_, rfl⟩, rfl⟩

theorem incrementErrorCounter_of_store_failure (s : Store) (rest : List Nat)
    (accountId errorType : String) (windowSeconds : Int)
    (h : s.faults = 0 :: rest ∨ s.faults = 1 :: rest) :
    (incrementErrorCounter s accountId errorType windowSeconds).1 = 0 := by
  rcases h with h | h
  · simp only [incrementErrorCounter, incr_of_faults_zero s rest _ h]
  · obtain ⟨⟨count, hcount⟩, hexpire⟩ :=
      incr_expire_of_faults_one s rest (counterKey accountId errorType) windowSeconds h
    unfold incrementErrorCounter
    simp only
    rcases hi : s.incr (counterKey accountId errorType) with ⟨r1, s1⟩
    rw [hi] at hcount hexpire
    simp only at hcount hexpire
    subst hcount
    simp only
    rcases he : s1.expire (counterKey accountId errorType) windowSeconds with ⟨r2, s2⟩
    rw [he] at hexpire
    simp only at hexpire
    subst hexpire
    rfl

/-- C26: when the round trip of the increment fails (fault plan `0 :: rest`), or the
increment succeeds and the round trip of the expire fails (fault plan `1 :: rest`),
`incrementErrorCounter` returns 0 (its result type has no error case), so
`shouldMarkAccountUnavailable` for a 429, a 529 or an upstream 401 returns a
decision with `errorCount` 0, and with `shouldMarkUnavailable` false whenever the
threshold is at least 1. -/
theorem shouldMarkAccountUnavailable_store_failure (toLowerCase : String → String)
    (config : Config) (s : Store) (rest : List Nat) (accountId : String) (statusCode : Int)
    (errorData : JSValue)
    (hon : config.consoleOption (fun c => c.intelligentErrorHandling) = some true)
    (hfail : s.faults = 0 :: rest ∨ s.faults = 1 :: rest)
    (hstatus : statusCode = 429 ∨ statusCode = 529 ∨
      (statusCode = 401 ∧ isConsoleAuthError toLowerCase 401 errorData = Except.ok false)) :
    (s.faults = 0 :: rest → ∀ key : String,
      (s.incr key).1 = Except.error StoreError.unavailable) ∧
    (s.faults = 1 :: rest → ∀ (key : String) (seconds : Int),
      (∃ count : Int, (s.incr key).1 = Except.ok count) ∧
      ((s.incr key).2.expire key seconds).1 = Except.error StoreError.unavailable) ∧
    (∀ (errorType : String) (windowSeconds : Int),
      (incrementErrorCounter s accountId errorType windowSeconds).1 = 0) ∧
    ∃ (d : Decision) (after : Store),
      shouldMarkAccountUnavailable toLowerCase config s accountId statusCode errorData =
        (Except.ok d, after) ∧
      d.errorCount = 0 ∧
      (1 ≤ d.threshold → d.shouldMarkUnavailable = false) := by
  refine ⟨fun h key => by rw [incr_of_faults_zero s rest key h],
    fun h key seconds => incr_expire_of_faults_one s rest key seconds h,
    fun errorType windowSeconds =>
      incrementErrorCounter_of_store_failure s rest accountId errorType windowSeconds hfail, ?_⟩
  rcases hstatus with h | h | ⟨h, hbody⟩
  · subst h
    have hzero := incrementErrorCounter_of_store_failure s rest accountId "429"
      (orElse (config.consoleOption (fun c => c.error429Window)) 300) hfail
    refine ⟨_, _, by simp only [shouldMarkAccountUnavailable, hon]; rfl, hzero, fun hthr => ?_⟩
    simp only at hthr
    simp only [hzero, ge_iff_le, decide_eq_false_iff_not, not_le]
    omega
  · subst h
    have hzero := incrementErrorCounter_of_store_failure s rest accountId "529"
      (orElse (config.consoleOption (fun c => c.error529Window)) 180) hfail
    refine ⟨_, _, by simp only [shouldMarkAccountUnavailable, hon]; rfl, hzero, fun hthr => ?_⟩
    simp only at hthr
    simp only [hzero, ge_iff_le, decide_eq_false_iff_not, not_le]
    omega
  · subst h
    have hzero := incrementErrorCounter_of_store_failure s rest accountId "401"
      (orElse (config.consoleOption (fun c => c.error401Window)) 300) hfail
    refine ⟨_, _, by simp only [shouldMarkAccountUnavailable, hon, hbody]; rfl, hzero,
      fun hthr => ?_⟩
    simp only at hthr
    simp only [hzero, ge_iff_le, decide_eq_false_iff_not, not_le]
    omega

/-- Witness of C26: a 429 on a store whose expire round trip fails, with the default
threshold 5. -/
theorem shouldMarkAccountUnavailable_store_failure_witness :
    ∃ (d : Decision) (after : Store),
      shouldMarkAccountUnavailable asciiLowerCase (Config.enabled none none none none none none)
        { Store.empty with faults := [1] } "acct-1" 429 (JSValue.str "rate limited") =
        (Except.ok d, after) ∧
      d.errorCount = 0 ∧
      (1 ≤ d.threshold → d.shouldMarkUnavailable = false) :=
  (shouldMarkAccountUnavailable_store_failure asciiLowerCase
    (Config.enabled none none none none none none) { Store.empty with faults := [1] } []
    "acct-1" 429 (JSValue.str "rate limited") rfl (Or.inr rfl) (Or.inl rfl)).2.2.2

/-! ### Counters do not touch each other -/

theorem counterKey_injective (a b t u : String) (hlength : t.length = u.length)
    (h : counterKey a t = counterKey b u) : a = b ∧ t = u := by
  have hdata := congrArg String.data h
  simp only [counterKey, String.data_append, List.append_assoc, List.append_cancel_left_eq]
    at hdata
  rw [← List.append_assoc, ← List.append_assoc] at hdata
  obtain ⟨h1, h2⟩ := List.append_inj' hdata hlength
  exact ⟨String.ext (List.append_cancel_right h1), String.ext h2⟩

theorem trackedType_length (t : String) (ht : t ∈ ["401", "429", "529"]) : t.length = 3 := by
  simp only [List.mem_cons, List.mem_singleton, List.not_mem_nil, or_false] at ht
  rcases ht with h | h | h <;> subst h <;> rfl

theorem count_congr (s after : Store) (key : String) (hdata : after.data key = s.data key)
    (hnow : after.now = s.now) : after.count key = s.count key := by
  simp only [Store.count, Store.lookup, hdata, hnow]

theorem incr_frame (s : Store) (key other : String) (h : other ≠ key) :
    (s.incr key).2.data other = s.data other ∧ (s.incr key).2.now = s.now := by
  obtain ⟨hd, hn⟩ := roundTrip_data s
  unfold Store.incr
  cases hfail : s.roundTrip.1 with
  | true =>
    simp only [hfail, if_true]
    exact ⟨congrFun hd other, hn⟩
  | false =>
    simp only [hfail, Bool.false_eq_true, if_false, Function.update_noteq h]
    exact ⟨congrFun hd other, hn⟩

theorem expire_frame (s : Store) (key other : String) (seconds : Int) (h : other ≠ key) :
    (s.expire key seconds).2.data other = s.data other ∧ (s.expire key seconds).2.now = s.now := by
  obtain ⟨hd, hn⟩ := roundTrip_data s
  unfold Store.expire
  cases hfail : s.roundTrip.1 with
  | true =>
    simp only [hfail, if_true]
    exact ⟨congrFun hd other, hn⟩
  | false =>
    simp only [hfail, Bool.false_eq_true, if_false]
    cases hl : s.roundTrip.2.lookup key with
    | none =>
      simp only [hl]
      exact ⟨congrFun hd other, hn⟩
    | some e =>
      simp only [hl, Function.update_noteq h]
      exact ⟨congrFun hd other, hn⟩

theorem del_frame (s : Store) (key other : String) (h : other ≠ key) :
    (s.del key).2.data other = s.data other ∧ (s.del key).2.now = s.now := by
  obtain ⟨hd, hn⟩ := roundTrip_data s
  unfold Store.del
  cases hfail : s.roundTrip.1 with
  | true =>
    simp only [hfail, if_true]
    exact ⟨congrFun hd other, hn⟩
  | false =>
    simp only [hfail, Bool.false_eq_true, if_false, Function.update_noteq h]
    exact ⟨congrFun hd other, hn⟩

theorem incrementErrorCounter_frame (s : Store) (accountId errorType : String)
    (windowSeconds : Int) (other : String) (h : other ≠ counterKey accountId errorType) :
    (incrementErrorCounter s accountId errorType windowSeconds).2.data other = s.data other ∧
    (incrementErrorCounter s accountId errorType windowSeconds).2.now = s.now := by
  have h1 := incr_frame s (counterKey accountId errorType) other h
  unfold incrementErrorCounter
  simp only
  rcases hi : s.incr (counterKey accountId errorType) with ⟨r1, s1⟩
  rw [hi] at h1
  cases r1 with
  | error e => exact h1
  | ok count =>
    have h2 := expire_frame s1 (counterKey accountId errorType) other windowSeconds h
    simp only
    rcases he : s1.expire (counterKey accountId errorType) windowSeconds with ⟨r2, s2⟩
    rw [he] at h2
    simp only at h1 h2
    cases r2 <;> exact ⟨h2.1.trans h1.1, h2.2.trans h1.2⟩

theorem clearErrorCountersLoop_frame (accountId other : String) :
    ∀ (types : List String) (s : Store),
      (∀ type ∈ types, other ≠ counterKey accountId type) →
      (clearErrorCountersLoop s accountId types).2.data other = s.data other ∧
      (clearErrorCountersLoop s accountId types).2.now = s.now := by
  intro types
  induction types with
  | nil => intro s _; exact ⟨rfl, rfl⟩
  | cons type rest ih =>
    intro s hne
    have h1 := del_frame s (counterKey accountId type) other (hne type (List.mem_cons_self _ _))
    unfold clearErrorCountersLoop
    rcases hd : s.del (counterKey accountId type) with ⟨r1, s1⟩
    rw [hd] at h1
    simp only at h1
    cases r1 with
    | error e => exact h1
    | ok u =>
      have h2 := ih s1 (fun t ht => hne t (List.mem_cons_of_mem _ ht))
      exact ⟨h2.1.trans h1.1, h2.2.trans h1.2⟩

theorem clearErrorCounters_frame (s : Store) (accountId other : String)
    (hne : ∀ type ∈ ["401", "429", "529"], other ≠ counterKey accountId type) :
    (clearErrorCounters s accountId).data other = s.data other ∧
    (clearErrorCounters s accountId).now = s.now := by
  have h := clearErrorCountersLoop_frame accountId other ["401", "429", "529"] s hne
  unfold clearErrorCounters
  simp only
  rcases hl : clearErrorCountersLoop s accountId ["401", "429", "529"] with ⟨r, s1⟩
  rw [hl] at h
  cases r <;> exact h

theorem shouldMarkAccountUnavailable_frame (toLowerCase : String → String) (config : Config)
    (s : Store) (accountId : String) (statusCode : Int) (errorData : JSValue) (other : String)
    (hne : statusCode = 401 ∨ statusCode = 429 ∨ statusCode = 529 →
      other ≠ counterKey accountId (toString statusCode)) :
    (shouldMarkAccountUnavailable toLowerCase config s accountId statusCode errorData).2.data
      other = s.data other ∧
    (shouldMarkAccountUnavailable toLowerCase config s accountId statusCode errorData).2.now =
      s.now := by
  unfold shouldMarkAccountUnavailable
  split_ifs with hoff h401 h429 h529
  · exact ⟨rfl, rfl⟩
  · subst h401
    cases isConsoleAuthError toLowerCase 401 errorData with
    | error e => exact ⟨rfl, rfl⟩
    | ok isConsoleAuth =>
      cases isConsoleAuth with
      | true => exact ⟨rfl, rfl⟩
      | false => exact incrementErrorCounter_frame s accountId "401" _ other (hne (Or.inl rfl))
  · subst h429
    exact incrementErrorCounter_frame s accountId "429" _ other (hne (Or.inr (Or.inl rfl)))
  · subst h529
    exact incrementErrorCounter_frame s accountId "529" _ other (hne (Or.inr (Or.inr rfl)))
  · exact ⟨rfl, rfl⟩

theorem shouldMarkAccountUnavailable_working (toLowerCase : String → String) (config : Config)
    (s : Store) (accountId : String) (statusCode : Int) (errorData : JSValue)
    (hs : s.faults = []) :
    (shouldMarkAccountUnavailable toLowerCase config s accountId statusCode errorData).2.faults =
      [] := by
  unfold shouldMarkAccountUnavailable
  split_ifs with hoff h401 h429 h529
  · exact hs
  · cases isConsoleAuthError toLowerCase statusCode errorData with
    | error e => exact hs
    | ok isConsoleAuth =>
      cases isConsoleAuth with
      | true => exact hs
      | false =>
        simp only [Bool.false_eq_true, if_false]
        rw [incrementErrorCounter_working s accountId "401" _ hs]
  · simp only
    rw [incrementErrorCounter_working s accountId "429" _ hs]
  · simp only
    rw [incrementErrorCounter_working s accountId "529" _ hs]
  · exact hs

theorem count_after_increment_faults (s : Store) (accountId errorType : String)
    (windowSeconds : Int) (hs : s.faults = []) :
    (incrementErrorCounter s accountId errorType windowSeconds).2.faults = [] := by
  rw [incrementErrorCounter_working s accountId errorType windowSeconds hs]

theorem clearErrorCounters_working (s : Store) (accountId : String) (hs : s.faults = []) :
    (clearErrorCounters s accountId).faults = [] := by
  obtain ⟨after, hrun, hf, -, -, -⟩ :=
    clearErrorCountersLoop_working accountId ["401", "429", "529"] s hs
  simp [clearErrorCounters, hrun, hf]

theorem counterKey_ne_of_tracked (a b t u : String) (ht : t ∈ ["401", "429", "529"])
    (hu : u ∈ ["401", "429", "529"]) (hne : a ≠ b ∨ t ≠ u) :
    counterKey b u ≠ counterKey a t := by
  intro hkey
  obtain ⟨hab, htu⟩ := counterKey_injective b a u t
    (by rw [trackedType_length u hu, trackedType_length t ht]) hkey
  rcases hne with h | h
  · exact h hab.symm
  · exact h htu.symm

/-- C25: for account ids `a`, `b` (any strings) and error types `t`, `u` among `401`,
`429`, `529` with `(a, t)` different from `(b, u)`, the store keys differ; so
`incrementErrorCounter(a, t, w)`, `clearErrorCounters(a)` (for `b` other than `a`)
and `shouldMarkAccountUnavailable(a, status, body)` (for `b` other than `a`, or
`u` other than the status) leave the stored counter of `(b, u)` as it was, whatever
round trips fail, and on a working store `getErrorCount(b, u)` returns the same
before and after. -/
theorem counters_isolated (toLowerCase : String → String) (config : Config) (s : Store)
    (a b t u : String) (statusCode : Int) (errorData : JSValue) (windowSeconds : Int)
    (ht : t ∈ ["401", "429", "529"]) (hu : u ∈ ["401", "429", "529"])
    (hne : a ≠ b ∨ t ≠ u) :
    counterKey a t ≠ counterKey b u ∧
    (incrementErrorCounter s a t windowSeconds).2.count (counterKey b u) =
      s.count (counterKey b u) ∧
    (a ≠ b → (clearErrorCounters s a).count (counterKey b u) = s.count (counterKey b u)) ∧
    (a ≠ b ∨ toString statusCode ≠ u →
      (shouldMarkAccountUnavailable toLowerCase config s a statusCode errorData).2.count
        (counterKey b u) = s.count (counterKey b u)) ∧
    (s.faults = [] →
      (getErrorCount (incrementErrorCounter s a t windowSeconds).2 b u).1 =
        (getErrorCount s b u).1 ∧
      (a ≠ b → (getErrorCount (clearErrorCounters s a) b u).1 = (getErrorCount s b u).1) ∧
      (a ≠ b ∨ toString statusCode ≠ u →
        (getErrorCount
          (shouldMarkAccountUnavailable toLowerCase config s a statusCode errorData).2 b u).1 =
          (getErrorCount s b u).1)) := by
  have hkey := counterKey_ne_of_tracked a b t u ht hu hne
  have hinc : (incrementErrorCounter s a t windowSeconds).2.count (counterKey b u) =
      s.count (counterKey b u) := by
    obtain ⟨hd, hn⟩ := incrementErrorCounter_frame s a t windowSeconds _ hkey
    exact count_congr _ _ _ hd hn
  have hclear : a ≠ b → (clearErrorCounters s a).count (counterKey b u) =
      s.count (counterKey b u) := by
    intro hab
    obtain ⟨hd, hn⟩ := clearErrorCounters_frame s a (counterKey b u)
      (fun type htype => counterKey_ne_of_tracked a b type u htype hu (Or.inl hab))
    exact count_congr _ _ _ hd hn
  have hmark : a ≠ b ∨ toString statusCode ≠ u →
      (shouldMarkAccountUnavailable toLowerCase config s a statusCode errorData).2.count
        (counterKey b u) = s.count (counterKey b u) := by
    intro hother
    obtain ⟨hd, hn⟩ := shouldMarkAccountUnavailable_frame toLowerCase config s a statusCode
      errorData (counterKey b u) (by
        intro hstatus
        apply counterKey_ne_of_tracked a b (toString statusCode) u _ hu hother
        rcases hstatus with h | h | h <;> subst h <;> decide)
    exact count_congr _ _ _ hd hn
  refine ⟨fun h => hkey h.symm, hinc, hclear, hmark, fun hs => ⟨?_, fun hab => ?_, fun hother => ?_⟩⟩
  · rw [getErrorCount_working _ b u (count_after_increment_faults s a t windowSeconds hs),
      getErrorCount_working s b u hs]
    exact hinc
  · rw [getErrorCount_working _ b u (clearErrorCounters_working s a hs),
      getErrorCount_working s b u hs]
    exact hclear hab
  · rw [getErrorCount_working _ b u
        (shouldMarkAccountUnavailable_working toLowerCase config s a statusCode errorData hs),
      getErrorCount_working s b u hs]
    exact hmark hother

/-- Witness of C25: the account ids `pool:error:401` and `pool`; a 429 counted for the
first leaves the 401 counter of the second, which holds 1, as it was. -/
theorem counters_isolated_witness :
    counterKey "pool:error:401" "429" ≠ counterKey "pool" "401" ∧
    (incrementErrorCounter (incrementSequence Store.empty "pool" "401" 300 []).2
      "pool:error:401" "429" 300).2.count (counterKey "pool" "401") =
      (incrementSequence Store.empty "pool" "401" 300 []).2.count (counterKey "pool" "401") :=
  ⟨(counters_isolated asciiLowerCase (Config.enabled none none none none none none)
      (incrementSequence Store.empty "pool" "401" 300 []).2 "pool:error:401" "pool" "429" "401"
      429 (JSValue.str "rate limited") 300 (by decide) (by decide) (Or.inl (by decide))).1,
    (counters_isolated asciiLowerCase (Config.enabled none none none none none none)
      (incrementSequence Store.empty "pool" "401" 300 []).2 "pool:error:401" "pool" "429" "401"
      429 (JSValue.str "rate limited") 300 (by decide) (by decide) (Or.inl (by decide))).2.1⟩

/-! ### The console retry loop -/

theorem consoleRequests_append {ρ : Type} (a b : List (ConsoleEvent ρ)) :
    consoleRequests (a ++ b) = consoleRequests a ++ consoleRequests b := by
  induction a with
  | nil => rfl
  | cons e rest ih => cases e <;> simp [consoleRequests, ih]

theorem consoleSleeps_append {ρ : Type} (a b : List (ConsoleEvent ρ)) :
    consoleSleeps (a ++ b) = consoleSleeps a ++ consoleSleeps b := by
  induction a with
  | nil => rfl
  | cons e rest ih => cases e <;> simp [consoleSleeps, ih]

theorem console_after_log {σ ρ : Type} (events : List (ConsoleEvent ρ)) (run : ConsoleRun σ ρ) :
    (run.after events).log = events ++ run.log := rfl

theorem console_after_result {σ ρ : Type} (events : List (ConsoleEvent ρ))
    (run : ConsoleRun σ ρ) : (run.after events).result = run.result := rfl

theorem consoleCatchBlock_not_retryable (maxRetries : Int) (attempt : Nat) (error : JSError)
    (h : shouldRetryError error (consoleStatusCodeOf error) = false) :
    consoleCatchBlock maxRetries attempt error = none := by
  simp [consoleCatchBlock, h]

theorem consoleCatchBlock_retryable (maxRetries : Int) (attempt : Nat) (error : JSError)
    (h : shouldRetryError error (consoleStatusCodeOf error) = true) :
    consoleCatchBlock maxRetries attempt error =
      if (attempt : Int) ≥ maxRetries then none else some 200 := by
  simp [consoleCatchBlock, h]

/-- The three ways one iteration of the console loop can go: the request succeeds;
it fails and the error is thrown again; it fails and is retried after a sleep. -/
theorem executeConsoleRequestWithRetryLoop_succ {σ ρ : Type} (options : ConsoleRetryOptions σ ρ)
    (remaining attempt : Nat) (lastError : Option JSError) (world : σ) :
    (∃ (result : ρ) (world1 : σ),
      options.requestFunc world = (.ok result, world1) ∧
      executeConsoleRequestWithRetryLoop options (remaining + 1) attempt lastError world =
        { result := .ok result, log := [.request (.ok result)], world := world1 }) ∨
    (∃ (error : JSError) (world1 : σ),
      options.requestFunc world = (.error error, world1) ∧
      consoleCatchBlock options.maxRetries attempt error = none ∧
      executeConsoleRequestWithRetryLoop options (remaining + 1) attempt lastError world =
        { result := .error (some error), log := [.request (.error error)], world := world1 }) ∨
    (∃ (error : JSError) (world1 : σ) (delayMs : Nat),
      options.requestFunc world = (.error error, world1) ∧
      consoleCatchBlock options.maxRetries attempt error = some delayMs ∧
      executeConsoleRequestWithRetryLoop options (remaining + 1) attempt lastError world =
        (executeConsoleRequestWithRetryLoop options remaining (attempt + 1) (some error)
          world1).after [.request (.error error), .sleep delayMs]) := by
  rcases hreq : options.requestFunc world with ⟨outcome, world1⟩
  cases outcome with
  | ok result =>
    refine Or.inl ⟨result, world1, rfl, ?_⟩
    simp only [executeConsoleRequestWithRetryLoop, hreq]
  | error error =>
    cases hcatch : consoleCatchBlock options.maxRetries attempt error with
    | none =>
      refine Or.inr (Or.inl ⟨error, world1, rfl, hcatch, ?_⟩)
      simp only [executeConsoleRequestWithRetryLoop, hreq, hcatch]
    | some delayMs =>
      refine Or.inr (Or.inr ⟨error, world1, delayMs, rfl, hcatch, ?_⟩)
      simp only [executeConsoleRequestWithRetryLoop, hreq, hcatch]

theorem executeConsoleRequestWithRetryLoop_calls_le {σ ρ : Type}
    (options : ConsoleRetryOptions σ ρ) :
    ∀ (remaining attempt : Nat) (lastError : Option JSError) (world : σ),
      (consoleRequests (executeConsoleRequestWithRetryLoop options remaining attempt lastError
        world).log).length ≤ remaining := by
  intro remaining
  induction remaining with
  | zero =>
    intro attempt lastError world
    simp [executeConsoleRequestWithRetryLoop, consoleRequests]
  | succ n ih =>
    intro attempt lastError world
    rcases executeConsoleRequestWithRetryLoop_succ options n attempt lastError world with
      ⟨r, w1, _, h⟩ | ⟨e, w1, _, _, h⟩ | ⟨e, w1, d, _, _, h⟩
    · rw [h]; simp [consoleRequests]
    · rw [h]; simp [consoleRequests]
    · have := ih (attempt + 1) (some e) w1
      rw [h, console_after_log, consoleRequests_append, List.length_append]
      simp only [consoleRequests, List.length_cons, List.length_nil]
      omega

theorem executeConsoleRequestWithRetryLoop_terminal {σ ρ : Type}
    (options : ConsoleRetryOptions σ ρ) :
    ∀ (remaining attempt : Nat) (lastError : Option JSError) (world : σ)
      (before after : List (ConsoleEvent ρ)) (x : ConsoleEvent ρ),
      (executeConsoleRequestWithRetryLoop options remaining attempt lastError world).log =
        before ++ x :: after →
      (∀ result : ρ, x = ConsoleEvent.request (Except.ok result) →
        after = [] ∧
        (executeConsoleRequestWithRetryLoop options remaining attempt lastError
          world).result = Except.ok result) ∧
      (∀ error : JSError, x = ConsoleEvent.request (Except.error error) →
        shouldRetryError error (consoleStatusCodeOf error) = false →
        after = [] ∧
        (executeConsoleRequestWithRetryLoop options remaining attempt lastError
          world).result = Except.error (some error)) := by
  intro remaining
  induction remaining with
  | zero =>
    intro attempt lastError world before after x hlog
    simp [executeConsoleRequestWithRetryLoop] at hlog
  | succ n ih =>
    intro attempt lastError world before after x hlog
    rcases executeConsoleRequestWithRetryLoop_succ options n attempt lastError world with
      ⟨r, w1, _, h⟩ | ⟨e, w1, _, _, h⟩ | ⟨e, w1, d, _, hc, h⟩
    · rw [h] at hlog ⊢
      simp only at hlog
      rcases before with _ | ⟨b, before⟩
      · simp only [List.nil_append, List.cons.injEq] at hlog
        obtain ⟨hx, hafter⟩ := hlog
        refine ⟨fun result hreq => ?_, fun error hreq _ => ?_⟩
        · rw [hreq] at hx
          cases hx
          exact ⟨hafter.symm, rfl⟩
        · rw [hreq] at hx; cases hx
      · simp at hlog
    · rw [h] at hlog ⊢
      simp only at hlog
      rcases before with _ | ⟨b, before⟩
      · simp only [List.nil_append, List.cons.injEq] at hlog
        obtain ⟨hx, hafter⟩ := hlog
        refine ⟨fun result hreq => ?_, fun error hreq _ => ?_⟩
        · rw [hreq] at hx; cases hx
        · rw [hreq] at hx
          cases hx
          exact ⟨hafter.symm, rfl⟩
      · simp at hlog
    · rw [h] at hlog ⊢
      rw [console_after_log] at hlog
      rw [console_after_result]
      rcases mem_or_split_of_append _ _ _ _ _ hlog with hmem | ⟨before2, hsplit⟩
      · refine ⟨fun result hreq => ?_, fun error hreq hnot => ?_⟩
        · rw [hreq] at hmem; simp at hmem
        · rw [hreq] at hmem
          simp only [List.mem_cons, ConsoleEvent.request.injEq, Except.error.injEq,
            List.mem_singleton, List.not_mem_nil, or_false] at hmem
          rcases hmem with herr | hmem
          · subst herr
            rw [consoleCatchBlock_not_retryable _ _ _ hnot] at hc
            cases hc
          · cases hmem
      · exact ih _ _ _ before2 after x hsplit

theorem executeConsoleRequestWithRetryLoop_all_fail {σ ρ : Type}
    (options : ConsoleRetryOptions σ ρ)
    (hrequest : ∀ w : σ, ∃ (e : JSError) (w2 : σ),
      options.requestFunc w = (Except.error e, w2) ∧
      shouldRetryError e (consoleStatusCodeOf e) = true) :
    ∀ (n attempt : Nat) (lastError : Option JSError) (world : σ),
      ((attempt + n : Nat) : Int) = options.maxRetries →
      (consoleRequests (executeConsoleRequestWithRetryLoop options (n + 1) attempt lastError
        world).log).length = n + 1 ∧
      consoleSleeps (executeConsoleRequestWithRetryLoop options (n + 1) attempt lastError
        world).log = List.replicate n 200 ∧
      ∃ e : JSError,
        (executeConsoleRequestWithRetryLoop options (n + 1) attempt lastError
          world).log.getLast? = some (ConsoleEvent.request (Except.error e)) ∧
        (executeConsoleRequestWithRetryLoop options (n + 1) attempt lastError
          world).result = Except.error (some e) := by
  intro n
  induction n with
  | zero =>
    intro attempt lastError world hmax
    rcases executeConsoleRequestWithRetryLoop_succ options 0 attempt lastError world with
      ⟨r, w1, hr, h⟩ | ⟨e, w1, hr, hc, h⟩ | ⟨e, w1, d, hr, hc, h⟩
    · obtain ⟨e, w, hw, _⟩ := hrequest world
      rw [hw] at hr; cases hr
    · rw [h]
      exact ⟨by simp [consoleRequests], by simp [consoleSleeps], e, rfl, rfl⟩
    · obtain ⟨e2, w, hw, hretry⟩ := hrequest world
      rw [hw] at hr
      cases hr
      rw [consoleCatchBlock_retryable _ _ _ hretry] at hc
      have : (attempt : Int) ≥ options.maxRetries := by
        simp only [add_zero] at hmax
        omega
      simp [this] at hc
  | succ m ih =>
    intro attempt lastError world hmax
    rcases executeConsoleRequestWithRetryLoop_succ options (m + 1) attempt lastError world with
      ⟨r, w1, hr, h⟩ | ⟨e, w1, hr, hc, h⟩ | ⟨e, w1, d, hr, hc, h⟩
    · obtain ⟨e, w, hw, _⟩ := hrequest world
      rw [hw] at hr; cases hr
    · obtain ⟨e2, w, hw, hretry⟩ := hrequest world
      rw [hw] at hr
      cases hr
      rw [consoleCatchBlock_retryable _ _ _ hretry] at hc
      have : ¬ (attempt : Int) ≥ options.maxRetries := by
        push_cast at hmax
        omega
      simp [this] at hc
    · obtain ⟨e2, w, hw, hretry⟩ := hrequest world
      rw [hw] at hr
      cases hr
      rw [consoleCatchBlock_retryable _ _ _ hretry] at hc
      have hnot : ¬ (attempt : Int) ≥ options.maxRetries := by
        push_cast at hmax
        omega
      rw [if_neg hnot] at hc
      cases hc
      obtain ⟨hlen, hsleep, e3, hlast, hres⟩ := ih (attempt + 1) (some e) w1
        (by push_cast at hmax ⊢; omega)
      rw [h]
      refine ⟨?_, ?_, e3, ?_, ?_⟩
      · rw [console_after_log, consoleRequests_append, List.length_append, hlen]
        simp [consoleRequests]
        omega
      · rw [console_after_log, consoleSleeps_append, hsleep]
        simp [consoleSleeps, List.replicate_succ]
      · rw [console_after_log, List.getLast?_append, hlast]
        rfl
      · rw [console_after_result, hres]

/-- C21: for `maxRetries >= 0`, `executeConsoleRequestWithRetry` calls `requestFunc` at
most `maxRetries + 1` times; a successful call ends the run and its result is
returned; a failure whose status is not retryable ends the run and is raised; and
if every call fails with a retryable status there are exactly `maxRetries + 1`
calls and `maxRetries` sleeps of 200 ms, the last event is the last failing call
(no sleep after it), and its error is raised. -/
theorem executeConsoleRequestWithRetry_spec {σ ρ : Type} (options : ConsoleRetryOptions σ ρ)
    (world : σ) (hmax : 0 ≤ options.maxRetries) :
    ((consoleRequests (executeConsoleRequestWithRetry options world).log).length : Int) ≤
      options.maxRetries + 1 ∧
    (∀ (before after : List (ConsoleEvent ρ)) (result : ρ),
      (executeConsoleRequestWithRetry options world).log =
        before ++ ConsoleEvent.request (Except.ok result) :: after →
      after = [] ∧ (executeConsoleRequestWithRetry options world).result = Except.ok result) ∧
    (∀ (before after : List (ConsoleEvent ρ)) (error : JSError),
      (executeConsoleRequestWithRetry options world).log =
        before ++ ConsoleEvent.request (Except.error error) :: after →
      shouldRetryError error (consoleStatusCodeOf error) = false →
      after = [] ∧
      (executeConsoleRequestWithRetry options world).result = Except.error (some error)) ∧
    ((∀ w : σ, ∃ (e : JSError) (w2 : σ),
        options.requestFunc w = (Except.error e, w2) ∧
        shouldRetryError e (consoleStatusCodeOf e) = true) →
      ((consoleRequests (executeConsoleRequestWithRetry options world).log).length : Int) =
        options.maxRetries + 1 ∧
      consoleSleeps (executeConsoleRequestWithRetry options world).log =
        List.replicate options.maxRetries.toNat 200 ∧
      ∃ e : JSError,
        (executeConsoleRequestWithRetry options world).log.getLast? =
          some (ConsoleEvent.request (Except.error e)) ∧
        (executeConsoleRequestWithRetry options world).result = Except.error (some e)) := by
  have hnat : ((options.maxRetries + 1).toNat : Int) = options.maxRetries + 1 :=
    Int.toNat_of_nonneg (by omega)
  have hrun : executeConsoleRequestWithRetry options world =
      executeConsoleRequestWithRetryLoop options (options.maxRetries.toNat + 1) 0 none world := by
    unfold executeConsoleRequestWithRetry
    rw [toNat_maxRetries_succ _ hmax]
  refine ⟨?_, fun before after result hlog => ?_, fun before after error hlog hnot => ?_,
    fun hfail => ?_⟩
  · have h := executeConsoleRequestWithRetryLoop_calls_le options
      (options.maxRetries + 1).toNat 0 none world
    unfold executeConsoleRequestWithRetry
    omega
  · exact (executeConsoleRequestWithRetryLoop_terminal options (options.maxRetries + 1).toNat 0
      none world before after _ hlog).1 result rfl
  · exact (executeConsoleRequestWithRetryLoop_terminal options (options.maxRetries + 1).toNat 0
      none world before after _ hlog).2 error rfl hnot
  · obtain ⟨hlen, hsleep, e, hlast, hres⟩ := executeConsoleRequestWithRetryLoop_all_fail options
      hfail options.maxRetries.toNat 0 none world (by
        rw [Nat.zero_add]
        exact Int.toNat_of_nonneg hmax)
    rw [hrun]
    refine ⟨?_, hsleep, e, hlast, hres⟩
    rw [hlen]
    push_cast
    rw [Int.toNat_of_nonneg hmax]

/-- Witness of C21: `maxRetries = 2` and a request that fails with 503 on every call:
three calls and two sleeps of 200 ms. -/
theorem executeConsoleRequestWithRetry_spec_witness :
    ((consoleRequests (executeConsoleRequestWithRetry
        (scriptedConsoleOptions
          (fun _ => (Except.error (JSError.withStatus "unavailable" 503) : Except JSError String))
          2) 0).log).length : Int) = 2 + 1 ∧
    consoleSleeps (executeConsoleRequestWithRetry
        (scriptedConsoleOptions
          (fun _ => (Except.error (JSError.withStatus "unavailable" 503) : Except JSError String))
          2) 0).log = [200, 200] ∧
    ∃ e : JSError,
      (executeConsoleRequestWithRetry
        (scriptedConsoleOptions
          (fun _ => (Except.error (JSError.withStatus "unavailable" 503) : Except JSError String))
          2) 0).log.getLast? = some (ConsoleEvent.request (Except.error e)) ∧
      (executeConsoleRequestWithRetry
        (scriptedConsoleOptions
          (fun _ => (Except.error (JSError.withStatus "unavailable" 503) : Except JSError String))
          2) 0).result = Except.error (some e) :=
  (executeConsoleRequestWithRetry_spec
    (scriptedConsoleOptions
      (fun _ => (Except.error (JSError.withStatus "unavailable" 503) : Except JSError String)) 2)
    0 (by decide)).2.2.2
    (fun w => ⟨JSError.withStatus "unavailable" 503, w + 1, rfl, rfl⟩)

/-- C22, the code at the failing input: a request that fails with status 401 and the
message `Invalid API key`, which `isConsoleAuthError` recognises as a failure of
the caller's own key. `executeConsoleRequestWithRetry` with `maxRetries = 1` sleeps
200 ms and calls `requestFunc` a second time, and `executeWithRetry` with
`maxRetries = 2` goes on to the accounts `acct-1` and `acct-2`. -/
theorem own_credential_401_is_retried :
    isConsoleAuthError asciiLowerCase 401
      (JSValue.str (JSError.withStatus "Invalid API key" 401).message) = Except.ok true ∧
    (executeConsoleRequestWithRetry
      (scriptedConsoleOptions
        (fun _ => (Except.error (JSError.withStatus "Invalid API key" 401) :
          Except JSError String)) 1) 0).log =
      [ConsoleEvent.request (Except.error (JSError.withStatus "Invalid API key" 401)),
        ConsoleEvent.sleep 200,
        ConsoleEvent.request (Except.error (JSError.withStatus "Invalid API key" 401))] ∧
    requestedAccounts (executeWithRetry
      (optionsDistinct (fun _ => Except.error (JSError.withStatus "Invalid API key" 401)) 2)
      ScriptWorld.start).log = ["acct-0", "acct-1", "acct-2"] :=
  ⟨rfl, rfl, rfl⟩

/-! ### The same account on every selection -/

theorem skippedAttempts_projections {ρ : Type} (sessionHash : Option String)
    (clearSessionOnRetry : Bool) (selection : AccountSelection) :
    ∀ (count attempt : Nat),
      (selectTokens (skippedAttempts sessionHash clearSessionOnRetry selection attempt count :
        List (Event ρ))).length = count ∧
      requestedAccounts (skippedAttempts sessionHash clearSessionOnRetry selection attempt count :
        List (Event ρ)) = [] ∧
      sleepDelays (skippedAttempts sessionHash clearSessionOnRetry selection attempt count :
        List (Event ρ)) = [] := by
  intro count
  induction count with
  | zero => intro attempt; exact ⟨rfl, rfl, rfl⟩
  | succ n ih =>
    intro attempt
    obtain ⟨h1, h2, h3⟩ := ih (attempt + 1)
    simp only [skippedAttempts, selectTokens, requestedAccounts, sleepDelays, List.length_cons,
      h1, h2, h3, and_self]

theorem executeWithRetryLoop_skips {σ ρ κ μ : Type} (options : RetryOptions σ ρ κ μ)
    (selection : AccountSelection)
    (hselect : ∀ (w : σ) (sessionHash : Option String), ∃ w1 : σ,
      options.selectAccountFunc w options.apiKeyData sessionHash options.requestBody.model =
        (Except.ok selection, w1)) :
    ∀ (remaining attempt : Nat) (lastError : Option JSError) (attemptedAccounts : List String)
      (world : σ),
      selection.accountId ∈ attemptedAccounts →
      (executeWithRetryLoop options remaining attempt lastError attemptedAccounts world).log =
        skippedAttempts options.sessionHash options.clearSessionOnRetry selection attempt
          remaining ∧
      (executeWithRetryLoop options remaining attempt lastError attemptedAccounts
        world).result =
        Except.error (lastError.getD (JSError.new "Retry failed with unknown error")) := by
  intro remaining
  induction remaining with
  | zero =>
    intro attempt lastError attemptedAccounts world _
    exact ⟨rfl, rfl⟩
  | succ n ih =>
    intro attempt lastError attemptedAccounts world hmem
    obtain ⟨w1, hw1⟩ := hselect world
      (effectiveSessionHash options.sessionHash options.clearSessionOnRetry attempt)
    obtain ⟨hlog, hres⟩ := ih (attempt + 1) lastError attemptedAccounts w1 hmem
    rw [executeWithRetryLoop]
    simp only [hw1, hmem, if_true, after_log, after_result, hlog, hres, skippedAttempts,
      List.singleton_append, and_self]

/-- C23: when the selector returns the same account on every call and `requestFunc`
fails with a retryable status, then for `maxRetries >= 1` the call consists of the
first selection, the one request, a sleep of 100 ms, and `maxRetries` further
selections that are skipped without a request or a sleep: `maxRetries + 1`
selector calls, one request, one sleep, and the error of that request is raised. -/
theorem executeWithRetry_same_account {σ ρ κ μ : Type} (options : RetryOptions σ ρ κ μ)
    (world : σ) (selection : AccountSelection) (hmax : 1 ≤ options.maxRetries)
    (hselect : ∀ (w : σ) (sessionHash : Option String), ∃ w1 : σ,
      options.selectAccountFunc w options.apiKeyData sessionHash options.requestBody.model =
        (Except.ok selection, w1))
    (hrequest : ∀ (w : σ) (accountId accountType : String), ∃ (e : JSError) (w2 : σ),
      options.requestFunc w accountId accountType = (Except.error e, w2) ∧
      shouldRetryError e (lastStatusCodeOf e) = true) :
    ∃ e : JSError,
      (executeWithRetry options world).log =
        [Event.select options.sessionHash (Except.ok selection),
          Event.request selection.accountId selection.accountType (Except.error e),
          Event.sleep 100] ++
        skippedAttempts options.sessionHash options.clearSessionOnRetry selection 1
          options.maxRetries.toNat ∧
      (executeWithRetry options world).result = Except.error e ∧
      ((selectTokens (executeWithRetry options world).log).length : Int) =
        options.maxRetries + 1 ∧
      requestedAccounts (executeWithRetry options world).log = [selection.accountId] ∧
      sleepDelays (executeWithRetry options world).log = [100] := by
  obtain ⟨w1, hw1⟩ := hselect world options.sessionHash
  obtain ⟨e, w2, hw2, hretry⟩ := hrequest w1 selection.accountId selection.accountType
  have hcatch : catchBlock options.maxRetries 0 e = some 100 := by
    rw [catchBlock_retryable _ _ _ hretry, if_neg (by push_cast; omega)]
    rfl
  obtain ⟨hlog, hres⟩ := executeWithRetryLoop_skips options selection hselect
    options.maxRetries.toNat 1 (some e) ([] ++ [selection.accountId]) w2 (by simp)
  have hrun : executeWithRetry options world =
      (executeWithRetryLoop options options.maxRetries.toNat 1 (some e)
        ([] ++ [selection.accountId]) w2).after
        [Event.select options.sessionHash (Except.ok selection),
          Event.request selection.accountId selection.accountType (Except.error e),
          Event.sleep 100] := by
    unfold executeWithRetry
    rw [toNat_maxRetries_succ _ (by omega), executeWithRetryLoop]
    simp [effectiveSessionHash, hw1, hw2, hcatch]
  obtain ⟨h1, h2, h3⟩ := skippedAttempts_projections (ρ := ρ) options.sessionHash
    options.clearSessionOnRetry selection options.maxRetries.toNat 1
  refine ⟨e, ?_, ?_, ?_, ?_, ?_⟩
  · rw [hrun, after_log, hlog]
  · rw [hrun, after_result, hres]
    rfl
  · rw [hrun, after_log, hlog, selectTokens_append, List.length_append, h1]
    simp only [selectTokens, List.length_cons, List.length_nil]
    push_cast
    rw [Int.toNat_of_nonneg (by omega)]
    omega
  · rw [hrun, after_log, hlog, requestedAccounts_append, h2]
    rfl
  · rw [hrun, after_log, hlog, sleepDelays_append, h3]
    rfl

/-- Witness of C23: the account `acct-0` on every selection, a request that fails with
429 and `maxRetries = 2`: three selections, one request, one sleep of 100 ms. -/
theorem executeWithRetry_same_account_witness :
    ∃ e : JSError,
      (executeWithRetry (optionsAlways429 sameAccount 2) ScriptWorld.start).log =
        [Event.select (some "session-1")
            (Except.ok { accountId := "acct-0", accountType := "claude" }),
          Event.request "acct-0" "claude" (Except.error e),
          Event.sleep 100] ++
        skippedAttempts (some "session-1") true
          { accountId := "acct-0", accountType := "claude" } 1 2 ∧
      (executeWithRetry (optionsAlways429 sameAccount 2) ScriptWorld.start).result =
        Except.error e ∧
      ((selectTokens (executeWithRetry (optionsAlways429 sameAccount 2)
        ScriptWorld.start).log).length : Int) = 2 + 1 ∧
      requestedAccounts (executeWithRetry (optionsAlways429 sameAccount 2)
        ScriptWorld.start).log = ["acct-0"] ∧
      sleepDelays (executeWithRetry (optionsAlways429 sameAccount 2)
        ScriptWorld.start).log = [100] :=
  executeWithRetry_same_account (optionsAlways429 sameAccount 2) ScriptWorld.start
    { accountId := "acct-0", accountType := "claude" } (by decide)
    (fun w _ => ⟨{ w with selects := w.selects + 1 }, rfl⟩)
    (fun w _ _ => ⟨JSError.withStatus "rate limited" 429,
      { w with requests := w.requests + 1 }, rfl, rfl⟩)

/-! ### The two orchestrators and the status of an error -/

theorem logicalOr_of_truthy (a b : JSValue) (h : a.truthy = true) : a.logicalOr b = a := by
  simp [JSValue.logicalOr, h]

theorem status_of_carried (error : JSError)
    (h : error.statusCode.truthy = true ∨ error.status.truthy = true) :
    lastStatusCodeOf error = consoleStatusCodeOf error := by
  have hinner : (error.statusCode.logicalOr error.status).truthy = true := by
    unfold JSValue.logicalOr
    by_cases hs : error.statusCode.truthy = true
    · rw [if_pos hs]; exact hs
    · rw [if_neg hs]
      rcases h with h | h
      · exact absurd h hs
      · exact h
  rw [lastStatusCodeOf, consoleStatusCodeOf, logicalOr_of_truthy _ _ hinner,
    logicalOr_of_truthy _ _ hinner]

theorem executeConsoleRequestWithRetryLoop_first_request {σ ρ : Type}
    (options : ConsoleRetryOptions σ ρ) (remaining attempt : Nat) (lastError : Option JSError)
    (world : σ) :
    1 ≤ (consoleRequests (executeConsoleRequestWithRetryLoop options (remaining + 1) attempt
      lastError world).log).length := by
  rcases executeConsoleRequestWithRetryLoop_succ options remaining attempt lastError world with
    ⟨r, w1, _, h⟩ | ⟨e, w1, _, _, h⟩ | ⟨e, w1, d, _, _, h⟩
  · rw [h]; simp [consoleRequests]
  · rw [h]; simp [consoleRequests]
  · rw [h, console_after_log, consoleRequests_append, List.length_append]
    simp [consoleRequests]

/-- C27: an error without `statusCode` and `status` whose `error.response.status` is
retryable gets the status `null` in `executeWithRetry`, which raises it after the
one request without a sleep, and the status `error.response.status` in
`executeConsoleRequestWithRetry`, which (with `maxRetries >= 1`) sleeps 200 ms and
calls `requestFunc` again; for every error that carries a `statusCode` or a `status`
the two derive the same status. -/
theorem orchestrators_classify_differently {σ τ ρ κ μ : Type} (options : RetryOptions σ ρ κ μ)
    (consoleOptions : ConsoleRetryOptions τ ρ) (world world1 world2 : σ)
    (consoleWorld consoleWorld1 : τ) (selection : AccountSelection) (error : JSError)
    (hstatusCode : error.statusCode = JSValue.undefined)
    (hstatus : error.status = JSValue.undefined)
    (hretryable : shouldRetryError error error.responseStatus = true)
    (hmax : 0 ≤ options.maxRetries) (hconsoleMax : 1 ≤ consoleOptions.maxRetries)
    (hselect : options.selectAccountFunc world options.apiKeyData options.sessionHash
      options.requestBody.model = (Except.ok selection, world1))
    (hrequest : options.requestFunc world1 selection.accountId selection.accountType =
      (Except.error error, world2))
    (hconsoleRequest : consoleOptions.requestFunc consoleWorld =
      (Except.error error, consoleWorld1)) :
    lastStatusCodeOf error = JSValue.null ∧
    consoleStatusCodeOf error = error.responseStatus ∧
    (executeWithRetry options world).result = Except.error error ∧
    requestedAccounts (executeWithRetry options world).log = [selection.accountId] ∧
    sleepDelays (executeWithRetry options world).log = [] ∧
    (∃ rest : List (ConsoleEvent ρ),
      (executeConsoleRequestWithRetry consoleOptions consoleWorld).log =
        ConsoleEvent.request (Except.error error) :: ConsoleEvent.sleep 200 :: rest ∧
      1 ≤ (consoleRequests rest).length) ∧
    (∀ other : JSError, other.statusCode.truthy = true ∨ other.status.truthy = true →
      lastStatusCodeOf other = consoleStatusCodeOf other) := by
  have hlast : lastStatusCodeOf error = JSValue.null := by
    simp [lastStatusCodeOf, JSValue.logicalOr, JSValue.truthy, hstatusCode, hstatus]
  have hconsole : consoleStatusCodeOf error = error.responseStatus := by
    simp [consoleStatusCodeOf, JSValue.logicalOr, JSValue.truthy, hstatusCode, hstatus]
  have hnot : shouldRetryError error (lastStatusCodeOf error) = false := by
    rw [hlast]; rfl
  have hrun : executeWithRetry options world =
      { result := Except.error error,
        log := [Event.select options.sessionHash (Except.ok selection),
          Event.request selection.accountId selection.accountType (Except.error error)],
        world := world2 } := by
    unfold executeWithRetry
    rw [toNat_maxRetries_succ _ hmax]
    simp [executeWithRetryLoop, effectiveSessionHash, hselect, hrequest,
      catchBlock_not_retryable _ _ _ hnot]
  have hcatch : consoleCatchBlock consoleOptions.maxRetries 0 error = some 200 := by
    rw [consoleCatchBlock_retryable _ _ _ (by rw [hconsole]; exact hretryable),
      if_neg (by push_cast; omega)]
  obtain ⟨m, hm⟩ : ∃ m, consoleOptions.maxRetries.toNat = m + 1 :=
    ⟨consoleOptions.maxRetries.toNat - 1, by omega⟩
  have hconsoleRun : executeConsoleRequestWithRetry consoleOptions consoleWorld =
      (executeConsoleRequestWithRetryLoop consoleOptions (m + 1) 1 (some error)
        consoleWorld1).after
        [ConsoleEvent.request (Except.error error), ConsoleEvent.sleep 200] := by
    unfold executeConsoleRequestWithRetry
    rw [toNat_maxRetries_succ _ (by omega), hm, executeConsoleRequestWithRetryLoop]
    simp only [hconsoleRequest, hcatch, Nat.zero_add]
  refine ⟨hlast, hconsole, ?_, ?_, ?_, ?_, status_of_carried⟩
  · rw [hrun]
  · rw [hrun]; rfl
  · rw [hrun]; rfl
  · exact ⟨_, by rw [hconsoleRun]; rfl,
      executeConsoleRequestWithRetryLoop_first_request consoleOptions m 1 (some error)
        consoleWorld1⟩

/-- Witness of C27: an error with `response.status = 503` and nothing else, under
`maxRetries = 2` for `executeWithRetry` and `maxRetries = 1` for the console call. -/
theorem orchestrators_classify_differently_witness :
    lastStatusCodeOf (JSError.withResponseStatus "unavailable" 503) = JSValue.null ∧
    consoleStatusCodeOf (JSError.withResponseStatus "unavailable" 503) = JSValue.num 503 ∧
    (executeWithRetry (optionsDistinct
        (fun _ => Except.error (JSError.withResponseStatus "unavailable" 503)) 2)
      ScriptWorld.start).result =
      Except.error (JSError.withResponseStatus "unavailable" 503) ∧
    requestedAccounts (executeWithRetry (optionsDistinct
        (fun _ => Except.error (JSError.withResponseStatus "unavailable" 503)) 2)
      ScriptWorld.start).log = ["acct-0"] ∧
    sleepDelays (executeWithRetry (optionsDistinct
        (fun _ => Except.error (JSError.withResponseStatus "unavailable" 503)) 2)
      ScriptWorld.start).log = [] ∧
    (∃ rest : List (ConsoleEvent String),
      (executeConsoleRequestWithRetry (scriptedConsoleOptions
          (fun _ => Except.error (JSError.withResponseStatus "unavailable" 503)) 1) 0).log =
        ConsoleEvent.request (Except.error (JSError.withResponseStatus "unavailable" 503)) ::
          ConsoleEvent.sleep 200 :: rest ∧
      1 ≤ (consoleRequests rest).length) ∧
    (∀ other : JSError, other.statusCode.truthy = true ∨ other.status.truthy = true →
      lastStatusCodeOf other = consoleStatusCodeOf other) :=
  orchestrators_classify_differently
    (optionsDistinct (fun _ => Except.error (JSError.withResponseStatus "unavailable" 503)) 2)
    (scriptedConsoleOptions
      (fun _ => Except.error (JSError.withResponseStatus "unavailable" 503)) 1)
    ScriptWorld.start { selects := 1, requests := 0 } { selects := 1, requests := 1 } 0 1
    { accountId := "acct-0", accountType := "claude" }
    (JSError.withResponseStatus "unavailable" 503) rfl rfl rfl (by decide) (by decide) rfl rfl rfl

end RelayFailover
